import Mathlib

/-!
Verification of the dhsmr zoned-block-device handler (file_dhsmr.c).

This file shallowly embeds the zoned-storage state engine of the handler:
the zone / realm / domain metadata model, the zone state machine
(open / close / finish / reset / write-pointer updates), the REPORT ZONES
serializer, the ZONE ACTIVATE / ZONE QUERY engine and the zoned read/write
checks, and proves properties of these definitions.

Modelling conventions:
- machine integers are Nat, with explicit `% 2^w` where C overflow semantics
  matter (LBA arithmetic, wire fields);
- the intrusive doubly-linked zone lists (prev/next indices plus
  head/tail/size in the metadata) are represented by the sequence of zone
  indices they carry: add-head conses, add-tail appends, remove erases, and
  the C test `prev == 0 && next == 0` ("not in any list") is membership in
  none of the four lists;
- file I/O is represented by the sequence of transfer segments the code
  would issue; the iovec scatter list is represented by its total byte
  length;
- the host page size returned by sysconf(_SC_PAGESIZE) is modelled as 4096.
-/

set_option maxHeartbeats 1000000
set_option linter.unusedVariables false

namespace DHSMR

/-- Cardinality of 64-bit machine words. -/
def U64 : Nat := 2 ^ 64

/-- ZBC_NO_WP: the ULLONG_MAX sentinel meaning "this zone has no write pointer". -/
def ZBC_NO_WP : Nat := U64 - 1

/-- Host page size, sysconf(_SC_PAGESIZE), modelled as the common 4096. -/
def sysconf_pagesize : Nat := 4096

/-- sizeof(struct zbc_zone): three __u64, two __u32, four __u8 and 36 reserved
bytes, laid out without padding on the supported hosts. -/
def sizeof_zbc_zone : Nat := 72

/-- sizeof(struct zbc_zone_realm): one __u32, three __u8, one reserved byte,
three bytes of padding to the 8-byte alignment of the four 16-byte
zbc_realm_item slots. -/
def sizeof_zbc_zone_realm : Nat := 72

/-- sizeof(struct zbc_meta): the fixed header with magic, version, sizes,
configuration, four 32-byte domain descriptors, four 16-byte zone list heads,
ten spare __u64 and the PATH_MAX(4096)-byte cached cfgstring. -/
def sizeof_zbc_meta : Nat := 4480

/-- zbc_meta_size: metadata size for the given realm and zone counts.  The C
code computes sysconf page size minus one into pg_size and then applies the
usual align-up expression (meta_size + pg_size - 1) & ~(pg_size - 1) over
size_t; the 64-bit complement ~m is (2^64 - 1) - m. -/
def zbc_meta_size (nr_realms nr_zones : Nat) : Nat :=
  let pg_size := sysconf_pagesize - 1
  let meta_size := sizeof_zbc_meta + nr_realms * sizeof_zbc_zone_realm +
    nr_zones * sizeof_zbc_zone
  (meta_size + pg_size - 1) &&& (U64 - 1 - (pg_size - 1))

/-- Raw (unaligned) total of the metadata structs for given counts. -/
def zbc_meta_raw (nr_realms nr_zones : Nat) : Nat :=
  sizeof_zbc_meta + nr_realms * sizeof_zbc_zone_realm + nr_zones * sizeof_zbc_zone

lemma mask_eq : (U64 - 1 - 4094 : Nat) = ((2 ^ 52 - 1) <<< 12) ||| 1 := by
  decide

lemma land_mask_of_even {y : Nat} (hy : y < 2 ^ 64) (he : y % 2 = 0) :
    y &&& (U64 - 1 - 4094) = y / 4096 * 4096 := by
  have hrhs : y / 4096 * 4096 = (y >>> 12) <<< 12 := by
    rw [Nat.shiftLeft_eq, Nat.shiftRight_eq_div_pow]
  rw [hrhs, mask_eq]
  apply Nat.eq_of_testBit_eq
  intro i
  rw [Nat.testBit_and, Nat.testBit_or, Nat.testBit_shiftLeft,
    Nat.testBit_shiftLeft, Nat.testBit_shiftRight, Nat.testBit_two_pow_sub_one]
  rcases Nat.eq_zero_or_pos i with hi0 | hipos
  · subst hi0
    have h0 : y.testBit 0 = false := by
      rw [Nat.testBit_zero]
      exact decide_eq_false (by omega)
    simp [h0]
  · have h1 : (1 : Nat).testBit i = false := by
      apply Nat.testBit_lt_two_pow
      have : 2 ^ 1 ≤ 2 ^ i := Nat.pow_le_pow_right (by norm_num) hipos
      omega
    rcases lt_or_ge i 12 with hlt | hge
    · simp [h1, decide_eq_false (by omega : ¬ 12 ≤ i)]
    · rcases lt_or_ge i 64 with hlt64 | hge64
      · have h12 : 12 + (i - 12) = i := by omega
        simp [h1, h12, decide_eq_true (by omega : 12 ≤ i),
          decide_eq_true (by omega : i - 12 < 52)]
      · have hyb : y.testBit i = false := by
          apply Nat.testBit_lt_two_pow
          calc y < 2 ^ 64 := hy
            _ ≤ 2 ^ i := Nat.pow_le_pow_right (by norm_num) hge64
        have h12 : 12 + (i - 12) = i := by omega
        simp [hyb, h12]

/-- C8: for every realm count and zone count (as 32-bit quantities), the
metadata size returned by zbc_meta_size equals the raw struct total rounded up
to the next multiple of the host page size; in particular it is a multiple of
the page size and never smaller than the raw total. -/
theorem zbc_meta_size_page_aligned (nr_realms nr_zones : Nat)
    (hr : nr_realms < 2 ^ 32) (hz : nr_zones < 2 ^ 32) :
    zbc_meta_size nr_realms nr_zones =
      sysconf_pagesize *
        ((zbc_meta_raw nr_realms nr_zones + sysconf_pagesize - 1) /
          sysconf_pagesize) ∧
    sysconf_pagesize ∣ zbc_meta_size nr_realms nr_zones ∧
    zbc_meta_raw nr_realms nr_zones ≤ zbc_meta_size nr_realms nr_zones := by
  have hraw : zbc_meta_raw nr_realms nr_zones =
      4480 + nr_realms * 72 + nr_zones * 72 := by
    simp [zbc_meta_raw, sizeof_zbc_meta, sizeof_zbc_zone_realm, sizeof_zbc_zone]
  have hms : zbc_meta_size nr_realms nr_zones =
      (zbc_meta_raw nr_realms nr_zones + 4094) &&& (U64 - 1 - 4094) := by
    simp [zbc_meta_size, zbc_meta_raw, sysconf_pagesize]
  set m := zbc_meta_raw nr_realms nr_zones with hm
  have hme : m % 2 = 0 := by omega
  have hmlt : m + 4094 < 2 ^ 64 := by
    have : m ≤ 4480 + (2 ^ 32) * 72 + (2 ^ 32) * 72 := by
      rw [hraw]
      have h1 : nr_realms * 72 ≤ 2 ^ 32 * 72 := by
        exact Nat.mul_le_mul_right 72 (le_of_lt hr)
      have h2 : nr_zones * 72 ≤ 2 ^ 32 * 72 := by
        exact Nat.mul_le_mul_right 72 (le_of_lt hz)
      omega
    norm_num at this ⊢
    omega
  have key : zbc_meta_size nr_realms nr_zones = (m + 4094) / 4096 * 4096 := by
    rw [hms]
    exact land_mask_of_even hmlt (by omega)
  have hdiv : (m + 4094) / 4096 = (m + 4095) / 4096 := by omega
  refine ⟨?_, ?_, ?_⟩
  · rw [key, hdiv]
    show _ = sysconf_pagesize * ((m + sysconf_pagesize - 1) / sysconf_pagesize)
    simp only [sysconf_pagesize]
    omega
  · rw [key]
    exact Dvd.intro_left _ rfl
  · rw [key, hdiv]
    omega

/-- Witness for zbc_meta_size_page_aligned at a concrete geometry. -/
theorem zbc_meta_size_page_aligned_witness :
    zbc_meta_size 16 144 =
      sysconf_pagesize *
        ((zbc_meta_raw 16 144 + sysconf_pagesize - 1) / sysconf_pagesize) ∧
    sysconf_pagesize ∣ zbc_meta_size 16 144 ∧
    zbc_meta_raw 16 144 ≤ zbc_meta_size 16 144 :=
  zbc_meta_size_page_aligned 16 144 (by norm_num) (by norm_num)

/-! ## Zone, domain and realm data model -/

/-- enum zbc_zone_type. -/
inductive ZoneType where
  | conventional
  | seqWriteReq
  | seqWritePref
  | seqOrBefReq
  | gap
deriving DecidableEq, Repr

/-- Numeric codes of enum zbc_zone_type (0x1 .. 0x5). -/
def ZoneType.code : ZoneType → Nat
  | .conventional => 0x1
  | .seqWriteReq => 0x2
  | .seqWritePref => 0x3
  | .seqOrBefReq => 0x4
  | .gap => 0x5

/-- enum zbc_zone_cond. -/
inductive ZoneCond where
  | notWp
  | empty
  | impOpen
  | expOpen
  | closed
  | inactive
  | readonly
  | full
  | offline
deriving DecidableEq, Repr

/-- Numeric codes of enum zbc_zone_cond. -/
def ZoneCond.code : ZoneCond → Nat
  | .notWp => 0x0
  | .empty => 0x1
  | .impOpen => 0x2
  | .expOpen => 0x3
  | .closed => 0x4
  | .inactive => 0x5
  | .readonly => 0xD
  | .full => 0xE
  | .offline => 0xF

/-- struct zbc_zone (metadata zone descriptor).  The intrusive next/prev list
link fields are represented by the four index lists of the device state. -/
structure Zone where
  start : Nat
  len : Nat
  wp : Nat
  type : ZoneType
  cond : ZoneCond
  non_seq : Bool
  reset : Bool
deriving DecidableEq, Repr

instance : Inhabited Zone :=
  ⟨⟨0, 0, 0, ZoneType.conventional, ZoneCond.notWp, false, false⟩⟩

/-- zbc_zone_conv. -/
abbrev zbc_zone_conv (z : Zone) : Prop := z.type = ZoneType.conventional

/-- zbc_zone_seq_req. -/
abbrev zbc_zone_seq_req (z : Zone) : Prop := z.type = ZoneType.seqWriteReq

/-- zbc_zone_seq_pref. -/
abbrev zbc_zone_seq_pref (z : Zone) : Prop := z.type = ZoneType.seqWritePref

/-- zbc_zone_sobr. -/
abbrev zbc_zone_sobr (z : Zone) : Prop := z.type = ZoneType.seqOrBefReq

/-- zbc_zone_nseq: conventional or SOBR. -/
abbrev zbc_zone_nseq (z : Zone) : Prop := zbc_zone_conv z ∨ zbc_zone_sobr z

/-- zbc_zone_seq: not conventional and not SOBR. -/
abbrev zbc_zone_seq (z : Zone) : Prop := ¬ zbc_zone_nseq z

/-- zbc_zone_gap. -/
abbrev zbc_zone_gap (z : Zone) : Prop := z.type = ZoneType.gap

/-- zbc_zone_not_wp. -/
abbrev zbc_zone_not_wp (z : Zone) : Prop := z.cond = ZoneCond.notWp

/-- zbc_zone_empty. -/
abbrev zbc_zone_empty (z : Zone) : Prop := z.cond = ZoneCond.empty

/-- zbc_zone_imp_open. -/
abbrev zbc_zone_imp_open (z : Zone) : Prop := z.cond = ZoneCond.impOpen

/-- zbc_zone_exp_open. -/
abbrev zbc_zone_exp_open (z : Zone) : Prop := z.cond = ZoneCond.expOpen

/-- zbc_zone_is_open. -/
abbrev zbc_zone_is_open (z : Zone) : Prop := zbc_zone_imp_open z ∨ zbc_zone_exp_open z

/-- zbc_zone_closed. -/
abbrev zbc_zone_closed (z : Zone) : Prop := z.cond = ZoneCond.closed

/-- zbc_zone_inactive. -/
abbrev zbc_zone_inactive (z : Zone) : Prop := z.cond = ZoneCond.inactive

/-- zbc_zone_rdonly. -/
abbrev zbc_zone_rdonly (z : Zone) : Prop := z.cond = ZoneCond.readonly

/-- zbc_zone_full. -/
abbrev zbc_zone_full (z : Zone) : Prop := z.cond = ZoneCond.full

/-- zbc_zone_offline. -/
abbrev zbc_zone_offline (z : Zone) : Prop := z.cond = ZoneCond.offline

/-- zbc_zone_rwp: reset write pointer recommended. -/
abbrev zbc_zone_rwp (z : Zone) : Prop := z.reset = true

/-- zbc_zone_non_seq. -/
abbrev zbc_zone_non_seq (z : Zone) : Prop := z.non_seq = true

/-- struct zbc_zone_domain. -/
structure ZoneDomain where
  start_lba : Nat
  end_lba : Nat
  nr_zones : Nat
  type : ZoneType
  smr : Bool
deriving DecidableEq, Repr

instance : Inhabited ZoneDomain :=
  ⟨⟨0, 0, 0, ZoneType.conventional, false⟩⟩

/-- zbc_smr_domain (the ZBC_DFLG_SMR flag). -/
abbrev zbc_smr_domain (d : ZoneDomain) : Prop := d.smr = true

/-- struct zbc_realm_item: metadata of one zone type inside a realm. -/
structure RealmItem where
  start_lba : Nat
  length : Nat
  start_zone : Nat
deriving DecidableEq, Repr

/-- struct zbc_zone_realm: the ri[ZBC_NR_ZONE_TYPES] array indexed by
(zone type - 1) is spelled out as four slot fields. -/
structure ZoneRealm where
  number : Nat
  type : ZoneType
  flags : Nat
  restr : Nat
  riConv : RealmItem
  riSwr : RealmItem
  riSwp : RealmItem
  riSobr : RealmItem
deriving DecidableEq, Repr

instance : Inhabited ZoneRealm :=
  ⟨⟨0, ZoneType.conventional, 0, 0, ⟨0, 0, 0⟩, ⟨0, 0, 0⟩, ⟨0, 0, 0⟩, ⟨0, 0, 0⟩⟩⟩

/-- zbc_get_realm_item: the ri slot for a zone type (gap has no slot). -/
def zbc_get_realm_item (r : ZoneRealm) : ZoneType → RealmItem
  | .conventional => r.riConv
  | .seqWriteReq => r.riSwr
  | .seqWritePref => r.riSwp
  | .seqOrBefReq => r.riSobr
  | .gap => ⟨0, 0, 0⟩

/-- zbc_realm_start. -/
def zbc_realm_start (r : ZoneRealm) (rt : ZoneType) : Nat :=
  (zbc_get_realm_item r rt).start_lba

/-- zbc_realm_length. -/
def zbc_realm_length (r : ZoneRealm) (rt : ZoneType) : Nat :=
  (zbc_get_realm_item r rt).length

/-- zbc_can_actv_realm_as: realm activation flag bit (1 << (rt - 1)). -/
abbrev zbc_can_actv_realm_as (r : ZoneRealm) (rt : ZoneType) : Prop :=
  r.flags.testBit (rt.code - 1) = true

/-- zbc_act_type_nowp. -/
abbrev zbc_act_type_nowp (t : ZoneType) : Prop := t = ZoneType.conventional

/-- zbc_act_type_sobr. -/
abbrev zbc_act_type_sobr (t : ZoneType) : Prop := t = ZoneType.seqOrBefReq

/-- zbc_act_type_seq_r. -/
abbrev zbc_act_type_seq_r (t : ZoneType) : Prop := t = ZoneType.seqWriteReq

/-- zbc_act_type_seq_p. -/
abbrev zbc_act_type_seq_p (t : ZoneType) : Prop := t = ZoneType.seqWritePref

/-- zbc_realm_nowp. -/
abbrev zbc_realm_nowp (r : ZoneRealm) : Prop := r.type = ZoneType.conventional

/-- zbc_realm_sobr. -/
abbrev zbc_realm_sobr (r : ZoneRealm) : Prop := r.type = ZoneType.seqOrBefReq

/-- zbc_realm_seq_r. -/
abbrev zbc_realm_seq_r (r : ZoneRealm) : Prop := r.type = ZoneType.seqWriteReq

/-- zbc_realm_seq_p. -/
abbrev zbc_realm_seq_p (r : ZoneRealm) : Prop := r.type = ZoneType.seqWritePref

/-! ## Command status and sense data -/

/-- Sense keys issued by the handler (framework constants). -/
inductive SenseKey where
  | illegalRequest
  | dataProtect
  | hardwareError
  | mediumError
deriving DecidableEq, Repr

/-- Additional sense codes issued by the handler (framework constants). -/
inductive Asc where
  | lbaOutOfRange
  | invalidFieldInCdb
  | unalignedWrite
  | writeBoundaryViolation
  | readBoundaryViolation
  | attemptToReadInvalidData
  | attemptToAccessGapZone
  | zoneIsInactive
  | zoneIsOffline
  | zoneIsReadOnly
  | insufficientZoneResources
  | readError
  | writeError
  | internalTargetFailure
deriving DecidableEq, Repr

/-- Handler completion status: TCMU_STS_OK or a sense pair set by
zbc_set_sense. -/
inductive Status where
  | ok
  | sense (sk : SenseKey) (asc : Asc)
deriving DecidableEq, Repr

/-! ## Device state -/

/-- In-memory device state: the zone array, the four persistent zone lists
(represented by their index sequences), the open/empty counters, the realm
and domain tables and the derived geometry fields used by the verified
paths.  Counters are Nat; the u32 counter fields never wrap in the verified
states. -/
structure ZDev where
  zones : List Zone
  imp_open_zones : List Nat
  exp_open_zones : List Nat
  closed_zones : List Nat
  seq_active_zones : List Nat
  nr_imp_open : Nat
  nr_exp_open : Nat
  nr_open_zones : Nat
  nr_empty_zones : Nat
  min_empty_zones : Nat
  max_imp_open_seq_zones : Nat
  max_exp_open_seq_zones : Nat
  max_open_zones : Nat
  failed_exp_opens : Nat
  read_rule_fails : Nat
  write_rule_fails : Nat
  logical_capacity : Nat
  zone_log2 : Nat
  lba_log2 : Nat
  zone_size : Nat
  domains : List ZoneDomain
  realms : List ZoneRealm
  realms_feat_set : Bool
  nr_actv_zones : Nat
  nr_cmr_realm_zones : Nat
  nr_smr_realm_zones : Nat
  cmr_nr_zones_to_smr : List Nat
  smr_nr_zones_to_cmr : List Nat
  zone_type_to_dom : List (Option Nat)
  wp_check : Bool
deriving DecidableEq, Repr

/-- Number of zones (zdev->nr_zones, equal to the zone array length). -/
def ZDev.nr_zones (zdev : ZDev) : Nat := zdev.zones.length

/-- Number of domains (zdev->nr_domains). -/
def ZDev.nr_domains (zdev : ZDev) : Nat := zdev.domains.length

/-- Number of realms (zdev->nr_realms). -/
def ZDev.nr_realms (zdev : ZDev) : Nat := zdev.realms.length

/-- Read zone descriptor i (zdev->zones[i]). -/
def getZone (zdev : ZDev) (i : Nat) : Zone := zdev.zones.getD i default

/-- Write zone descriptor i. -/
def setZone (zdev : ZDev) (i : Nat) (z : Zone) : ZDev :=
  { zdev with zones := zdev.zones.set i z }

/-- Read realm descriptor i (zdev->realms[i]). -/
def getRealm (zdev : ZDev) (i : Nat) : ZoneRealm := zdev.realms.getD i default

/-- Write realm descriptor i. -/
def setRealm (zdev : ZDev) (i : Nat) (r : ZoneRealm) : ZDev :=
  { zdev with realms := zdev.realms.set i r }

/-- Read domain descriptor i (zdev->domains[i]). -/
def getDomain (zdev : ZDev) (i : Nat) : ZoneDomain := zdev.domains.getD i default

/-- Selector for the four zone lists of the device state. -/
inductive WhichList where
  | impOpenList
  | expOpenList
  | closedList
  | seqActiveList
deriving DecidableEq, Repr

/-- Project one of the four zone lists. -/
def getList (zdev : ZDev) : WhichList → List Nat
  | .impOpenList => zdev.imp_open_zones
  | .expOpenList => zdev.exp_open_zones
  | .closedList => zdev.closed_zones
  | .seqActiveList => zdev.seq_active_zones

/-- Replace one of the four zone lists. -/
def setList (zdev : ZDev) (w : WhichList) (l : List Nat) : ZDev :=
  match w with
  | .impOpenList => { zdev with imp_open_zones := l }
  | .expOpenList => { zdev with exp_open_zones := l }
  | .closedList => { zdev with closed_zones := l }
  | .seqActiveList => { zdev with seq_active_zones := l }

/-- zbc_zone_not_in_list: the C test prev == 0 && next == 0, i.e. the zone is
linked in none of the four lists. -/
abbrev zbc_zone_not_in_list (zdev : ZDev) (i : Nat) : Prop :=
  i ∉ zdev.imp_open_zones ∧ i ∉ zdev.exp_open_zones ∧
    i ∉ zdev.closed_zones ∧ i ∉ zdev.seq_active_zones

/-- zbc_add_zone_head. -/
def zbc_add_zone_head (zdev : ZDev) (w : WhichList) (i : Nat) : ZDev :=
  setList zdev w (i :: getList zdev w)

/-- zbc_add_zone_tail. -/
def zbc_add_zone_tail (zdev : ZDev) (w : WhichList) (i : Nat) : ZDev :=
  setList zdev w (getList zdev w ++ [i])

/-- zbc_remove_zone: the zone must be linked in the list. -/
def zbc_remove_zone (zdev : ZDev) (w : WhichList) (i : Nat) : ZDev :=
  setList zdev w ((getList zdev w).erase i)

/-- zbc_unlink_zone: remove a zone from its list based on its condition; noop
when the zone is in no list, and (after an error log) when the condition names
no list. -/
def zbc_unlink_zone (zdev : ZDev) (i : Nat) : ZDev :=
  if zbc_zone_not_in_list zdev i then zdev
  else
    match (getZone zdev i).cond with
    | ZoneCond.impOpen => zbc_remove_zone zdev WhichList.impOpenList i
    | ZoneCond.expOpen => zbc_remove_zone zdev WhichList.expOpenList i
    | ZoneCond.closed => zbc_remove_zone zdev WhichList.closedList i
    | ZoneCond.empty => zbc_remove_zone zdev WhichList.seqActiveList i
    | ZoneCond.full => zbc_remove_zone zdev WhichList.seqActiveList i
    | _ => zdev

/-- zbc_on_cond_change: account an empty zone leaving the EMPTY condition. -/
def zbc_on_cond_change (zdev : ZDev) (i : Nat) (cond : ZoneCond) : ZDev :=
  if zbc_zone_empty (getZone zdev i) ∧ cond ≠ ZoneCond.empty then
    let zdev := { zdev with nr_empty_zones := zdev.nr_empty_zones - 1 }
    if zdev.min_empty_zones > zdev.nr_empty_zones then
      { zdev with min_empty_zones := zdev.nr_empty_zones }
    else zdev
  else zdev

/-- zbc_ozr_check: true when add_val more SWR explicit opens still fit. -/
abbrev zbc_ozr_check (zdev : ZDev) (add_val : Nat) : Prop :=
  ¬ (zdev.nr_exp_open + add_val > zdev.nr_open_zones)

/-- zbc_get_zone: zone index of an LBA by shift, NULL when past the last zone
or (for lowest) when the LBA is not the zone start. -/
def zbc_get_zone (zdev : ZDev) (lba : Nat) (lowest : Bool) : Option Nat :=
  let zno := lba >>> zdev.zone_log2
  if zno ≥ zdev.nr_zones then none
  else if lowest ∧ lba ≠ (getZone zdev zno).start then none
  else some zno

/-- zbc_get_zone_domain: index of the domain holding a zone, none (-1) for
gap zones and when no domain end reaches the zone start. -/
def zbc_get_zone_domain (zdev : ZDev) (i : Nat) : Option Nat :=
  if zbc_zone_gap (getZone zdev i) then none
  else (List.range zdev.nr_domains).find?
    (fun k => (getZone zdev i).start ≤ (getDomain zdev k).end_lba)

/-- zbc_lba_out_of_range: the C comparison over uint64 with wrap-around. -/
abbrev zbc_lba_out_of_range (zdev : ZDev) (lba : Nat) (nr_lbas : Nat) : Prop :=
  lba ≥ zdev.logical_capacity ∨
    (lba + nr_lbas) % U64 > zdev.logical_capacity ∨
    (lba + nr_lbas) % U64 < lba

/-! ## Zone state machine -/

/-- __zbc_close_zone. -/
def __zbc_close_zone (zdev : ZDev) (i : Nat) : ZDev :=
  let z := getZone zdev i
  if zbc_zone_conv z ∨ ¬ zbc_zone_is_open z then zdev
  else if zbc_zone_sobr z then zdev
  else
    let zdev :=
      if ¬ zbc_zone_seq_req z then zdev
      else if zbc_zone_imp_open z then
        { zdev with nr_imp_open := zdev.nr_imp_open - 1 }
      else { zdev with nr_exp_open := zdev.nr_exp_open - 1 }
    let zdev := zbc_unlink_zone zdev i
    if z.wp = z.start then
      let zdev := setZone zdev i { z with cond := ZoneCond.empty }
      let zdev := zbc_add_zone_tail zdev WhichList.seqActiveList i
      { zdev with nr_empty_zones := zdev.nr_empty_zones + 1 }
    else
      let zdev := setZone zdev i { z with cond := ZoneCond.closed }
      zbc_add_zone_head zdev WhichList.closedList i

/-- Traversal of __zbc_close_imp_open_zone over the snapshot of the implicit
open list (the C loop captures each next pointer before closing). -/
def closeImpOpenWalk (zdev : ZDev) : List Nat → ZDev
  | [] => zdev
  | i :: rest =>
    let zdev2 := __zbc_close_zone zdev i
    if zdev2.nr_imp_open + zdev2.nr_exp_open < zdev2.nr_open_zones then zdev2
    else closeImpOpenWalk zdev2 rest

/-- __zbc_close_imp_open_zone: close implicitly open zones from the head of
the list until the open counters drop below the maximum. -/
def __zbc_close_imp_open_zone (zdev : ZDev) : ZDev :=
  closeImpOpenWalk zdev zdev.imp_open_zones

/-- __zbc_open_zone: explicitly or implicitly open a zone. -/
def __zbc_open_zone (zdev : ZDev) (i : Nat) (explicit : Bool) : ZDev :=
  let z0 := getZone zdev i
  if zbc_zone_conv z0 ∨ zbc_zone_inactive z0 ∨ zbc_zone_offline z0 ∨
      zbc_zone_rdonly z0 then zdev
  else if zbc_zone_exp_open z0 ∨ (¬ explicit ∧ zbc_zone_imp_open z0) then zdev
  else
    let zdev :=
      if zbc_zone_seq_req z0 ∧
          zdev.nr_imp_open + zdev.nr_exp_open ≥ zdev.nr_open_zones then
        __zbc_close_imp_open_zone zdev
      else zdev
    let z := getZone zdev i
    let zdev := zbc_unlink_zone zdev i
    let zdev := zbc_on_cond_change zdev i ZoneCond.expOpen
    if explicit then
      let zdev := setZone zdev i { z with cond := ZoneCond.expOpen }
      let zdev :=
        if zbc_zone_seq_req z then
          { zdev with nr_exp_open := zdev.nr_exp_open + 1 }
        else zdev
      let zdev := zbc_add_zone_tail zdev WhichList.expOpenList i
      let zdev :=
        if zdev.nr_exp_open > zdev.max_exp_open_seq_zones then
          { zdev with max_exp_open_seq_zones := zdev.nr_exp_open }
        else zdev
      if zdev.nr_exp_open + zdev.nr_imp_open > zdev.max_open_zones then
        { zdev with max_open_zones := zdev.nr_exp_open + zdev.nr_imp_open }
      else zdev
    else
      let zdev := setZone zdev i { z with cond := ZoneCond.impOpen }
      let zdev :=
        if zbc_zone_seq_req z then
          { zdev with nr_imp_open := zdev.nr_imp_open + 1 }
        else zdev
      let zdev := zbc_add_zone_tail zdev WhichList.impOpenList i
      let zdev :=
        if zdev.nr_imp_open > zdev.max_imp_open_seq_zones then
          { zdev with max_imp_open_seq_zones := zdev.nr_imp_open }
        else zdev
      if zdev.nr_exp_open + zdev.nr_imp_open > zdev.max_open_zones then
        { zdev with max_open_zones := zdev.nr_exp_open + zdev.nr_imp_open }
      else zdev

/-- __zbc_finish_zone. -/
def __zbc_finish_zone (zdev : ZDev) (i : Nat) (empty : Bool) : ZDev :=
  let z := getZone zdev i
  if zbc_zone_conv z ∨ zbc_zone_inactive z ∨ zbc_zone_offline z ∨
      zbc_zone_rdonly z then zdev
  else if zbc_zone_closed z ∨ zbc_zone_is_open z ∨
      (empty ∧ zbc_zone_empty z) then
    let zdev := if zbc_zone_is_open z then __zbc_close_zone zdev i else zdev
    let z1 := getZone zdev i
    let zdev := zbc_on_cond_change zdev i ZoneCond.full
    let zdev := zbc_unlink_zone zdev i
    let wp1 := if zbc_zone_sobr z1 then ZBC_NO_WP else z1.start + z1.len
    let z2 : Zone := { z1 with wp := wp1, cond := ZoneCond.full }
    let zdev := setZone zdev i { z2 with non_seq := false, reset := false }
    zbc_add_zone_tail zdev WhichList.seqActiveList i
  else zdev

/-- __zbc_reset_wp. -/
def __zbc_reset_wp (zdev : ZDev) (i : Nat) : ZDev :=
  let z0 := getZone zdev i
  let zdev := if zbc_zone_is_open z0 then __zbc_close_zone zdev i else zdev
  let z := getZone zdev i
  let zdev :=
    if zbc_zone_inactive z ∨ zbc_zone_offline z ∨ zbc_zone_rdonly z then
      setZone zdev i { z with wp := ZBC_NO_WP }
    else if zbc_zone_conv z then
      setZone zdev i { z with cond := ZoneCond.notWp, wp := ZBC_NO_WP }
    else if ¬ zbc_zone_empty z then
      let zdev := zbc_unlink_zone zdev i
      let zdev := setZone zdev i { z with cond := ZoneCond.empty, wp := z.start }
      let zdev := zbc_add_zone_head zdev WhichList.seqActiveList i
      { zdev with nr_empty_zones := zdev.nr_empty_zones + 1 }
    else zdev
  let zf := getZone zdev i
  setZone zdev i { zf with non_seq := false, reset := false }

/-! ## Zone command handlers -/

/-- Index range of the C loops `for (z = zone, c = count; c && z <= last;
z++, c--)`. -/
def zoneRange (zone last count : Nat) : List Nat :=
  (List.range (min count (last + 1 - zone))).map (fun k => zone + k)

/-- zbc_get_check_zone: common validation for the zone operation commands;
returns the start zone index and the index bound for the range loops. -/
def zbc_get_check_zone (zdev : ZDev) (lba count : Nat) :
    Except Status (Nat × Nat) :=
  if zbc_lba_out_of_range zdev lba zdev.zone_size then
    Except.error (Status.sense SenseKey.illegalRequest Asc.lbaOutOfRange)
  else
    match zbc_get_zone zdev lba true with
    | none =>
      Except.error (Status.sense SenseKey.illegalRequest Asc.invalidFieldInCdb)
    | some zi =>
      let z := getZone zdev zi
      if zbc_zone_gap z then
        Except.error
          (Status.sense SenseKey.illegalRequest Asc.attemptToAccessGapZone)
      else if zbc_zone_conv z then
        Except.error
          (Status.sense SenseKey.illegalRequest Asc.invalidFieldInCdb)
      else if count ≤ 1 then
        if zbc_zone_inactive z then
          Except.error (Status.sense SenseKey.dataProtect Asc.zoneIsInactive)
        else if zbc_zone_offline z then
          Except.error (Status.sense SenseKey.dataProtect Asc.zoneIsOffline)
        else if zbc_zone_rdonly z then
          Except.error (Status.sense SenseKey.dataProtect Asc.zoneIsReadOnly)
        else Except.ok (zi, zi + count - 1)
      else
        if zbc_get_zone_domain zdev zi ≠
            zbc_get_zone_domain zdev (zi + count - 1) then
          Except.error
            (Status.sense SenseKey.illegalRequest Asc.invalidFieldInCdb)
        else
          let lastB := zdev.nr_zones - 1
          match (zoneRange zi lastB count).find?
              (fun j => decide (zbc_zone_gap (getZone zdev j)) ||
                decide (zbc_zone_conv (getZone zdev j))) with
          | some j =>
            if zbc_zone_gap (getZone zdev j) then
              Except.error (Status.sense SenseKey.illegalRequest
                Asc.attemptToAccessGapZone)
            else
              Except.error (Status.sense SenseKey.illegalRequest
                Asc.invalidFieldInCdb)
          | none => Except.ok (zi, lastB)

/-- zbc_close_zone command emulation. -/
def zbc_close_zone (zdev : ZDev) (lba count : Nat) (all : Bool) :
    Status × ZDev :=
  if all then
    if count ≠ 0 then
      (Status.sense SenseKey.illegalRequest Asc.invalidFieldInCdb, zdev)
    else
      let zdev1 := zdev.imp_open_zones.foldl __zbc_close_zone zdev
      let zdev2 := zdev1.exp_open_zones.foldl __zbc_close_zone zdev1
      (Status.ok, zdev2)
  else
    match zbc_get_check_zone zdev lba count with
    | Except.error s => (s, zdev)
    | Except.ok (zi, last) =>
      if (zoneRange zi last count).any
          (fun j => decide (zbc_zone_sobr (getZone zdev j))) then
        (Status.sense SenseKey.illegalRequest Asc.invalidFieldInCdb, zdev)
      else
        (Status.ok, (zoneRange zi last count).foldl __zbc_close_zone zdev)

/-- Error scan of the range loop of zbc_open_zone (nr_open accumulates the
prospective SWR opens checked against the budget). -/
def openPrecheck (zdev : ZDev) : List Nat → Nat → Option Status
  | [], _ => none
  | j :: rest, nr_open =>
    let z := getZone zdev j
    if zbc_zone_sobr z then
      some (Status.sense SenseKey.illegalRequest Asc.invalidFieldInCdb)
    else if zbc_zone_exp_open z ∨ zbc_zone_full z then
      openPrecheck zdev rest nr_open
    else if zbc_zone_seq_req z then
      if ¬ zbc_ozr_check zdev (nr_open + 1) then
        some (Status.sense SenseKey.dataProtect Asc.insufficientZoneResources)
      else openPrecheck zdev rest (nr_open + 1)
    else openPrecheck zdev rest nr_open

/-- Body of the final loop of zbc_open_zone: skip already explicitly open and
full zones, close an implicitly open zone first, then open explicitly. -/
def zbc_open_zone_step (zdev : ZDev) (j : Nat) : ZDev :=
  let z := getZone zdev j
  if zbc_zone_exp_open z ∨ zbc_zone_full z then zdev
  else
    let zdev := if zbc_zone_imp_open z then __zbc_close_zone zdev j else zdev
    __zbc_open_zone zdev j true

/-- zbc_open_zone command emulation. -/
def zbc_open_zone (zdev : ZDev) (lba count : Nat) (all : Bool) :
    Status × ZDev :=
  if all then
    if count ≠ 0 then
      (Status.sense SenseKey.illegalRequest Asc.invalidFieldInCdb, zdev)
    else
      let nr_closed := zdev.closed_zones.countP
        (fun j => decide (zbc_zone_seq_req (getZone zdev j)))
      if ¬ zbc_ozr_check zdev nr_closed then
        (Status.sense SenseKey.dataProtect Asc.insufficientZoneResources,
          { zdev with failed_exp_opens := zdev.failed_exp_opens + 1 })
      else
        (Status.ok,
          zdev.closed_zones.foldl (fun s j => __zbc_open_zone s j true) zdev)
  else
    match zbc_get_check_zone zdev lba count with
    | Except.error s =>
      (s, { zdev with failed_exp_opens := zdev.failed_exp_opens + 1 })
    | Except.ok (zi, last) =>
      match openPrecheck zdev (zoneRange zi last count) 0 with
      | some s =>
        if s = Status.sense SenseKey.dataProtect
            Asc.insufficientZoneResources then
          (s, { zdev with failed_exp_opens := zdev.failed_exp_opens + 1 })
        else (s, zdev)
      | none =>
        (Status.ok, (zoneRange zi last count).foldl zbc_open_zone_step zdev)

/-- Error scan of the range loop of zbc_finish_zone. -/
def finishCheckOne (zdev : ZDev) (j : Nat) : Option Status :=
  let z := getZone zdev j
  if zbc_zone_inactive z then
    some (Status.sense SenseKey.dataProtect Asc.zoneIsInactive)
  else if zbc_zone_offline z then
    some (Status.sense SenseKey.dataProtect Asc.zoneIsOffline)
  else if zbc_zone_rdonly z then
    some (Status.sense SenseKey.dataProtect Asc.zoneIsReadOnly)
  else if zbc_zone_seq_req z ∧ (zbc_zone_closed z ∨ zbc_zone_empty z) ∧
      ¬ zbc_ozr_check zdev 1 then
    some (Status.sense SenseKey.dataProtect Asc.insufficientZoneResources)
  else none

/-- zbc_finish_zone command emulation. -/
def zbc_finish_zone (zdev : ZDev) (lba count : Nat) (all : Bool) :
    Status × ZDev :=
  if all then
    if count ≠ 0 then
      (Status.sense SenseKey.illegalRequest Asc.invalidFieldInCdb, zdev)
    else
      let zdev1 := zdev.imp_open_zones.foldl
        (fun s j => __zbc_finish_zone s j false) zdev
      let zdev2 := zdev1.exp_open_zones.foldl
        (fun s j => __zbc_finish_zone s j false) zdev1
      let zdev3 := zdev2.closed_zones.foldl
        (fun s j => __zbc_finish_zone s j false) zdev2
      (Status.ok, zdev3)
  else
    match zbc_get_check_zone zdev lba count with
    | Except.error s => (s, zdev)
    | Except.ok (zi, last) =>
      match (zoneRange zi last count).findSome? (finishCheckOne zdev) with
      | some s => (s, zdev)
      | none =>
        (Status.ok,
          (zoneRange zi last count).foldl
            (fun s j => __zbc_finish_zone s j true) zdev)

/-- zbc_reset_wp command emulation. -/
def zbc_reset_wp (zdev : ZDev) (lba count : Nat) (all : Bool) :
    Status × ZDev :=
  if all then
    if count ≠ 0 then
      (Status.sense SenseKey.illegalRequest Asc.invalidFieldInCdb, zdev)
    else
      let zdev1 := zdev.seq_active_zones.foldl __zbc_reset_wp zdev
      let zdev2 := zdev1.imp_open_zones.foldl __zbc_reset_wp zdev1
      let zdev3 := zdev2.exp_open_zones.foldl __zbc_reset_wp zdev2
      let zdev4 := zdev3.closed_zones.foldl __zbc_reset_wp zdev3
      (Status.ok, zdev4)
  else
    match zbc_get_check_zone zdev lba count with
    | Except.error s => (s, zdev)
    | Except.ok (zi, last) =>
      (Status.ok, (zoneRange zi last count).foldl __zbc_reset_wp zdev)

/-! ## Read / write path -/

/-- zbc_check_rdwr: LBA range and iovec length validation (the iovec is
represented by its total byte length). -/
def zbc_check_rdwr (zdev : ZDev) (lba nr_lbas iov_length : Nat) : Status :=
  if zbc_lba_out_of_range zdev lba nr_lbas then
    Status.sense SenseKey.illegalRequest Asc.lbaOutOfRange
  else if iov_length ≠ nr_lbas <<< zdev.lba_log2 then
    Status.sense SenseKey.hardwareError Asc.internalTargetFailure
  else Status.ok

/-- zbc_get_zone_lba_count: LBAs of the transfer that fall in this zone
(the uint64 subtraction never underflows for in-zone start LBAs). -/
def zbc_get_zone_lba_count (z : Zone) (start_lba nr_lbas : Nat) : Nat :=
  if start_lba + nr_lbas > z.start + z.len then z.start + z.len - start_lba
  else nr_lbas

/-- zbc_get_zone_boundary: upper boundary of valid data in a zone. -/
def zbc_get_zone_boundary (z : Zone) : Nat :=
  if zbc_zone_empty z ∨ zbc_zone_gap z then z.start
  else if zbc_zone_not_wp z ∨ zbc_zone_full z then z.start + z.len
  else z.wp

/-- zbc_zone_ok_to_read: none means the zone passed all read checks,
otherwise the sense pair set. -/
def zbc_zone_ok_to_read (zdev : ZDev) (z : Zone) (lba nr_lbas : Nat)
    (first_zn_type : ZoneType) : Option Status :=
  if zbc_zone_gap z ∧ zdev.wp_check then
    some (Status.sense SenseKey.illegalRequest Asc.attemptToAccessGapZone)
  else if zbc_zone_offline z then
    some (Status.sense SenseKey.dataProtect Asc.zoneIsOffline)
  else if zbc_zone_inactive z ∧ zdev.wp_check ∧ ¬ zbc_zone_conv z ∧
      ¬ zbc_zone_seq_pref z then
    some (Status.sense SenseKey.dataProtect Asc.zoneIsInactive)
  else if z.type ≠ first_zn_type then
    some (Status.sense SenseKey.illegalRequest Asc.readBoundaryViolation)
  else if ¬ zdev.wp_check then none
  else if zbc_zone_conv z ∨ zbc_zone_seq_pref z then none
  else if zbc_zone_seq_req z ∧ lba + nr_lbas > z.start + z.len then
    some (Status.sense SenseKey.illegalRequest Asc.readBoundaryViolation)
  else
    let boundary := zbc_get_zone_boundary z
    if lba < boundary ∧
        zbc_get_zone_lba_count z lba nr_lbas > boundary - lba then
      some (Status.sense SenseKey.illegalRequest Asc.attemptToReadInvalidData)
    else if lba ≥ boundary then
      some (Status.sense SenseKey.illegalRequest Asc.attemptToReadInvalidData)
    else none

/-- zbc_zone_ok_to_write: none means the zone passed all write checks,
otherwise the sense pair set. -/
def zbc_zone_ok_to_write (zdev : ZDev) (z : Zone) (lba nr_lbas : Nat)
    (first_zn_type : ZoneType) : Option Status :=
  if zbc_zone_gap z then
    some (Status.sense SenseKey.illegalRequest Asc.attemptToAccessGapZone)
  else if zbc_zone_offline z then
    some (Status.sense SenseKey.dataProtect Asc.zoneIsOffline)
  else if zbc_zone_inactive z then
    some (Status.sense SenseKey.dataProtect Asc.zoneIsInactive)
  else if zbc_zone_rdonly z then
    some (Status.sense SenseKey.dataProtect Asc.zoneIsReadOnly)
  else if z.type ≠ first_zn_type ∨
      (zbc_zone_seq_req z ∧ lba + nr_lbas > z.start + z.len) then
    some (Status.sense SenseKey.illegalRequest Asc.writeBoundaryViolation)
  else if zbc_zone_seq_req z ∧ zbc_zone_full z then
    some (Status.sense SenseKey.illegalRequest Asc.invalidFieldInCdb)
  else if zbc_zone_seq_req z ∧ lba ≠ z.wp then
    some (Status.sense SenseKey.illegalRequest Asc.unalignedWrite)
  else if zbc_zone_sobr z ∧ ¬ zbc_zone_full z ∧ lba > z.wp then
    some (Status.sense SenseKey.illegalRequest Asc.unalignedWrite)
  else none

/-- zbc_rdwr_check_zones: walk the zones touched by the transfer, applying
the per-zone read or write checks.  first carries the type of the first zone
once seen (the C `first_zn_type == 0` test). -/
def zbc_rdwr_check_zones (zdev : ZDev) (read : Bool)
    (first : Option ZoneType) (lba nr_lbas : Nat) : Status :=
  match zbc_get_zone zdev lba false with
  | none => Status.sense SenseKey.hardwareError Asc.internalTargetFailure
  | some zi =>
    let z := getZone zdev zi
    let ft := first.getD z.type
    let res :=
      if read then zbc_zone_ok_to_read zdev z lba nr_lbas ft
      else zbc_zone_ok_to_write zdev z lba nr_lbas ft
    match res with
    | some s => s
    | none =>
      if nr_lbas ≤ zbc_get_zone_lba_count (getZone zdev zi) lba nr_lbas then
        Status.ok
      else if h : zbc_get_zone_lba_count (getZone zdev zi) lba nr_lbas = 0 then
        Status.sense SenseKey.hardwareError Asc.internalTargetFailure
      else zbc_rdwr_check_zones zdev read (some ft)
        (lba + zbc_get_zone_lba_count (getZone zdev zi) lba nr_lbas)
        (nr_lbas - zbc_get_zone_lba_count (getZone zdev zi) lba nr_lbas)
termination_by nr_lbas
decreasing_by omega

/-- zbc_adjust_write_ptr. -/
def zbc_adjust_write_ptr (zdev : ZDev) (i : Nat) (lba count : Nat) : ZDev :=
  let z := getZone zdev i
  let wp1 :=
    if zbc_zone_seq_req z then z.wp + count
    else if zbc_zone_seq_pref z ∨ zbc_zone_sobr z then
      if lba + count > z.wp then lba + count else z.wp
    else z.wp
  let zdev := setZone zdev i { z with wp := wp1 }
  if wp1 ≥ z.start + z.len then
    let zdev :=
      if zbc_zone_is_open (getZone zdev i) then __zbc_close_zone zdev i
      else zdev
    let z1 := getZone zdev i
    if zbc_zone_conv z1 then
      setZone zdev i { z1 with cond := ZoneCond.notWp, wp := ZBC_NO_WP }
    else
      let zdev := zbc_unlink_zone zdev i
      let zdev := zbc_on_cond_change zdev i ZoneCond.full
      let wp2 := if zbc_zone_seq z1 then z1.start + z1.len else ZBC_NO_WP
      let zdev := setZone zdev i
        { z1 with cond := ZoneCond.full, wp := wp2 }
      zbc_add_zone_tail zdev WhichList.seqActiveList i
  else zdev

/-- Transfer segment issued against the backing file: a start LBA and an LBA
count. -/
structure Seg where
  lba : Nat
  count : Nat
deriving DecidableEq, Repr

/-- The write loop of zbc_write_zoned: per zone, implicitly open when needed
(charging the SWR budget), write the segment, then adjust the write
pointer. -/
def zbc_write_walk (zdev : ZDev) (lba len : Nat) (acc : List Seg) :
    Status × ZDev × List Seg :=
  match zbc_get_zone zdev lba false with
  | none => (Status.sense SenseKey.hardwareError Asc.internalTargetFailure,
      zdev, acc)
  | some zi =>
    let opened : Option Status × ZDev :=
      if (zbc_zone_seq (getZone zdev zi) ∨ zbc_zone_sobr (getZone zdev zi)) ∧
          ¬ zbc_zone_is_open (getZone zdev zi) ∧
          ¬ zbc_zone_full (getZone zdev zi) then
        if zbc_zone_seq_req (getZone zdev zi) ∧ ¬ zbc_ozr_check zdev 1 then
          (some (Status.sense SenseKey.dataProtect
            Asc.insufficientZoneResources), zdev)
        else (none, __zbc_open_zone zdev zi false)
      else (none, zdev)
    match opened with
    | (some s, zdev1) => (s, zdev1, acc)
    | (none, zdev1) =>
      if len = 0 then (Status.ok, zdev1, acc)
      else
        if h : zbc_get_zone_lba_count (getZone zdev zi) lba len = 0 then
          (Status.sense SenseKey.mediumError Asc.writeError, zdev1, acc)
        else
          let zdev2 := zbc_adjust_write_ptr zdev1 zi lba
            (zbc_get_zone_lba_count (getZone zdev zi) lba len)
          if len ≤ zbc_get_zone_lba_count (getZone zdev zi) lba len then
            (Status.ok, zdev2,
              acc ++ [⟨lba, zbc_get_zone_lba_count (getZone zdev zi) lba len⟩])
          else zbc_write_walk zdev2
            (lba + zbc_get_zone_lba_count (getZone zdev zi) lba len)
            (len - zbc_get_zone_lba_count (getZone zdev zi) lba len)
            (acc ++ [⟨lba, zbc_get_zone_lba_count (getZone zdev zi) lba len⟩])
termination_by len
decreasing_by omega

/-- zbc_write_zoned: returns the completion status, the final device state
and the file segments written. -/
def zbc_write_zoned (zdev : ZDev) (lba len iov_length : Nat) :
    Status × ZDev × List Seg :=
  match zbc_check_rdwr zdev lba len iov_length with
  | Status.ok =>
    match zbc_rdwr_check_zones zdev false none lba len with
    | Status.ok => zbc_write_walk zdev lba len []
    | s =>
      (s, { zdev with write_rule_fails := zdev.write_rule_fails + 1 }, [])
  | s => (s, zdev, [])

/-- Source of the data returned for one read segment. -/
inductive ReadSrc where
  | fromFile
  | zeroFill
deriving DecidableEq, Repr

/-- One read response segment: source, start LBA, LBA count. -/
structure ReadSeg where
  src : ReadSrc
  lba : Nat
  count : Nat
deriving DecidableEq, Repr

/-- The read loop of zbc_read_zoned: zero-fill at or above the valid-data
boundary (no file access), pread below it. -/
def zbc_read_walk (zdev : ZDev) (lba len : Nat) (acc : List ReadSeg) :
    Status × List ReadSeg :=
  if len = 0 then (Status.ok, acc)
  else
  match zbc_get_zone zdev lba false with
  | none => (Status.sense SenseKey.hardwareError Asc.internalTargetFailure,
      acc)
  | some zi =>
    if lba ≥ zbc_get_zone_boundary (getZone zdev zi) then
      if h : min ((getZone zdev zi).start + (getZone zdev zi).len - lba) len
          = 0 then
        (Status.sense SenseKey.mediumError Asc.readError, acc)
      else if len ≤
          min ((getZone zdev zi).start + (getZone zdev zi).len - lba) len then
        (Status.ok, acc ++ [⟨ReadSrc.zeroFill, lba,
          min ((getZone zdev zi).start + (getZone zdev zi).len - lba) len⟩])
      else zbc_read_walk zdev
        (lba + min ((getZone zdev zi).start + (getZone zdev zi).len - lba) len)
        (len - min ((getZone zdev zi).start + (getZone zdev zi).len - lba) len)
        (acc ++ [⟨ReadSrc.zeroFill, lba,
          min ((getZone zdev zi).start + (getZone zdev zi).len - lba) len⟩])
    else
      if h : min (zbc_get_zone_boundary (getZone zdev zi) - lba) len = 0 then
        (Status.sense SenseKey.mediumError Asc.readError, acc)
      else if len ≤
          min (zbc_get_zone_boundary (getZone zdev zi) - lba) len then
        (Status.ok, acc ++ [⟨ReadSrc.fromFile, lba,
          min (zbc_get_zone_boundary (getZone zdev zi) - lba) len⟩])
      else zbc_read_walk zdev
        (lba + min (zbc_get_zone_boundary (getZone zdev zi) - lba) len)
        (len - min (zbc_get_zone_boundary (getZone zdev zi) - lba) len)
        (acc ++ [⟨ReadSrc.fromFile, lba,
          min (zbc_get_zone_boundary (getZone zdev zi) - lba) len⟩])
termination_by len
decreasing_by
  all_goals omega

/-- zbc_read_zoned: returns the completion status, the final device state
and the response segments. -/
def zbc_read_zoned (zdev : ZDev) (lba len iov_length : Nat) :
    Status × ZDev × List ReadSeg :=
  match zbc_check_rdwr zdev lba len iov_length with
  | Status.ok =>
    match zbc_rdwr_check_zones zdev true none lba len with
    | Status.ok =>
      let r := zbc_read_walk zdev lba len []
      (r.1, zdev, r.2)
    | s =>
      (s, { zdev with read_rule_fails := zdev.read_rule_fails + 1 }, [])
  | s => (s, zdev, [])

/-! ## Concrete devices for witnesses -/

/-- Zone i of the witness device: uniform 8-LBA zones. -/
def wZone (i : Nat) (t : ZoneType) (c : ZoneCond) (wp : Nat) : Zone :=
  ⟨8 * i, 8, wp, t, c, false, false⟩

/-- A small four-zone device used to instantiate theorems on concrete
inputs: a conventional zone, a full SWR zone, an empty SWR zone and an
implicitly open SOBR zone. -/
def dev4 : ZDev :=
  { zones := [wZone 0 ZoneType.conventional ZoneCond.notWp ZBC_NO_WP,
      wZone 1 ZoneType.seqWriteReq ZoneCond.full 16,
      wZone 2 ZoneType.seqWriteReq ZoneCond.empty 16,
      wZone 3 ZoneType.seqOrBefReq ZoneCond.impOpen 24]
    imp_open_zones := [3]
    exp_open_zones := []
    closed_zones := []
    seq_active_zones := [1, 2]
    nr_imp_open := 0
    nr_exp_open := 0
    nr_open_zones := 2
    nr_empty_zones := 1
    min_empty_zones := 1
    max_imp_open_seq_zones := 0
    max_exp_open_seq_zones := 0
    max_open_zones := 0
    failed_exp_opens := 0
    read_rule_fails := 0
    write_rule_fails := 0
    logical_capacity := 32
    zone_log2 := 3
    lba_log2 := 9
    zone_size := 8
    domains := [⟨0, 7, 1, ZoneType.conventional, false⟩,
      ⟨8, 31, 3, ZoneType.seqWriteReq, true⟩]
    realms := []
    realms_feat_set := true
    nr_actv_zones := 1
    nr_cmr_realm_zones := 1
    nr_smr_realm_zones := 1
    cmr_nr_zones_to_smr := [1]
    smr_nr_zones_to_cmr := [1]
    zone_type_to_dom := [some 0, some 1, none, none]
    wp_check := true }

/-! ## C10: ALL bit together with a zone count -/

/-- C10: CLOSE ZONE, OPEN ZONE, FINISH ZONE and RESET WRITE POINTER all fail
with INVALID_FIELD_IN_CDB, leaving the device state unchanged, when the ALL
bit is set together with a nonzero zone count. -/
theorem zone_ops_all_with_count_rejected (zdev : ZDev) (lba count : Nat)
    (h : count ≠ 0) :
    zbc_close_zone zdev lba count true =
      (Status.sense SenseKey.illegalRequest Asc.invalidFieldInCdb, zdev) ∧
    zbc_open_zone zdev lba count true =
      (Status.sense SenseKey.illegalRequest Asc.invalidFieldInCdb, zdev) ∧
    zbc_finish_zone zdev lba count true =
      (Status.sense SenseKey.illegalRequest Asc.invalidFieldInCdb, zdev) ∧
    zbc_reset_wp zdev lba count true =
      (Status.sense SenseKey.illegalRequest Asc.invalidFieldInCdb, zdev) := by
  refine ⟨?_, ?_, ?_, ?_⟩ <;>
    simp [zbc_close_zone, zbc_open_zone, zbc_finish_zone, zbc_reset_wp, h]

/-- Witness for zone_ops_all_with_count_rejected on the concrete device. -/
theorem zone_ops_all_with_count_rejected_witness :
    zbc_close_zone dev4 8 5 true =
      (Status.sense SenseKey.illegalRequest Asc.invalidFieldInCdb, dev4) ∧
    zbc_open_zone dev4 8 5 true =
      (Status.sense SenseKey.illegalRequest Asc.invalidFieldInCdb, dev4) ∧
    zbc_finish_zone dev4 8 5 true =
      (Status.sense SenseKey.illegalRequest Asc.invalidFieldInCdb, dev4) ∧
    zbc_reset_wp dev4 8 5 true =
      (Status.sense SenseKey.illegalRequest Asc.invalidFieldInCdb, dev4) :=
  zone_ops_all_with_count_rejected dev4 8 5 (by decide)

/-! ## C9: LBA range validation with 64-bit wrap-around -/

/-- C9: any read or write whose true start-plus-length exceeds the logical
capacity, including every 64-bit wrap-around case (where the C sum
lba + nr_lbas taken modulo 2^64 may compare below the capacity), fails with
the LBA_OUT_OF_RANGE sense pair before any zone check, state change or file
segment, both on the read path and on the write path. -/
theorem rdwr_lba_out_of_range_rejected (zdev : ZDev)
    (lba nr_lbas iov_length : Nat)
    (hlba : lba < U64) (hnr : nr_lbas < U64)
    (hcap : zdev.logical_capacity < U64)
    (hgt : lba + nr_lbas > zdev.logical_capacity) :
    zbc_check_rdwr zdev lba nr_lbas iov_length =
      Status.sense SenseKey.illegalRequest Asc.lbaOutOfRange ∧
    zbc_read_zoned zdev lba nr_lbas iov_length =
      (Status.sense SenseKey.illegalRequest Asc.lbaOutOfRange, zdev, []) ∧
    zbc_write_zoned zdev lba nr_lbas iov_length =
      (Status.sense SenseKey.illegalRequest Asc.lbaOutOfRange, zdev, []) := by
  have hoor : zbc_lba_out_of_range zdev lba nr_lbas := by
    unfold zbc_lba_out_of_range U64 at *
    omega
  have hc : zbc_check_rdwr zdev lba nr_lbas iov_length =
      Status.sense SenseKey.illegalRequest Asc.lbaOutOfRange := by
    simp [zbc_check_rdwr, hoor]
  refine ⟨hc, ?_, ?_⟩
  · simp [zbc_read_zoned, hc]
  · simp [zbc_write_zoned, hc]

/-- Witness for rdwr_lba_out_of_range_rejected: a transfer that wraps the
64-bit LBA space and whose wrapped end lies below the capacity. -/
theorem rdwr_lba_out_of_range_rejected_witness :
    zbc_check_rdwr dev4 16 (U64 - 6) 1024 =
      Status.sense SenseKey.illegalRequest Asc.lbaOutOfRange ∧
    zbc_read_zoned dev4 16 (U64 - 6) 1024 =
      (Status.sense SenseKey.illegalRequest Asc.lbaOutOfRange, dev4, []) ∧
    zbc_write_zoned dev4 16 (U64 - 6) 1024 =
      (Status.sense SenseKey.illegalRequest Asc.lbaOutOfRange, dev4, []) :=
  rdwr_lba_out_of_range_rejected dev4 16 (U64 - 6) 1024
    (by norm_num [U64]) (by norm_num [U64]) (by norm_num [dev4, U64])
    (by norm_num [dev4, U64])

/-! ## C4: write-pointer discipline on the first zone of a write -/

/-- C4: writes whose first zone is a full SWR zone fail with
INVALID_FIELD_IN_CDB; writes whose first zone is SWR with a start LBA away
from the write pointer fail with UNALIGNED_WRITE; writes whose first zone is
a non-full SOBR zone with a start LBA above the write pointer fail with
UNALIGNED_WRITE; in each case only the write-rule failure counter changes
and no file segment is written. -/
theorem write_first_zone_wp_rules (zdev : ZDev) (lba nr_lbas iov_length zi : Nat)
    (hz : zbc_get_zone zdev lba false = some zi)
    (hoor : ¬ zbc_lba_out_of_range zdev lba nr_lbas)
    (hiov : iov_length = nr_lbas <<< zdev.lba_log2) :
    ((getZone zdev zi).type = ZoneType.seqWriteReq →
      (getZone zdev zi).cond = ZoneCond.full →
      lba + nr_lbas ≤ (getZone zdev zi).start + (getZone zdev zi).len →
      zbc_write_zoned zdev lba nr_lbas iov_length =
        (Status.sense SenseKey.illegalRequest Asc.invalidFieldInCdb,
          { zdev with write_rule_fails := zdev.write_rule_fails + 1 }, [])) ∧
    ((getZone zdev zi).type = ZoneType.seqWriteReq →
      (getZone zdev zi).cond ≠ ZoneCond.full →
      (getZone zdev zi).cond ≠ ZoneCond.offline →
      (getZone zdev zi).cond ≠ ZoneCond.inactive →
      (getZone zdev zi).cond ≠ ZoneCond.readonly →
      lba ≠ (getZone zdev zi).wp →
      lba + nr_lbas ≤ (getZone zdev zi).start + (getZone zdev zi).len →
      zbc_write_zoned zdev lba nr_lbas iov_length =
        (Status.sense SenseKey.illegalRequest Asc.unalignedWrite,
          { zdev with write_rule_fails := zdev.write_rule_fails + 1 }, [])) ∧
    ((getZone zdev zi).type = ZoneType.seqOrBefReq →
      (getZone zdev zi).cond ≠ ZoneCond.full →
      (getZone zdev zi).cond ≠ ZoneCond.offline →
      (getZone zdev zi).cond ≠ ZoneCond.inactive →
      (getZone zdev zi).cond ≠ ZoneCond.readonly →
      lba > (getZone zdev zi).wp →
      zbc_write_zoned zdev lba nr_lbas iov_length =
        (Status.sense SenseKey.illegalRequest Asc.unalignedWrite,
          { zdev with write_rule_fails := zdev.write_rule_fails + 1 }, [])) := by
  have hcr : zbc_check_rdwr zdev lba nr_lbas iov_length = Status.ok := by
    simp [zbc_check_rdwr, hoor, hiov]
  refine ⟨?_, ?_, ?_⟩
  · intro ht hcond hbound
    have hnb : ¬ (lba + nr_lbas >
        (getZone zdev zi).start + (getZone zdev zi).len) := by omega
    have hw : zbc_zone_ok_to_write zdev (getZone zdev zi) lba nr_lbas
        (getZone zdev zi).type =
        some (Status.sense SenseKey.illegalRequest Asc.invalidFieldInCdb) := by
      simp [zbc_zone_ok_to_write, zbc_zone_gap, zbc_zone_offline, zbc_zone_inactive, zbc_zone_rdonly, zbc_zone_seq_req, zbc_zone_full, zbc_zone_sobr, zbc_zone_conv, zbc_zone_seq_pref, ht, hcond, hnb]
    have hcz : zbc_rdwr_check_zones zdev false none lba nr_lbas =
        Status.sense SenseKey.illegalRequest Asc.invalidFieldInCdb := by
      rw [zbc_rdwr_check_zones, hz]
      simp [hw]
    simp [zbc_write_zoned, hcr, hcz]
  · intro ht hc1 hc2 hc3 hc4 hwp hbound
    have hnb : ¬ (lba + nr_lbas >
        (getZone zdev zi).start + (getZone zdev zi).len) := by omega
    have hw : zbc_zone_ok_to_write zdev (getZone zdev zi) lba nr_lbas
        (getZone zdev zi).type =
        some (Status.sense SenseKey.illegalRequest Asc.unalignedWrite) := by
      simp [zbc_zone_ok_to_write, zbc_zone_gap, zbc_zone_offline, zbc_zone_inactive, zbc_zone_rdonly, zbc_zone_seq_req, zbc_zone_full, zbc_zone_sobr, zbc_zone_conv, zbc_zone_seq_pref, ht, hc1, hc2, hc3, hc4, hwp, hnb]
    have hcz : zbc_rdwr_check_zones zdev false none lba nr_lbas =
        Status.sense SenseKey.illegalRequest Asc.unalignedWrite := by
      rw [zbc_rdwr_check_zones, hz]
      simp [hw]
    simp [zbc_write_zoned, hcr, hcz]
  · intro ht hc1 hc2 hc3 hc4 hwp
    have hw : zbc_zone_ok_to_write zdev (getZone zdev zi) lba nr_lbas
        (getZone zdev zi).type =
        some (Status.sense SenseKey.illegalRequest Asc.unalignedWrite) := by
      simp [zbc_zone_ok_to_write, zbc_zone_gap, zbc_zone_offline, zbc_zone_inactive, zbc_zone_rdonly, zbc_zone_seq_req, zbc_zone_full, zbc_zone_sobr, zbc_zone_conv, zbc_zone_seq_pref, ht, hc1, hc2, hc3, hc4, hwp]
    have hcz : zbc_rdwr_check_zones zdev false none lba nr_lbas =
        Status.sense SenseKey.illegalRequest Asc.unalignedWrite := by
      rw [zbc_rdwr_check_zones, hz]
      simp [hw]
    simp [zbc_write_zoned, hcr, hcz]

/-! ## C5: read boundary semantics -/

/-- Uniform zone geometry: zone i occupies the LBA range
[i * 2^zone_log2, (i+1) * 2^zone_log2), as the shift-indexed zone lookup of
the source assumes. -/
abbrev UniformZones (zdev : ZDev) : Prop :=
  ∀ i, i < zdev.nr_zones →
    (getZone zdev i).start = i * 2 ^ zdev.zone_log2 ∧
    (getZone zdev i).len = 2 ^ zdev.zone_log2

lemma two_pow_pos' (k : Nat) : 0 < 2 ^ k := Nat.pos_pow_of_pos k (by norm_num)

lemma div_lt_of_lt_mul' {a L n : Nat} (hL : 0 < L) (h : a < n * L) :
    a / L < n := by
  rw [Nat.div_lt_iff_lt_mul hL]
  exact h

lemma lt_zone_end (a L : Nat) (h : 0 < L) : a < (a / L + 1) * L := by
  have h1 : L * (a / L) + a % L = a := Nat.div_add_mod a L
  have h2 : a % L < L := Nat.mod_lt a h
  have h3 : (a / L + 1) * L = L * (a / L) + L := by ring
  omega

lemma zone_start_le (a L : Nat) (h : 0 < L) : a / L * L ≤ a := by
  have h1 : L * (a / L) + a % L = a := Nat.div_add_mod a L
  have h3 : a / L * L = L * (a / L) := by ring
  omega

lemma get_zone_of_lt (zdev : ZDev) (a : Nat)
    (ha : a < zdev.nr_zones * 2 ^ zdev.zone_log2) :
    zbc_get_zone zdev a false = some (a / 2 ^ zdev.zone_log2) := by
  have hL : 0 < 2 ^ zdev.zone_log2 := two_pow_pos' _
  have hlt : a / 2 ^ zdev.zone_log2 < zdev.nr_zones := div_lt_of_lt_mul' hL ha
  simp [zbc_get_zone, Nat.shiftRight_eq_div_pow, Nat.not_le.mpr hlt]

lemma div_eq_div_of_between {a b L : Nat} (hL : 0 < L) (h1 : a / L * L ≤ b)
    (h2 : b < (a / L + 1) * L) : b / L = a / L := by
  exact Nat.div_eq_of_lt_le h1 h2

/-- All zones touched by a read have the common type T and are not offline. -/
abbrev ReadRangeOk (zdev : ZDev) (T : ZoneType) (lba len : Nat) : Prop :=
  ∀ i, i < zdev.nr_zones → lba / 2 ^ zdev.zone_log2 ≤ i →
    i ≤ (lba + len - 1) / 2 ^ zdev.zone_log2 →
    (getZone zdev i).type = T ∧ (getZone zdev i).cond ≠ ZoneCond.offline

lemma read_check_zones_ok (zdev : ZDev) (T : ZoneType)
    (hwp : zdev.wp_check = false) (hu : UniformZones zdev)
    (hcap : zdev.logical_capacity ≤ zdev.nr_zones * 2 ^ zdev.zone_log2) :
    ∀ len lba ft, 0 < len → lba + len ≤ zdev.logical_capacity →
      ReadRangeOk zdev T lba len →
      (ft = none ∨ ft = some T) →
      zbc_rdwr_check_zones zdev true ft lba len = Status.ok := by
  intro len
  induction len using Nat.strong_induction_on with
  | _ len IH =>
    intro lba ft hpos hle hrange hft
    have hL : 0 < 2 ^ zdev.zone_log2 := two_pow_pos' _
    have hin : lba < zdev.nr_zones * 2 ^ zdev.zone_log2 := by omega
    have hzi : lba / 2 ^ zdev.zone_log2 < zdev.nr_zones :=
      div_lt_of_lt_mul' hL hin
    have hup : lba / 2 ^ zdev.zone_log2 ≤
        (lba + len - 1) / 2 ^ zdev.zone_log2 :=
      Nat.div_le_div_right (by omega)
    obtain ⟨hTy, hOff⟩ := hrange _ hzi (le_refl _) hup
    obtain ⟨hs, hlen⟩ := hu _ hzi
    have hres : zbc_zone_ok_to_read zdev
        (getZone zdev (lba / 2 ^ zdev.zone_log2)) lba len
        (ft.getD (getZone zdev (lba / 2 ^ zdev.zone_log2)).type) = none := by
      rcases hft with h | h <;> subst h <;>
        simp [zbc_zone_ok_to_read, zbc_zone_gap, zbc_zone_offline,
          zbc_zone_inactive, hwp, hOff, hTy]
    have hgetD : ft.getD (getZone zdev (lba / 2 ^ zdev.zone_log2)).type =
        (getZone zdev (lba / 2 ^ zdev.zone_log2)).type := by
      rcases hft with h | h <;> subst h <;> simp [hTy]
    rw [hgetD] at hres
    set E := lba / 2 ^ zdev.zone_log2 * 2 ^ zdev.zone_log2 +
      2 ^ zdev.zone_log2 with hE
    have hcount : zbc_get_zone_lba_count
        (getZone zdev (lba / 2 ^ zdev.zone_log2)) lba len =
        if lba + len > E then E - lba else len := by
      rw [zbc_get_zone_lba_count, hs, hlen]
    have hlbaE : lba < E := by
      have := lt_zone_end lba (2 ^ zdev.zone_log2) hL
      have h3 : (lba / 2 ^ zdev.zone_log2 + 1) * 2 ^ zdev.zone_log2 = E := by
        rw [hE]; ring
      omega
    by_cases hgt : lba + len > E
    · have hcnt : zbc_get_zone_lba_count
          (getZone zdev (lba / 2 ^ zdev.zone_log2)) lba len = E - lba := by
        rw [hcount, if_pos hgt]
      have hclt : ¬ (len ≤ E - lba) := by omega
      have hne0 : ¬ (E - lba = 0) := by omega
      have hdivE : E / 2 ^ zdev.zone_log2 = lba / 2 ^ zdev.zone_log2 + 1 := by
        have h4 : E = (lba / 2 ^ zdev.zone_log2 + 1) * 2 ^ zdev.zone_log2 := by
          rw [hE]; ring
        rw [h4, Nat.mul_div_cancel _ hL]
      have hstep : zbc_rdwr_check_zones zdev true ft lba len =
          zbc_rdwr_check_zones zdev true
            (some ((getZone zdev (lba / 2 ^ zdev.zone_log2)).type))
            (lba + (E - lba)) (len - (E - lba)) := by
        rw [zbc_rdwr_check_zones, get_zone_of_lt zdev lba hin]
        simp [hres, hcnt, hclt, hne0, hgetD]
      rw [hstep]
      have hlt : len - (E - lba) < len := by omega
      apply IH _ hlt
      · omega
      · omega
      · intro i hi h1 h2
        apply hrange i hi
        · have h5 : lba + (E - lba) = E := by omega
          rw [h5, hdivE] at h1
          omega
        · have h6 : lba + (E - lba) + (len - (E - lba)) = lba + len := by
            omega
          rw [h6] at h2
          exact h2
      · right
        rw [hTy]
    · have hcnt : zbc_get_zone_lba_count
          (getZone zdev (lba / 2 ^ zdev.zone_log2)) lba len = len := by
        rw [hcount, if_neg hgt]
      rw [zbc_rdwr_check_zones, get_zone_of_lt zdev lba hin]
      simp [hres, hcnt, hgetD]

/-- Per-LBA expansion of the read response segments. -/
def expandSegs (l : List ReadSeg) : List (ReadSrc × Nat) :=
  l.flatMap (fun s => (List.range s.count).map (fun k => (s.src, s.lba + k)))

/-- Expected source of the data returned for one LBA: file content below the
valid-data boundary of its zone, zero-fill at or above it. -/
def readSpecLBA (zdev : ZDev) (a : Nat) : ReadSrc :=
  match zbc_get_zone zdev a false with
  | some zi =>
    if a < zbc_get_zone_boundary (getZone zdev zi) then ReadSrc.fromFile
    else ReadSrc.zeroFill
  | none => ReadSrc.zeroFill

/-- All zones touched by a read keep their valid-data boundary inside the
zone (excludes the no-write-pointer sentinel). -/
abbrev ReadBoundedWp (zdev : ZDev) (lba len : Nat) : Prop :=
  ∀ i, i < zdev.nr_zones → lba / 2 ^ zdev.zone_log2 ≤ i →
    i ≤ (lba + len - 1) / 2 ^ zdev.zone_log2 →
    zbc_get_zone_boundary (getZone zdev i) ≤
      (getZone zdev i).start + (getZone zdev i).len

lemma expandSegs_append (a b : List ReadSeg) :
    expandSegs (a ++ b) = expandSegs a ++ expandSegs b := by
  simp [expandSegs]

lemma expandSegs_single (src : ReadSrc) (lba count : Nat) :
    expandSegs [⟨src, lba, count⟩] =
      (List.range count).map (fun k => (src, lba + k)) := by
  simp [expandSegs]

lemma read_walk_spec (zdev : ZDev) (hu : UniformZones zdev)
    (hcap : zdev.logical_capacity ≤ zdev.nr_zones * 2 ^ zdev.zone_log2) :
    ∀ len lba acc, lba + len ≤ zdev.logical_capacity →
      ReadBoundedWp zdev lba len →
      (zbc_read_walk zdev lba len acc).1 = Status.ok ∧
      expandSegs (zbc_read_walk zdev lba len acc).2 =
        expandSegs acc ++
          (List.range len).map (fun k => (readSpecLBA zdev (lba + k), lba + k)) := by
  intro len
  induction len using Nat.strong_induction_on with
  | _ len IH =>
    intro lba acc hle hbw
    by_cases hl0 : len = 0
    · subst hl0
      rw [zbc_read_walk]
      simp
    have hL : 0 < 2 ^ zdev.zone_log2 := two_pow_pos' _
    have hin : lba < zdev.nr_zones * 2 ^ zdev.zone_log2 := by omega
    have hzi : lba / 2 ^ zdev.zone_log2 < zdev.nr_zones :=
      div_lt_of_lt_mul' hL hin
    have hup : lba / 2 ^ zdev.zone_log2 ≤
        (lba + len - 1) / 2 ^ zdev.zone_log2 :=
      Nat.div_le_div_right (by omega)
    obtain ⟨hs, hlen⟩ := hu _ hzi
    have hb := hbw _ hzi (le_refl _) hup
    set E := lba / 2 ^ zdev.zone_log2 * 2 ^ zdev.zone_log2 +
      2 ^ zdev.zone_log2 with hE
    have hEc : (getZone zdev (lba / 2 ^ zdev.zone_log2)).start +
        (getZone zdev (lba / 2 ^ zdev.zone_log2)).len = E := by
      rw [hs, hlen]
    have hlbaE : lba < E := by
      have := lt_zone_end lba (2 ^ zdev.zone_log2) hL
      have h3 : (lba / 2 ^ zdev.zone_log2 + 1) * 2 ^ zdev.zone_log2 = E := by
        rw [hE]; ring
      omega
    have hsle : lba / 2 ^ zdev.zone_log2 * 2 ^ zdev.zone_log2 ≤ lba :=
      zone_start_le lba _ hL
    have hEmul : E = (lba / 2 ^ zdev.zone_log2 + 1) * 2 ^ zdev.zone_log2 := by
      rw [hE]; ring
    have hdivE : E / 2 ^ zdev.zone_log2 = lba / 2 ^ zdev.zone_log2 + 1 := by
      rw [hEmul, Nat.mul_div_cancel _ hL]
    have hEle : E ≤ zdev.nr_zones * 2 ^ zdev.zone_log2 := by
      rw [hEmul]
      exact Nat.mul_le_mul_right _ (by omega)
    have hsame : ∀ k, lba + k < E →
        (lba + k) / 2 ^ zdev.zone_log2 = lba / 2 ^ zdev.zone_log2 := by
      intro k hk
      apply div_eq_div_of_between hL (by omega)
      omega
    have hspec : ∀ k, lba + k < E → readSpecLBA zdev (lba + k) =
        (if lba + k < zbc_get_zone_boundary
          (getZone zdev (lba / 2 ^ zdev.zone_log2))
         then ReadSrc.fromFile else ReadSrc.zeroFill) := by
      intro k hk
      rw [readSpecLBA, get_zone_of_lt zdev _ (by omega), hsame k hk]
    by_cases hge : lba ≥ zbc_get_zone_boundary
      (getZone zdev (lba / 2 ^ zdev.zone_log2))
    · -- zero-fill branch
      have hmin : min ((getZone zdev (lba / 2 ^ zdev.zone_log2)).start +
          (getZone zdev (lba / 2 ^ zdev.zone_log2)).len - lba) len =
          min (E - lba) len := by rw [hEc]
      have hcpos : ¬ (min (E - lba) len = 0) := by
        simp [Nat.min_eq_zero_iff]
        omega
      have hzero : ∀ k, k < min (E - lba) len →
          readSpecLBA zdev (lba + k) = ReadSrc.zeroFill := by
        intro k hk
        rw [hspec k (by omega)]
        rw [if_neg (by omega)]
      by_cases hfin : len ≤ min (E - lba) len
      · have hcl : min (E - lba) len = len := by omega
        rw [zbc_read_walk, get_zone_of_lt zdev lba hin]
        rw [if_neg hl0]
        simp only [if_pos hge, hmin]
        rw [dif_neg hcpos, if_pos hfin]
        refine ⟨rfl, ?_⟩
        rw [expandSegs_append, expandSegs_single, hcl]
        congr 1
        apply List.map_congr_left
        intro k hk
        rw [List.mem_range] at hk
        rw [hzero k (by omega)]
      · have hcl : min (E - lba) len = E - lba := by omega
        have hrec := IH (len - min (E - lba) len) (by omega)
          (lba + min (E - lba) len)
          (acc ++ [⟨ReadSrc.zeroFill, lba, min (E - lba) len⟩])
          (by omega) ?hbw2
        case hbw2 =>
          intro i hi h1 h2
          apply hbw i hi
          · rw [hcl] at h1
            have h5 : lba + (E - lba) = E := by omega
            rw [h5, hdivE] at h1
            omega
          · have h6 : lba + min (E - lba) len + (len - min (E - lba) len) =
                lba + len := by omega
            rw [h6] at h2
            exact h2
        rw [zbc_read_walk, get_zone_of_lt zdev lba hin]
        rw [if_neg hl0]
        simp only [if_pos hge, hmin]
        rw [dif_neg hcpos, if_neg hfin]
        refine ⟨hrec.1, ?_⟩
        rw [hrec.2, expandSegs_append, expandSegs_single]
        rw [List.append_assoc]
        congr 1
        have hsplit : len = min (E - lba) len + (len - min (E - lba) len) := by
          omega
        conv_rhs => rw [hsplit]
        rw [List.range_add, List.map_append, List.map_map]
        congr 1
        · apply List.map_congr_left
          intro k hk
          rw [List.mem_range] at hk
          rw [hzero k hk]
        · apply List.map_congr_left
          intro k hk
          simp [Nat.add_comm, Nat.add_assoc, Nat.add_left_comm]
    · -- file branch
      push_neg at hge
      have hble : zbc_get_zone_boundary
          (getZone zdev (lba / 2 ^ zdev.zone_log2)) ≤ E := by
        rw [← hEc]; exact hb
      have hcpos : ¬ (min (zbc_get_zone_boundary
          (getZone zdev (lba / 2 ^ zdev.zone_log2)) - lba) len = 0) := by
        simp [Nat.min_eq_zero_iff]
        omega
      have hfile : ∀ k, k < min (zbc_get_zone_boundary
          (getZone zdev (lba / 2 ^ zdev.zone_log2)) - lba) len →
          readSpecLBA zdev (lba + k) = ReadSrc.fromFile := by
        intro k hk
        rw [hspec k (by omega)]
        rw [if_pos (by omega)]
      by_cases hfin : len ≤ min (zbc_get_zone_boundary
          (getZone zdev (lba / 2 ^ zdev.zone_log2)) - lba) len
      · have hcl : min (zbc_get_zone_boundary
            (getZone zdev (lba / 2 ^ zdev.zone_log2)) - lba) len = len := by
          omega
        rw [zbc_read_walk, get_zone_of_lt zdev lba hin]
        rw [if_neg hl0]
        simp only [if_neg (show ¬ lba ≥ zbc_get_zone_boundary
          (getZone zdev (lba / 2 ^ zdev.zone_log2)) from by omega)]
        rw [dif_neg hcpos, if_pos hfin]
        refine ⟨rfl, ?_⟩
        rw [expandSegs_append, expandSegs_single, hcl]
        congr 1
        apply List.map_congr_left
        intro k hk
        rw [List.mem_range] at hk
        rw [hfile k (by omega)]
      · have hrec := IH (len - min (zbc_get_zone_boundary
            (getZone zdev (lba / 2 ^ zdev.zone_log2)) - lba) len) (by omega)
          (lba + min (zbc_get_zone_boundary
            (getZone zdev (lba / 2 ^ zdev.zone_log2)) - lba) len)
          (acc ++ [⟨ReadSrc.fromFile, lba, min (zbc_get_zone_boundary
            (getZone zdev (lba / 2 ^ zdev.zone_log2)) - lba) len⟩])
          (by omega) ?hbw3
        case hbw3 =>
          intro i hi h1 h2
          apply hbw i hi
          · refine le_trans (Nat.div_le_div_right (by omega)) h1
          · have h6 : lba + min (zbc_get_zone_boundary
                (getZone zdev (lba / 2 ^ zdev.zone_log2)) - lba) len +
                (len - min (zbc_get_zone_boundary
                (getZone zdev (lba / 2 ^ zdev.zone_log2)) - lba) len) =
                lba + len := by omega
            rw [h6] at h2
            exact h2
        rw [zbc_read_walk, get_zone_of_lt zdev lba hin]
        rw [if_neg hl0]
        simp only [if_neg (show ¬ lba ≥ zbc_get_zone_boundary
          (getZone zdev (lba / 2 ^ zdev.zone_log2)) from by omega)]
        rw [dif_neg hcpos, if_neg hfin]
        refine ⟨hrec.1, ?_⟩
        rw [hrec.2, expandSegs_append, expandSegs_single]
        rw [List.append_assoc]
        congr 1
        have hsplit : len = min (zbc_get_zone_boundary
            (getZone zdev (lba / 2 ^ zdev.zone_log2)) - lba) len +
            (len - min (zbc_get_zone_boundary
            (getZone zdev (lba / 2 ^ zdev.zone_log2)) - lba) len) := by omega
        conv_rhs => rw [hsplit]
        rw [List.range_add, List.map_append, List.map_map]
        congr 1
        · apply List.map_congr_left
          intro k hk
          rw [List.mem_range] at hk
          rw [hfile k hk]
        · apply List.map_congr_left
          intro k hk
          simp [Nat.add_comm, Nat.add_assoc, Nat.add_left_comm]

/-- A two-zone all-SWR device with unrestricted reads (wp_check off): zone 0
implicitly open with write pointer start+2, zone 1 empty. -/
def dev5 : ZDev :=
  { dev4 with
    wp_check := false
    zones := [⟨0, 8, 2, ZoneType.seqWriteReq, ZoneCond.impOpen, false, false⟩,
      ⟨8, 8, 8, ZoneType.seqWriteReq, ZoneCond.empty, false, false⟩]
    logical_capacity := 16 }

/-- C5: with wp-check enabled, reads of an SWR or SOBR zone that start at or
above the valid-data boundary, or start below it but extend past it within
the zone, fail with ATTEMPT_TO_READ_INVALID_DATA and transfer nothing; with
wp-check disabled, every LBA below its zone's valid-data boundary is read
from the backing file and every LBA at or above it is returned as zero-fill
with no file access. -/
theorem read_boundary_semantics (zdev : ZDev) (lba nr_lbas iov_length zi : Nat)
    (hz : zbc_get_zone zdev lba false = some zi)
    (hoor : ¬ zbc_lba_out_of_range zdev lba nr_lbas)
    (hiov : iov_length = nr_lbas <<< zdev.lba_log2) :
    (zdev.wp_check = true →
     ((getZone zdev zi).type = ZoneType.seqWriteReq ∨
       (getZone zdev zi).type = ZoneType.seqOrBefReq) →
     (getZone zdev zi).cond ≠ ZoneCond.offline →
     (getZone zdev zi).cond ≠ ZoneCond.inactive →
     lba + nr_lbas ≤ (getZone zdev zi).start + (getZone zdev zi).len →
     (lba ≥ zbc_get_zone_boundary (getZone zdev zi) ∨
       lba + nr_lbas > zbc_get_zone_boundary (getZone zdev zi)) →
     zbc_read_zoned zdev lba nr_lbas iov_length =
       (Status.sense SenseKey.illegalRequest Asc.attemptToReadInvalidData,
         { zdev with read_rule_fails := zdev.read_rule_fails + 1 }, [])) ∧
    (∀ T : ZoneType,
     zdev.wp_check = false →
     UniformZones zdev →
     zdev.logical_capacity ≤ zdev.nr_zones * 2 ^ zdev.zone_log2 →
     0 < nr_lbas →
     lba + nr_lbas ≤ zdev.logical_capacity →
     ReadRangeOk zdev T lba nr_lbas →
     ReadBoundedWp zdev lba nr_lbas →
     (zbc_read_zoned zdev lba nr_lbas iov_length).1 = Status.ok ∧
     (zbc_read_zoned zdev lba nr_lbas iov_length).2.1 = zdev ∧
     expandSegs (zbc_read_zoned zdev lba nr_lbas iov_length).2.2 =
       (List.range nr_lbas).map
         (fun k => (readSpecLBA zdev (lba + k), lba + k))) := by
  have hcr : zbc_check_rdwr zdev lba nr_lbas iov_length = Status.ok := by
    simp [zbc_check_rdwr, hoor, hiov]
  constructor
  · intro hwp hty hc2 hc3 hbound hbx
    have hnb : ¬ (lba + nr_lbas >
        (getZone zdev zi).start + (getZone zdev zi).len) := by omega
    have hcnt : zbc_get_zone_lba_count (getZone zdev zi) lba nr_lbas =
        nr_lbas := by
      rw [zbc_get_zone_lba_count, if_neg hnb]
    have hr : zbc_zone_ok_to_read zdev (getZone zdev zi) lba nr_lbas
        (getZone zdev zi).type =
        some (Status.sense SenseKey.illegalRequest
          Asc.attemptToReadInvalidData) := by
      rcases hbx with hx | hx
      · have hA : ¬ (lba < zbc_get_zone_boundary (getZone zdev zi)) := by
          omega
        rcases hty with ht | ht <;>
          simp [zbc_zone_ok_to_read, zbc_zone_gap, zbc_zone_offline,
            zbc_zone_inactive, zbc_zone_conv, zbc_zone_seq_pref,
            zbc_zone_seq_req, ht, hc2, hc3, hwp, hnb, hA, hx]
      · by_cases hlt : lba < zbc_get_zone_boundary (getZone zdev zi)
        · have hgtb : zbc_get_zone_lba_count (getZone zdev zi) lba nr_lbas >
              zbc_get_zone_boundary (getZone zdev zi) - lba := by
            rw [hcnt]; omega
          rcases hty with ht | ht <;>
            simp [zbc_zone_ok_to_read, zbc_zone_gap, zbc_zone_offline,
              zbc_zone_inactive, zbc_zone_conv, zbc_zone_seq_pref,
              zbc_zone_seq_req, ht, hc2, hc3, hwp, hnb, hlt, hgtb]
        · have hA : lba ≥ zbc_get_zone_boundary (getZone zdev zi) := by omega
          rcases hty with ht | ht <;>
            simp [zbc_zone_ok_to_read, zbc_zone_gap, zbc_zone_offline,
              zbc_zone_inactive, zbc_zone_conv, zbc_zone_seq_pref,
              zbc_zone_seq_req, ht, hc2, hc3, hwp, hnb, hlt, hA]
    have hcz : zbc_rdwr_check_zones zdev true none lba nr_lbas =
        Status.sense SenseKey.illegalRequest Asc.attemptToReadInvalidData := by
      rw [zbc_rdwr_check_zones, hz]
      simp [hr]
    simp [zbc_read_zoned, hcr, hcz]
  · intro T hwp hu hcap hpos hle hrange hbw
    have hcz := read_check_zones_ok zdev T hwp hu hcap nr_lbas lba none
      hpos hle hrange (Or.inl rfl)
    have hwalk := read_walk_spec zdev hu hcap nr_lbas lba [] hle hbw
    refine ⟨?_, ?_, ?_⟩
    · simp [zbc_read_zoned, hcr, hcz, hwalk.1]
    · simp [zbc_read_zoned, hcr, hcz]
    · have h2 := hwalk.2
      simp only [expandSegs, List.flatMap_nil, List.nil_append] at h2
      simp only [zbc_read_zoned, hcr, hcz]
      simpa [expandSegs] using h2

/-- Witness for read_boundary_semantics: a wp-checked read at the boundary of
the empty SWR zone of dev4, and an unrestricted read across the write pointer
and zone boundary of dev5. -/
theorem read_boundary_semantics_witness :
    (zbc_read_zoned dev4 16 2 1024 =
      (Status.sense SenseKey.illegalRequest Asc.attemptToReadInvalidData,
        { dev4 with read_rule_fails := dev4.read_rule_fails + 1 }, [])) ∧
    ((zbc_read_zoned dev5 0 10 5120).1 = Status.ok ∧
     (zbc_read_zoned dev5 0 10 5120).2.1 = dev5 ∧
     expandSegs (zbc_read_zoned dev5 0 10 5120).2.2 =
       (List.range 10).map (fun k => (readSpecLBA dev5 (0 + k), 0 + k))) := by
  constructor
  · exact (read_boundary_semantics dev4 16 2 1024 2 (by decide) (by decide)
      (by decide)).1 (by decide) (Or.inl (by decide)) (by decide) (by decide)
      (by decide) (Or.inl (by decide))
  · exact (read_boundary_semantics dev5 0 10 5120 0 (by decide) (by decide)
      (by decide)).2 ZoneType.seqWriteReq (by decide) (by decide) (by decide)
      (by decide) (by decide) (by decide) (by decide)

/-! ## C7: REPORT ZONES -/

/-- zbc_should_report_zone: reporting-option filter (the PARTIAL bit 0x80 is
masked off). -/
def zbc_should_report_zone (z : Zone) (ro : Nat) : Bool :=
  let options := ro &&& 0x7f
  if options = 0x00 then true
  else if options = 0x01 then decide (zbc_zone_empty z)
  else if options = 0x02 then decide (zbc_zone_imp_open z)
  else if options = 0x03 then decide (zbc_zone_exp_open z)
  else if options = 0x04 then decide (zbc_zone_closed z)
  else if options = 0x05 then decide (zbc_zone_full z)
  else if options = 0x06 then decide (zbc_zone_rdonly z)
  else if options = 0x07 then decide (zbc_zone_offline z)
  else if options = 0x08 then decide (zbc_zone_inactive z)
  else if options = 0x10 then decide (zbc_zone_rwp z)
  else if options = 0x11 then decide (zbc_zone_non_seq z)
  else if options = 0x3e then decide (zbc_zone_gap z)
  else if options = 0x3f then decide (zbc_zone_not_wp z)
  else false

/-- Reporting options accepted by the zbc_report_zones switch (GAP 0x3e is
not in the accepted list). -/
abbrev zbc_rz_ro_valid (ro : Nat) : Prop :=
  ro ∈ [0x00, 0x01, 0x02, 0x03, 0x04, 0x05, 0x08, 0x06, 0x07, 0x10, 0x11,
    0x3f]

/-- First pass of zbc_report_zones: count the zones to report, walking from
zone i at LBA lba while the LBA is below the capacity; in PARTIAL mode stop
when the remaining allocation cannot hold another descriptor.  The index
guard mirrors the walk staying inside the zone array. -/
def rzCountLoop (zdev : ZDev) (partl : Bool) (ro : Nat)
    (i lba len nr : Nat) : Nat :=
  if zdev.logical_capacity ≤ lba then nr
  else if h : zdev.nr_zones ≤ i then nr
  else
    let z := getZone zdev i
    if zbc_should_report_zone z ro then
      if partl ∧ len < 64 then nr
      else rzCountLoop zdev partl ro (i + 1) (z.start + z.len)
        (if len > 64 then len - 64 else 0) (nr + 1)
    else rzCountLoop zdev partl ro (i + 1) (z.start + z.len) len nr
termination_by zdev.nr_zones - i
decreasing_by all_goals omega

/-- Second pass of zbc_report_zones: emit the zone descriptors that fit in
the remaining iovec length. -/
def rzEmitLoop (zdev : ZDev) (ro : Nat) (i lba len : Nat) (acc : List Nat) :
    List Nat :=
  if zdev.logical_capacity ≤ lba ∨ len < 64 then acc
  else if h : zdev.nr_zones ≤ i then acc
  else
    let z := getZone zdev i
    if zbc_should_report_zone z ro then
      rzEmitLoop zdev ro (i + 1) (z.start + z.len) (len - 64) (acc ++ [i])
    else rzEmitLoop zdev ro (i + 1) (z.start + z.len) len acc
termination_by zdev.nr_zones - i
decreasing_by all_goals omega

/-- zbc_report_zones: returns the status, the ZONE LIST LENGTH header field
(a 32-bit wire value) and the indices of the emitted zone descriptors.  The
iovec is its total byte length; alloc_len is the CDB allocation length. -/
def zbc_report_zones (zdev : ZDev) (partl : Bool) (ro : Nat)
    (start_lba alloc_len iov_len : Nat) : Status × Nat × List Nat :=
  if zdev.logical_capacity ≤ start_lba then
    (Status.sense SenseKey.illegalRequest Asc.lbaOutOfRange, 0, [])
  else if ¬ zbc_rz_ro_valid ro then
    (Status.sense SenseKey.illegalRequest Asc.invalidFieldInCdb, 0, [])
  else
    let len0 := if alloc_len > 64 then alloc_len - 64 else 0
    match zbc_get_zone zdev start_lba false with
    | none => (Status.sense SenseKey.illegalRequest Asc.invalidFieldInCdb, 0, [])
    | some zi =>
      let nr := rzCountLoop zdev partl ro zi start_lba len0 0
      if iov_len < 64 then (Status.ok, nr * 64 % 2 ^ 32, [])
      else (Status.ok, nr * 64 % 2 ^ 32,
        rzEmitLoop zdev ro zi start_lba (iov_len - 64) [])

/-- Indices at or after zone i whose zones match the reporting option. -/
def rzMatching (zdev : ZDev) (ro : Nat) (i : Nat) : List Nat :=
  (List.range' i (zdev.nr_zones - i)).filter
    (fun j => zbc_should_report_zone (getZone zdev j) ro)

lemma rzMatching_nil (zdev : ZDev) (ro i : Nat) (h : zdev.nr_zones ≤ i) :
    rzMatching zdev ro i = [] := by
  unfold rzMatching
  have : zdev.nr_zones - i = 0 := by omega
  rw [this]
  rfl

lemma rzMatching_cons (zdev : ZDev) (ro i : Nat) (h : i < zdev.nr_zones) :
    rzMatching zdev ro i =
      (if zbc_should_report_zone (getZone zdev i) ro then [i] else []) ++
        rzMatching zdev ro (i + 1) := by
  unfold rzMatching
  have h1 : zdev.nr_zones - i = (zdev.nr_zones - (i + 1)) + 1 := by omega
  rw [h1, List.range'_succ, List.filter_cons]
  by_cases hm : zbc_should_report_zone (getZone zdev i) ro <;> simp [hm]

lemma rzCount_noclamp (zdev : ZDev) (ro : Nat) (hu : UniformZones zdev)
    (hcov : zdev.logical_capacity = zdev.nr_zones * 2 ^ zdev.zone_log2) :
    ∀ k i lba len nr, zdev.nr_zones - i ≤ k →
      i * 2 ^ zdev.zone_log2 ≤ lba → lba < (i + 1) * 2 ^ zdev.zone_log2 →
      rzCountLoop zdev false ro i lba len nr =
        nr + (rzMatching zdev ro i).length := by
  intro k
  induction k with
  | zero =>
    intro i lba len nr hk hlo hhi
    have hni : zdev.nr_zones ≤ i := by omega
    have hcle : zdev.logical_capacity ≤ lba := by
      rw [hcov]
      calc zdev.nr_zones * 2 ^ zdev.zone_log2 ≤ i * 2 ^ zdev.zone_log2 :=
        Nat.mul_le_mul_right _ hni
      _ ≤ lba := hlo
    rw [rzCountLoop, if_pos hcle, rzMatching_nil zdev ro i hni]
    simp
  | succ k IH =>
    intro i lba len nr hk hlo hhi
    by_cases hcle : zdev.logical_capacity ≤ lba
    · have hni : zdev.nr_zones ≤ i := by
        by_contra hni
        have h2 : (i + 1) * 2 ^ zdev.zone_log2 ≤
            zdev.nr_zones * 2 ^ zdev.zone_log2 :=
          Nat.mul_le_mul_right _ (by omega)
        rw [hcov] at hcle
        omega
      rw [rzCountLoop, if_pos hcle, rzMatching_nil zdev ro i hni]
      simp
    · have hni : i < zdev.nr_zones := by
        by_contra hni
        have h2 : zdev.nr_zones * 2 ^ zdev.zone_log2 ≤
            i * 2 ^ zdev.zone_log2 := Nat.mul_le_mul_right _ (by omega)
        rw [hcov] at hcle
        omega
      obtain ⟨hs, hlen⟩ := hu i hni
      have hend : (getZone zdev i).start + (getZone zdev i).len =
          (i + 1) * 2 ^ zdev.zone_log2 := by
        rw [hs, hlen]; ring
      rw [rzCountLoop, if_neg hcle, dif_neg (by omega : ¬ zdev.nr_zones ≤ i),
        rzMatching_cons zdev ro i hni]
      have hL : 0 < 2 ^ zdev.zone_log2 := two_pow_pos' _
      by_cases hm : zbc_should_report_zone (getZone zdev i) ro
      · rw [if_pos hm]
        rw [if_neg (by simp)]
        rw [hend]
        rw [IH (i + 1) ((i + 1) * 2 ^ zdev.zone_log2) _ (nr + 1) (by omega)
          (le_refl _) (by
            have : (i + 1) * 2 ^ zdev.zone_log2 <
                (i + 1 + 1) * 2 ^ zdev.zone_log2 := by
              apply (Nat.mul_lt_mul_right hL).mpr
              omega
            omega)]
        simp [hm]
        omega
      · rw [if_neg hm, hend]
        rw [IH (i + 1) ((i + 1) * 2 ^ zdev.zone_log2) len nr (by omega)
          (le_refl _) (by
            have : (i + 1) * 2 ^ zdev.zone_log2 <
                (i + 1 + 1) * 2 ^ zdev.zone_log2 := by
              apply (Nat.mul_lt_mul_right hL).mpr
              omega
            omega)]
        simp [hm]

lemma rzCount_clamped (zdev : ZDev) (ro : Nat) (hu : UniformZones zdev)
    (hcov : zdev.logical_capacity = zdev.nr_zones * 2 ^ zdev.zone_log2) :
    ∀ k i lba len nr, zdev.nr_zones - i ≤ k →
      i * 2 ^ zdev.zone_log2 ≤ lba → lba < (i + 1) * 2 ^ zdev.zone_log2 →
      rzCountLoop zdev true ro i lba len nr =
        nr + min (rzMatching zdev ro i).length (len / 64) := by
  intro k
  induction k with
  | zero =>
    intro i lba len nr hk hlo hhi
    have hni : zdev.nr_zones ≤ i := by omega
    have hcle : zdev.logical_capacity ≤ lba := by
      rw [hcov]
      calc zdev.nr_zones * 2 ^ zdev.zone_log2 ≤ i * 2 ^ zdev.zone_log2 :=
        Nat.mul_le_mul_right _ hni
      _ ≤ lba := hlo
    rw [rzCountLoop, if_pos hcle, rzMatching_nil zdev ro i hni]
    simp
  | succ k IH =>
    intro i lba len nr hk hlo hhi
    by_cases hcle : zdev.logical_capacity ≤ lba
    · have hni : zdev.nr_zones ≤ i := by
        by_contra hni
        have h2 : (i + 1) * 2 ^ zdev.zone_log2 ≤
            zdev.nr_zones * 2 ^ zdev.zone_log2 :=
          Nat.mul_le_mul_right _ (by omega)
        rw [hcov] at hcle
        omega
      rw [rzCountLoop, if_pos hcle, rzMatching_nil zdev ro i hni]
      simp
    · have hni : i < zdev.nr_zones := by
        by_contra hni
        have h2 : zdev.nr_zones * 2 ^ zdev.zone_log2 ≤
            i * 2 ^ zdev.zone_log2 := Nat.mul_le_mul_right _ (by omega)
        rw [hcov] at hcle
        omega
      obtain ⟨hs, hlen⟩ := hu i hni
      have hend : (getZone zdev i).start + (getZone zdev i).len =
          (i + 1) * 2 ^ zdev.zone_log2 := by
        rw [hs, hlen]; ring
      have hL : 0 < 2 ^ zdev.zone_log2 := two_pow_pos' _
      have hnext : (i + 1) * 2 ^ zdev.zone_log2 <
          (i + 1 + 1) * 2 ^ zdev.zone_log2 := by
        apply (Nat.mul_lt_mul_right hL).mpr
        omega
      rw [rzCountLoop, if_neg hcle, dif_neg (by omega : ¬ zdev.nr_zones ≤ i),
        rzMatching_cons zdev ro i hni]
      by_cases hm : zbc_should_report_zone (getZone zdev i) ro
      · rw [if_pos hm]
        by_cases hlen64 : len < 64
        · rw [if_pos (by simp [hlen64])]
          have : len / 64 = 0 := by omega
          simp [this]
        · rw [if_neg (by simp [hlen64])]
          have hupd : (if len > 64 then len - 64 else 0) = len - 64 := by
            by_cases h6 : len > 64 <;> simp [h6] <;> omega
          rw [hupd, hend]
          rw [IH (i + 1) ((i + 1) * 2 ^ zdev.zone_log2) (len - 64) (nr + 1)
            (by omega) (le_refl _) hnext]
          simp [hm]
          omega
      · rw [if_neg hm, hend]
        rw [IH (i + 1) ((i + 1) * 2 ^ zdev.zone_log2) len nr (by omega)
          (le_refl _) hnext]
        simp [hm]

lemma rzEmit_spec (zdev : ZDev) (ro : Nat) (hu : UniformZones zdev)
    (hcov : zdev.logical_capacity = zdev.nr_zones * 2 ^ zdev.zone_log2) :
    ∀ k i lba len acc, zdev.nr_zones - i ≤ k →
      i * 2 ^ zdev.zone_log2 ≤ lba → lba < (i + 1) * 2 ^ zdev.zone_log2 →
      rzEmitLoop zdev ro i lba len acc =
        acc ++ (rzMatching zdev ro i).take (len / 64) := by
  intro k
  induction k with
  | zero =>
    intro i lba len acc hk hlo hhi
    have hni : zdev.nr_zones ≤ i := by omega
    have hcle : zdev.logical_capacity ≤ lba := by
      rw [hcov]
      calc zdev.nr_zones * 2 ^ zdev.zone_log2 ≤ i * 2 ^ zdev.zone_log2 :=
        Nat.mul_le_mul_right _ hni
      _ ≤ lba := hlo
    rw [rzEmitLoop, if_pos (Or.inl hcle), rzMatching_nil zdev ro i hni]
    simp
  | succ k IH =>
    intro i lba len acc hk hlo hhi
    by_cases hcle : zdev.logical_capacity ≤ lba
    · have hni : zdev.nr_zones ≤ i := by
        by_contra hni
        have h2 : (i + 1) * 2 ^ zdev.zone_log2 ≤
            zdev.nr_zones * 2 ^ zdev.zone_log2 :=
          Nat.mul_le_mul_right _ (by omega)
        rw [hcov] at hcle
        omega
      rw [rzEmitLoop, if_pos (Or.inl hcle), rzMatching_nil zdev ro i hni]
      simp
    · by_cases hlen64 : len < 64
      · rw [rzEmitLoop, if_pos (Or.inr hlen64)]
        have : len / 64 = 0 := by omega
        simp [this]
      · have hni : i < zdev.nr_zones := by
          by_contra hni
          have h2 : zdev.nr_zones * 2 ^ zdev.zone_log2 ≤
              i * 2 ^ zdev.zone_log2 := Nat.mul_le_mul_right _ (by omega)
          rw [hcov] at hcle
          omega
        obtain ⟨hs, hlen⟩ := hu i hni
        have hend : (getZone zdev i).start + (getZone zdev i).len =
            (i + 1) * 2 ^ zdev.zone_log2 := by
          rw [hs, hlen]; ring
        have hL : 0 < 2 ^ zdev.zone_log2 := two_pow_pos' _
        have hnext : (i + 1) * 2 ^ zdev.zone_log2 <
            (i + 1 + 1) * 2 ^ zdev.zone_log2 := by
          apply (Nat.mul_lt_mul_right hL).mpr
          omega
        rw [rzEmitLoop, if_neg (by omega),
          dif_neg (by omega : ¬ zdev.nr_zones ≤ i),
          rzMatching_cons zdev ro i hni]
        by_cases hm : zbc_should_report_zone (getZone zdev i) ro
        · rw [if_pos hm, hend]
          rw [IH (i + 1) ((i + 1) * 2 ^ zdev.zone_log2) (len - 64)
            (acc ++ [i]) (by omega) (le_refl _) hnext]
          have hdiv : len / 64 = (len - 64) / 64 + 1 := by omega
          rw [hdiv]
          simp [hm]
        · rw [if_neg hm, hend]
          rw [IH (i + 1) ((i + 1) * 2 ^ zdev.zone_log2) len acc (by omega)
            (le_refl _) hnext]
          simp [hm]

/-- C7: for a recognized reporting option, the ZONE LIST LENGTH header field
of REPORT ZONES equals 64 times the number of matching zones at or after the
start LBA when PARTIAL is clear, independent of the allocation and buffer
lengths, and only the descriptors that fit in the buffer after the 64-byte
header are emitted; when PARTIAL is set the header count is clamped to the
number of descriptors that fit in the allocation length after the header. -/
theorem report_zones_faithful (zdev : ZDev) (ro start_lba alloc_len iov_len : Nat)
    (hu : UniformZones zdev)
    (hcov : zdev.logical_capacity = zdev.nr_zones * 2 ^ zdev.zone_log2)
    (hlt : start_lba < zdev.logical_capacity)
    (hro : zbc_rz_ro_valid ro)
    (h64 : 64 ≤ iov_len) :
    ((rzMatching zdev ro (start_lba / 2 ^ zdev.zone_log2)).length * 64 <
        2 ^ 32 →
      zbc_report_zones zdev false ro start_lba alloc_len iov_len =
        (Status.ok,
          (rzMatching zdev ro (start_lba / 2 ^ zdev.zone_log2)).length * 64,
          (rzMatching zdev ro (start_lba / 2 ^ zdev.zone_log2)).take
            ((iov_len - 64) / 64))) ∧
    (min (rzMatching zdev ro (start_lba / 2 ^ zdev.zone_log2)).length
        ((alloc_len - 64) / 64) * 64 < 2 ^ 32 →
      zbc_report_zones zdev true ro start_lba alloc_len iov_len =
        (Status.ok,
          min (rzMatching zdev ro (start_lba / 2 ^ zdev.zone_log2)).length
            ((alloc_len - 64) / 64) * 64,
          (rzMatching zdev ro (start_lba / 2 ^ zdev.zone_log2)).take
            ((iov_len - 64) / 64))) := by
  have hL : 0 < 2 ^ zdev.zone_log2 := two_pow_pos' _
  have hnn : ¬ zdev.logical_capacity ≤ start_lba := by omega
  have hgz : zbc_get_zone zdev start_lba false =
      some (start_lba / 2 ^ zdev.zone_log2) :=
    get_zone_of_lt zdev start_lba (hcov ▸ hlt)
  have hlo : start_lba / 2 ^ zdev.zone_log2 * 2 ^ zdev.zone_log2 ≤
      start_lba := zone_start_le start_lba _ hL
  have hhi : start_lba < (start_lba / 2 ^ zdev.zone_log2 + 1) *
      2 ^ zdev.zone_log2 := lt_zone_end start_lba _ hL
  have hvl : ¬ ¬ zbc_rz_ro_valid ro := not_not_intro hro
  have h64n : ¬ iov_len < 64 := by omega
  have halloc : (if alloc_len > 64 then alloc_len - 64 else 0) =
      alloc_len - 64 := by
    by_cases h6 : alloc_len > 64 <;> simp [h6] <;> omega
  have hemit := rzEmit_spec zdev ro hu hcov zdev.nr_zones
    (start_lba / 2 ^ zdev.zone_log2) start_lba (iov_len - 64) []
    (Nat.sub_le _ _) hlo hhi
  constructor
  · intro hb
    have hcount := rzCount_noclamp zdev ro hu hcov zdev.nr_zones
      (start_lba / 2 ^ zdev.zone_log2) start_lba
      (if alloc_len > 64 then alloc_len - 64 else 0) 0 (Nat.sub_le _ _)
      hlo hhi
    simp only [zbc_report_zones, if_neg hnn, if_neg hvl, hgz, hcount,
      if_neg h64n, hemit, Nat.zero_add, List.nil_append]
    rw [Nat.mod_eq_of_lt (by omega)]
  · intro hb
    have hcount := rzCount_clamped zdev ro hu hcov zdev.nr_zones
      (start_lba / 2 ^ zdev.zone_log2) start_lba
      (if alloc_len > 64 then alloc_len - 64 else 0) 0 (Nat.sub_le _ _)
      hlo hhi
    rw [halloc] at hcount
    simp only [zbc_report_zones, if_neg hnn, if_neg hvl, hgz, halloc, hcount,
      if_neg h64n, hemit, Nat.zero_add, List.nil_append]
    rw [Nat.mod_eq_of_lt (by omega)]

/-- Witness for report_zones_faithful: REPORT ZONES (ALL) on the concrete
four-zone device with a buffer holding the header plus two descriptors. -/
theorem report_zones_faithful_witness :
    (zbc_report_zones dev4 false 0 0 4096 192 =
      (Status.ok, (rzMatching dev4 0 0).length * 64,
        (rzMatching dev4 0 0).take 2)) ∧
    (zbc_report_zones dev4 true 0 0 4096 192 =
      (Status.ok, min (rzMatching dev4 0 0).length 63 * 64,
        (rzMatching dev4 0 0).take 2)) := by
  have h := report_zones_faithful dev4 0 0 4096 192 (by decide) (by decide)
    (by decide) (by decide) (by decide)
  constructor
  · have h1 := h.1 (by decide)
    simpa using h1
  · have h2 := h.2 (by decide)
    simpa using h2

/-- Witness for write_first_zone_wp_rules: a write into the full SWR zone of
the concrete device. -/
theorem write_first_zone_wp_rules_witness :
    (getZone dev4 1).type = ZoneType.seqWriteReq ∧
    (getZone dev4 1).cond = ZoneCond.full ∧
    zbc_write_zoned dev4 8 4 2048 =
      (Status.sense SenseKey.illegalRequest Asc.invalidFieldInCdb,
        { dev4 with write_rule_fails := dev4.write_rule_fails + 1 }, []) := by
  refine ⟨by decide, by decide, ?_⟩
  exact (write_first_zone_wp_rules dev4 8 4 2048 1 (by decide)
    (by decide) (by decide)).1 (by decide) (by decide) (by decide)


/-! ## Zone activation engine (ZONE ACTIVATE / ZONE QUERY) -/

/-- ZBC_ACTV_RES_HEADER_SIZE. -/
def ZBC_ACTV_RES_HEADER_SIZE : Nat := 64

/-- ZBC_ACTV_RES_DESCRIPTOR_SIZE. -/
def ZBC_ACTV_RES_DESCRIPTOR_SIZE : Nat := 24

/-- ZBC_ACTV_ERR_NOT_INACTIVE. -/
def ZBC_ACTV_ERR_NOT_INACTIVE : Nat := 0x0001

/-- ZBC_ACTV_ERR_NOT_EMPTY. -/
def ZBC_ACTV_ERR_NOT_EMPTY : Nat := 0x0002

/-- ZBC_ACTV_ERR_REALM_ALIGN. -/
def ZBC_ACTV_ERR_REALM_ALIGN : Nat := 0x0004

/-- ZBC_ACTV_ERR_UNSUPP. -/
def ZBC_ACTV_ERR_UNSUPP : Nat := 0x0010

/-- ZBC_ACTV_ERR_MULTI_DOMAINS. -/
def ZBC_ACTV_ERR_MULTI_DOMAINS : Nat := 0x0020

/-- ZBC_ACTV_STAT_NZP_VALID. -/
def ZBC_ACTV_STAT_NZP_VALID : Nat := 0x80

/-- ZBC_ACTV_STAT_ZIWUP_VALID. -/
def ZBC_ACTV_STAT_ZIWUP_VALID : Nat := 0x40

/-- ZBC_ACTV_STAT_ACTIVATED. -/
def ZBC_ACTV_STAT_ACTIVATED : Nat := 0x01

/-- zbc_set_initial_wp: set the write pointer of a zone from its condition
and link EMPTY/FULL zones to the tail of the sequential-active list. -/
def zbc_set_initial_wp (zdev : ZDev) (i : Nat) : ZDev :=
  let z := getZone zdev i
  match z.cond with
  | ZoneCond.empty =>
    let zdev := setZone zdev i { z with wp := z.start }
    zbc_add_zone_tail zdev WhichList.seqActiveList i
  | ZoneCond.full =>
    let zdev := setZone zdev i
      { z with wp := if zbc_zone_seq z then z.start + z.len else ZBC_NO_WP }
    zbc_add_zone_tail zdev WhichList.seqActiveList i
  | ZoneCond.inactive => setZone zdev i { z with wp := ZBC_NO_WP }
  | ZoneCond.notWp => setZone zdev i { z with wp := ZBC_NO_WP }
  | ZoneCond.readonly => setZone zdev i { z with wp := ZBC_NO_WP }
  | ZoneCond.offline => setZone zdev i { z with wp := ZBC_NO_WP }
  | _ => zdev

/-- zbc_domain_id: zone_type_to_dom table entry of a zone type; none encodes
the C value -1 (no domain of that type). -/
def zbc_domain_id (zdev : ZDev) (zt : ZoneType) : Option Nat :=
  zdev.zone_type_to_dom.getD (zt.code - 1) none

/-- Value a C int takes when stored into a 32-bit unsigned variable. -/
def u32OfInt (x : Int) : Nat := (x % (2 ^ 32 : Int)).toNat

/-- zbc_cmr_to_smr_zones (-1 when the input count is 0). -/
def zbc_cmr_to_smr_zones (zdev : ZDev) (cmr_zones : Nat) : Int :=
  if cmr_zones = 0 then -1
  else (zdev.cmr_nr_zones_to_smr.getD (cmr_zones - 1) 0 : Int)

/-- zbc_smr_to_cmr_zones (-1 when the input count is 0). -/
def zbc_smr_to_cmr_zones (zdev : ZDev) (smr_zones : Nat) : Int :=
  if smr_zones = 0 then -1
  else (zdev.smr_nr_zones_to_cmr.getD (smr_zones - 1) 0 : Int)

/-- zbc_get_deactv_realm_zones: number of zones of the slice being
deactivated (the requested length converted between the CMR and SMR scales
when the types live in different domains); none encodes the C return -1. -/
def zbc_get_deactv_realm_zones (zdev : ZDev) (r : ZoneRealm)
    (offset length : Nat) (new_type : ZoneType) : Option Nat :=
  if r.type ≠ new_type then
    match zbc_domain_id zdev r.type, zbc_domain_id zdev new_type with
    | some old_dom, some new_dom =>
      let length1 :=
        if zbc_smr_domain (getDomain zdev old_dom) ∧
            ¬ zbc_smr_domain (getDomain zdev new_dom) then
          u32OfInt (zbc_cmr_to_smr_zones zdev length)
        else if ¬ zbc_smr_domain (getDomain zdev old_dom) ∧
            zbc_smr_domain (getDomain zdev new_dom) then
          u32OfInt (zbc_smr_to_cmr_zones zdev length)
        else length
      some (min (zbc_realm_length r r.type - offset) length1)
    | _, _ => none
  else some (min (zbc_realm_length r r.type - offset) length)

/-- One 24-byte activation results descriptor record. -/
structure ActvDesc where
  ztype : ZoneType
  cond : ZoneCond
  dom : Option Nat
  nr_zones : Nat
  start : Nat
deriving DecidableEq, Repr

/-- One allocated struct zbc_actv_desc_list node (first/second records). -/
structure ActvDescPair where
  first : ActvDesc
  second : ActvDesc
deriving DecidableEq, Repr

/-- struct zbc_za_results. -/
structure ZaResults where
  recs : List ActvDescPair
  ziwup : Nat
  nr_desc : Nat
  error : Nat
deriving DecidableEq, Repr

/-- zbc_init_actv_results (ziwup starts at ULLONG_MAX). -/
def zbc_init_actv_results : ZaResults :=
  { recs := [], ziwup := ZBC_NO_WP, nr_desc := 0, error := 0 }

/-- zbc_fill_actv_record for the zone slice starting at index zi. -/
def zbc_fill_actv_record (zdev : ZDev) (zi : Nat) (cond : ZoneCond)
    (nr_zones : Nat) : ActvDesc :=
  { ztype := (getZone zdev zi).type, cond := cond,
    dom := zbc_get_zone_domain zdev zi, nr_zones := nr_zones,
    start := (getZone zdev zi).start }

/-- Deactivation-scan stop predicate of zbc_chk_can_actv_realm (a zone
with an active write pointer, or, without ALL, any zone not CONV, EMPTY
or INACTIVE). -/
def zaDeacBad (zdev : ZDev) (all : Bool) (j : Nat) : Bool :=
  if all then
    decide (zbc_zone_closed (getZone zdev j) ∨
      zbc_zone_exp_open (getZone zdev j) ∨
      zbc_zone_imp_open (getZone zdev j) ∨ zbc_zone_full (getZone zdev j))
  else
    decide (¬ zbc_zone_conv (getZone zdev j) ∧
      ¬ zbc_zone_empty (getZone zdev j) ∧
      ¬ zbc_zone_inactive (getZone zdev j))

/-- Eligible-zone predicate of the ALL deactivation scan. -/
def zaDeacZT (zdev : ZDev) (j : Nat) : Bool :=
  decide (zbc_zone_empty (getZone zdev j) ∨
    zbc_zone_inactive (getZone zdev j))

/-- Activation-scan stop predicate of zbc_chk_can_actv_realm. -/
def zaActvBad (zdev : ZDev) (all : Bool) (j : Nat) : Bool :=
  if all then
    decide (zbc_zone_imp_open (getZone zdev j) ∨
      zbc_zone_full (getZone zdev j))
  else
    decide (¬ zbc_zone_conv (getZone zdev j) ∧
      ¬ zbc_zone_empty (getZone zdev j) ∧
      ¬ zbc_zone_rdonly (getZone zdev j) ∧
      ¬ zbc_zone_offline (getZone zdev j) ∧
      ¬ zbc_zone_inactive (getZone zdev j))

/-- Eligible-zone predicate of the ALL activation scan. -/
def zaActvZT (zdev : ZDev) (j : Nat) : Bool :=
  decide (zbc_zone_inactive (getZone zdev j) ∨
    zbc_zone_empty (getZone zdev j))

/-- zbc_chk_can_actv_realm: decide whether the realm can be activated to
new_type; on failure the error bits are OR-ed into the results and the
ZIWUP field is set (to the offending zone, the realm start, or kept at
ULLONG_MAX for the no-eligible-zones ALL failures). -/
def zbc_chk_can_actv_realm (zdev : ZDev) (r : ZoneRealm)
    (offset length : Nat) (new_type : ZoneType) (all : Bool)
    (res : ZaResults) : Bool × ZaResults :=
  if (¬ all ∧ ¬ zbc_can_actv_realm_as r new_type) ∨
      ((zbc_realm_nowp r ∧ zbc_act_type_sobr new_type) ∨
        (zbc_realm_sobr r ∧ zbc_act_type_nowp new_type)) ∨
      ((zbc_realm_seq_p r ∧ zbc_act_type_seq_r new_type) ∨
        (zbc_realm_seq_r r ∧ zbc_act_type_seq_p new_type)) then
    (false, { res with error := res.error ||| ZBC_ACTV_ERR_UNSUPP,
                       ziwup := zbc_realm_start r r.type })
  else
    let zs := (zbc_get_realm_item r r.type).start_zone + offset
    let nr1 := match zbc_get_deactv_realm_zones zdev r offset length new_type with
      | some n => n
      | none => 2 ^ 32 - 1
    let deacIdx := (List.range nr1).map (fun k => zs + k)
    match deacIdx.find? (zaDeacBad zdev all) with
    | some j =>
      (false, { res with error := res.error ||| ZBC_ACTV_ERR_NOT_EMPTY,
                         ziwup := (getZone zdev j).start })
    | none =>
      if all ∧ ¬ deacIdx.any (zaDeacZT zdev) then
        (false, { res with error := res.error ||| ZBC_ACTV_ERR_NOT_EMPTY,
                           ziwup := ZBC_NO_WP })
      else if ¬ zbc_can_actv_realm_as r new_type then
        (true, res)
      else
        let zs2 := (zbc_get_realm_item r new_type).start_zone + offset
        let nr2 := min (zbc_realm_length r new_type - offset) length
        let actIdx := (List.range nr2).map (fun k => zs2 + k)
        match actIdx.find? (zaActvBad zdev all) with
        | some j =>
          (false, { res with error := res.error ||| ZBC_ACTV_ERR_NOT_INACTIVE,
                             ziwup := (getZone zdev j).start })
        | none =>
          if all ∧ ¬ actIdx.any (zaActvZT zdev) then
            (false, { res with error := res.error ||| ZBC_ACTV_ERR_NOT_INACTIVE,
                               ziwup := ZBC_NO_WP })
          else (true, res)

/-- Loop body of the zbc_deactivate_realm_zones mutation pass over one
zone: unlink, account the condition change, set the new condition and
re-derive the write pointer. -/
def zbc_deac_zone_step (zdev : ZDev) (cond : ZoneCond) (j : Nat) : ZDev :=
  let z := getZone zdev j
  if zbc_zone_rdonly z ∨ zbc_zone_offline z then zdev
  else
    let zdev := zbc_unlink_zone zdev j
    let zdev := zbc_on_cond_change zdev j cond
    let zdev := setZone zdev j { getZone zdev j with cond := cond }
    zbc_set_initial_wp zdev j

/-- Loop body of the zbc_activate_realm_zones mutation pass over one zone
(counts zones that newly become EMPTY; no zbc_on_cond_change here). -/
def zbc_actv_zone_step (zdev : ZDev) (cond : ZoneCond) (j : Nat) : ZDev :=
  let z := getZone zdev j
  if zbc_zone_rdonly z ∨ zbc_zone_offline z then zdev
  else
    let zdev := zbc_unlink_zone zdev j
    let zdev := if ¬ zbc_zone_empty z ∧ cond = ZoneCond.empty then
        { zdev with nr_empty_zones := zdev.nr_empty_zones + 1 }
      else zdev
    let zdev := setZone zdev j { getZone zdev j with cond := cond }
    zbc_set_initial_wp zdev j

/-- zbc_deactivate_realm_zones: fill the descriptor record for the slice of
the realm's current type and, unless this is a dry run or a same-type
activation, put every zone of that slice into INACTIVE condition. -/
def zbc_deactivate_realm_zones (zdev : ZDev) (r : ZoneRealm)
    (offset length : Nat) (new_type : ZoneType) (dry_run : Bool) :
    ZDev × ActvDesc :=
  let zs := (zbc_get_realm_item r r.type).start_zone
  let nr := zbc_realm_length r r.type
  let dc : Bool × ZoneCond :=
    if new_type = r.type then (true, (getZone zdev zs).cond)
    else (dry_run, ZoneCond.inactive)
  let desc := zbc_fill_actv_record zdev zs dc.2 nr
  if dc.1 then (zdev, desc)
  else
    (((List.range nr).map (fun k => zs + k)).foldl
      (fun s j => zbc_deac_zone_step s dc.2 j) zdev, desc)

/-- zbc_activate_realm_zones: fill the descriptor record for the slice of
the new type and, unless this is a dry run or a same-type activation, put
every zone of that slice into its initial active condition. -/
def zbc_activate_realm_zones (zdev : ZDev) (r : ZoneRealm)
    (offset length : Nat) (new_type : ZoneType) (dry_run : Bool) :
    ZDev × ActvDesc :=
  let zs := (zbc_get_realm_item r new_type).start_zone
  let nr := zbc_realm_length r new_type
  let dc : Bool × ZoneCond :=
    if new_type = r.type then (true, (getZone zdev zs).cond)
    else if zbc_act_type_nowp new_type then (dry_run, ZoneCond.notWp)
    else (dry_run, ZoneCond.empty)
  let desc := zbc_fill_actv_record zdev zs dc.2 nr
  if dc.1 then (zdev, desc)
  else
    (((List.range nr).map (fun k => zs + k)).foldl
      (fun s j => zbc_actv_zone_step s dc.2 j) zdev, desc)

/-- zbc_activate_realm: check, deactivate the old slice, activate the new
slice, collect the descriptor pair and commit the realm's new type.
Returns 1 when the check refused the realm (error bits already set),
otherwise 0.  The calloc-failure return -1 is not modelled. -/
def zbc_activate_realm (zdev : ZDev) (ri offset length : Nat)
    (new_type : ZoneType) (dry_run all : Bool) (res : ZaResults) :
    Nat × ZDev × ZaResults :=
  let r := getRealm zdev ri
  let chk := zbc_chk_can_actv_realm zdev r offset length new_type all res
  if ¬ chk.1 then (1, zdev, chk.2)
  else if ¬ zbc_can_actv_realm_as r new_type then (0, zdev, chk.2)
  else
    let rs_old := zbc_realm_start r r.type
    let rs_new := zbc_realm_start r new_type
    let deac_1st := rs_old < rs_new
    let res2 := if rs_old ≠ rs_new then
        { chk.2 with nr_desc := chk.2.nr_desc + 1 } else chk.2
    let dz := zbc_deactivate_realm_zones zdev r offset length new_type dry_run
    let res3 := { res2 with nr_desc := res2.nr_desc + 1 }
    let az := zbc_activate_realm_zones dz.1 r offset length new_type dry_run
    let pair := if deac_1st then ActvDescPair.mk dz.2 az.2
      else ActvDescPair.mk az.2 dz.2
    let res4 := { res3 with recs := res3.recs ++ [pair] }
    let zdev3 := if ¬ dry_run then setRealm az.1 ri { r with type := new_type }
      else az.1
    (0, zdev3, res4)

/-- Binary-search loop of zbc_get_zone_realm; r and rlba keep the values of
their last loop iteration when the loop exits. -/
def zbc_realm_bsearch (zdev : ZDev) (zt : ZoneType) (lba : Nat)
    (l h r : Int) (rlba : Nat) : Int × Nat :=
  if hlh : l ≤ h then
    let m := (l + h) / 2
    let rlba2 := zbc_realm_start (getRealm zdev m.toNat) zt
    if rlba2 = lba then (m, rlba2)
    else if rlba2 < lba then zbc_realm_bsearch zdev zt lba (m + 1) h m rlba2
    else zbc_realm_bsearch zdev zt lba l (m - 1) m rlba2
  else (r, rlba)
termination_by (h + 1 - l).toNat
decreasing_by all_goals omega

/-- zbc_get_zone_realm: locate the realm containing an LBA; none encodes
the C return -1.  Also yields the zone type of the containing domain. -/
def zbc_get_zone_realm (zdev : ZDev) (lba : Nat) (lowest : Bool) :
    Option (Nat × ZoneType) :=
  match (List.range zdev.nr_domains).find? (fun i =>
      decide (lba ≥ (getDomain zdev i).start_lba ∧
        lba ≤ (getDomain zdev i).end_lba)) with
  | none => none
  | some di =>
    let zt := (getDomain zdev di).type
    let rr := zbc_realm_bsearch zdev zt lba 0 ((zdev.nr_realms : Int) - 1) 0 0
    let fixed : Option (Nat × Nat) :=
      if lba < rr.2 then
        if rr.1 = 0 then none
        else some ((rr.1 - 1).toNat,
          zbc_realm_start (getRealm zdev (rr.1 - 1).toNat) zt)
      else some (rr.1.toNat, rr.2)
    match fixed with
    | none => none
    | some (r, rlba) =>
      let rlen := zbc_realm_length (getRealm zdev r) zt
      if rlen ≠ 0 ∧ (lba < rlba ∨ lba ≥ rlba + (rlen <<< zdev.zone_log2)) then
        none
      else if lowest ∧ lba ≠ rlba then none
      else some (r, zt)

/-- The ending-realm search loop of zbc_zone_activate. -/
def zaFindEnd (nrRealms sz : Nat) (endr : Nat) (nz : Int) : Nat × Int :=
  if h : endr < nrRealms ∧ nz > 0 then zaFindEnd nrRealms sz (endr + 1) (nz - sz)
  else (endr, nz)
termination_by nrRealms - endr
decreasing_by omega

/-- The realm-by-realm walk of zbc_zone_activate: realms are activated one
at a time and the walk stops at the first realm whose check fails, leaving
the earlier realms committed. -/
def zaWalk (zdev : ZDev) (res : ZaResults) (i endr : Nat) (nz : Int)
    (ofs sz : Nat) (new_type : ZoneType) (dry_run all : Bool) :
    Bool × ZDev × ZaResults :=
  if h : i < endr then
    let step := zbc_activate_realm zdev i ofs (min nz (sz : Int)).toNat
      new_type dry_run all res
    if step.1 = 1 then (false, step.2.1, step.2.2)
    else zaWalk step.2.1 step.2.2 (i + 1) endr (nz - ((sz : Int) - (ofs : Int)))
      0 sz new_type dry_run all
  else (true, zdev, res)
termination_by endr - i
decreasing_by omega

/-- First emission pass of zbc_zone_activate: copy the FIRST record of each
descriptor pair while a whole record still fits; returns the records, the
remaining byte budget and the number of completed iterations. -/
def zaEmitFirst : List ActvDescPair → Nat → List ActvDesc × Nat × Nat
  | [], len => ([], len, 0)
  | p :: rest, len =>
    if len < ZBC_ACTV_RES_DESCRIPTOR_SIZE then ([], len, 0)
    else
      let t := zaEmitFirst rest (len - ZBC_ACTV_RES_DESCRIPTOR_SIZE)
      (p.first :: t.1, t.2.1, t.2.2 + 1)

/-- Second emission pass of zbc_zone_activate: copy SECOND records while
the nr_desc countdown and the byte budget both allow. -/
def zaEmitSecond : List ActvDescPair → Nat → Nat → List ActvDesc
  | [], _, _ => []
  | p :: rest, i, len =>
    if i = 0 then []
    else if len < ZBC_ACTV_RES_DESCRIPTOR_SIZE then []
    else p.second ::
      zaEmitSecond rest (i - 1) (len - ZBC_ACTV_RES_DESCRIPTOR_SIZE)

/-- Fields of the 64-byte activation results header together with the
descriptor records emitted into the data-in buffer. -/
structure ZaOutput where
  bytes_all : Nat
  bytes_ret : Nat
  stat : Nat
  err_bits : Nat
  dom : Nat
  nzp : Option Nat
  ziwup : Option Nat
  nozsrc : Bool
  allb : Bool
  descs : List ActvDesc
deriving DecidableEq, Repr

/-- The outhdr/out tail of zbc_zone_activate: assemble the header fields
and emit the descriptor records (none when the operation failed or the
buffer cannot even hold the header). -/
def zaOutput (res : ZaResults) (ok dry_run : Bool) (status0 : Nat)
    (nzp : Option Nat) (domain_id : Nat) (nozsrc all : Bool)
    (alloc_len iov_len : Nat) : ZaOutput :=
  let szd := res.nr_desc * ZBC_ACTV_RES_DESCRIPTOR_SIZE
  let stat1 :=
    if ok then (if dry_run then status0 else status0 ||| ZBC_ACTV_STAT_ACTIVATED)
    else if res.ziwup ≠ ZBC_NO_WP then status0 ||| ZBC_ACTV_STAT_ZIWUP_VALID
    else status0
  let ziwupF : Option Nat :=
    if ok then none
    else if res.ziwup ≠ ZBC_NO_WP then some (res.ziwup % 2 ^ 48) else none
  let descs :=
    if ok ∧ ZBC_ACTV_RES_HEADER_SIZE ≤ iov_len then
      let e1 := zaEmitFirst res.recs (iov_len - ZBC_ACTV_RES_HEADER_SIZE)
      e1.1 ++ zaEmitSecond res.recs (res.nr_desc - e1.2.2) e1.2.1
    else []
  { bytes_all := szd % 2 ^ 32,
    bytes_ret := min szd (alloc_len - ZBC_ACTV_RES_HEADER_SIZE),
    stat := stat1, err_bits := res.error % 2 ^ 8, dom := domain_id % 2 ^ 8,
    nzp := nzp, ziwup := ziwupF, nozsrc := nozsrc, allb := all,
    descs := descs }

/-- Zone type to activate, per ZDr2 5.2.102.2.2: the commanded domain
type, except that a QUERY/ACTIVATE addressed at an INACTIVE zone without
ALL activates the type of the domain holding the start LBA. -/
def zaNewType (zdev : ZDev) (all : Bool) (zi domain_id : Nat)
    (addr_zt : ZoneType) : ZoneType :=
  if all ∨ ¬ zbc_zone_inactive (getZone zdev zi) then
    (getDomain zdev domain_id).type
  else addr_zt

/-- Zone offset of the start zone inside its first realm (legacy mode
only; with the realms feature set the offset is always 0).  The uint64
subtraction wraps. -/
def zaOfs (zdev : ZDev) (start_realm zi : Nat) : Nat :=
  if ¬ zdev.realms_feat_set then
    (if zbc_realm_start (getRealm zdev start_realm) (getZone zdev zi).type ≤
        (getZone zdev zi).start then
      (getZone zdev zi).start -
        zbc_realm_start (getRealm zdev start_realm) (getZone zdev zi).type
    else
      (getZone zdev zi).start + U64 -
        zbc_realm_start (getRealm zdev start_realm) (getZone zdev zi).type) >>>
      zdev.zone_log2
  else 0

/-- Realm stride in zones for the domain of the addressed zone type. -/
def zaSz (zdev : ZDev) (addr_zt : ZoneType) : Nat :=
  match zbc_domain_id zdev addr_zt with
  | some k =>
    if (getDomain zdev k).smr then zdev.nr_smr_realm_zones
    else zdev.nr_cmr_realm_zones
  | none => zdev.nr_cmr_realm_zones

/-- Ending realm and zone remainder for the activation range. -/
def zaFE (zdev : ZDev) (start_realm nr_zones ofs sz : Nat) : Nat × Int :=
  if ofs ≠ 0 then
    zaFindEnd zdev.nr_realms sz (start_realm + 1)
      ((nr_zones : Int) - ((sz : Int) - (ofs : Int)))
  else zaFindEnd zdev.nr_realms sz start_realm (nr_zones : Int)

/-- NZP-validity part of the initial header status byte of
zbc_zone_activate (set when ALL is clear). -/
def zaStatus0 (all : Bool) : Nat :=
  if all then 0 else ZBC_ACTV_STAT_NZP_VALID

/-- The 32-bit NUMBER OF ZONES header field of zbc_zone_activate (filled
when ALL is clear). -/
def zaNzp (all : Bool) (nr_zones : Nat) : Option Nat :=
  if all then none else some (nr_zones % 2 ^ 32)

/-- Body of zbc_zone_activate after the ALL override of start_lba and
nr_zones.  CDB-level validation failures return an INVALID FIELD IN CDB
sense pair and produce no data; every later precondition failure
completes with OK status and reports the failure inside the returned
header. -/
def zbc_zone_activate_body (zdev : ZDev)
    (start_lba nr_zones domain_id alloc_len : Nat)
    (all nozsrc dry_run : Bool) (iov_len : Nat) :
    Status × ZDev × Option ZaOutput :=
  let d := getDomain zdev domain_id
  if nr_zones = 0 then
      (Status.sense SenseKey.illegalRequest Asc.invalidFieldInCdb, zdev, none)
    else if nr_zones > zdev.nr_zones then
      (Status.sense SenseKey.illegalRequest Asc.invalidFieldInCdb, zdev, none)
    else if alloc_len < ZBC_ACTV_RES_HEADER_SIZE then
      (Status.sense SenseKey.illegalRequest Asc.invalidFieldInCdb, zdev, none)
    else
      match zbc_get_zone zdev start_lba true with
      | none =>
        (Status.sense SenseKey.illegalRequest Asc.invalidFieldInCdb, zdev, none)
      | some zi =>
        if zi > zdev.nr_zones - nr_zones then
          (Status.sense SenseKey.illegalRequest Asc.invalidFieldInCdb, zdev,
            none)
        else
          match zbc_get_zone_domain zdev zi with
          | none =>
            (Status.sense SenseKey.illegalRequest Asc.invalidFieldInCdb, zdev,
              none)
          | some i0 =>
            let status0 := zaStatus0 all
            let nzp : Option Nat := zaNzp all nr_zones
            match zbc_get_zone_realm zdev start_lba
                (zdev.realms_feat_set && !all) with
            | none =>
              (Status.ok, zdev, some (zaOutput
                { zbc_init_actv_results with
                  error := ZBC_ACTV_ERR_REALM_ALIGN, ziwup := start_lba }
                false dry_run status0 nzp domain_id nozsrc all alloc_len
                iov_len))
            | some (start_realm, addr_zt) =>
              let new_type := zaNewType zdev all zi domain_id addr_zt
              let end_zone := zi + nr_zones - 1
              if zbc_get_zone_domain zdev end_zone ≠ some i0 then
                (Status.ok, zdev, some (zaOutput
                  { zbc_init_actv_results with
                    error := ZBC_ACTV_ERR_MULTI_DOMAINS, ziwup := start_lba }
                  false dry_run status0 nzp domain_id nozsrc all alloc_len
                  iov_len))
              else
                let ofs := zaOfs zdev start_realm zi
                let sz := zaSz zdev addr_zt
                let fe := zaFE zdev start_realm nr_zones ofs sz
                if zdev.realms_feat_set ∧ fe.2 ≠ 0 then
                  (Status.ok, zdev, some (zaOutput
                    { zbc_init_actv_results with
                      error := ZBC_ACTV_ERR_REALM_ALIGN, ziwup := start_lba }
                    false dry_run status0 nzp domain_id nozsrc all alloc_len
                    iov_len))
                else
                  let w := zaWalk zdev zbc_init_actv_results start_realm fe.1
                    (nr_zones : Int) ofs sz new_type dry_run all
                  (Status.ok, w.2.1, some (zaOutput w.2.2 w.1 dry_run status0
                    nzp domain_id nozsrc all alloc_len iov_len))

/-- zbc_zone_activate: the shared implementation of ZONE ACTIVATE(16/32)
and ZONE QUERY(16/32); dry_run selects QUERY.  When ALL is set, start_lba
and nr_zones are replaced by the whole extent of the target domain. -/
def zbc_zone_activate (zdev : ZDev)
    (start_lba nr_zones domain_id alloc_len : Nat)
    (all nozsrc dry_run : Bool) (iov_len : Nat) :
    Status × ZDev × Option ZaOutput :=
  if domain_id ≥ zdev.nr_domains then
    (Status.sense SenseKey.illegalRequest Asc.invalidFieldInCdb, zdev, none)
  else
    zbc_zone_activate_body zdev
      (if all then (getDomain zdev domain_id).start_lba else start_lba)
      (if all then (getDomain zdev domain_id).nr_zones else nr_zones)
      domain_id alloc_len all nozsrc dry_run iov_len

/-! ## C6: failure reporting of the activation engine -/

lemma zbc_chk_res_spec (zdev : ZDev) (r : ZoneRealm) (offset length : Nat)
    (new_type : ZoneType) (all : Bool) (res : ZaResults) :
    ((zbc_chk_can_actv_realm zdev r offset length new_type all res).1 = true →
      (zbc_chk_can_actv_realm zdev r offset length new_type all res).2 = res) ∧
    ((zbc_chk_can_actv_realm zdev r offset length new_type all res).1 = false →
      (zbc_chk_can_actv_realm zdev r offset length new_type all res).2.error =
          res.error ||| ZBC_ACTV_ERR_UNSUPP ∨
        (zbc_chk_can_actv_realm zdev r offset length new_type all res).2.error =
          res.error ||| ZBC_ACTV_ERR_NOT_EMPTY ∨
        (zbc_chk_can_actv_realm zdev r offset length new_type all res).2.error =
          res.error ||| ZBC_ACTV_ERR_NOT_INACTIVE) := by
  unfold zbc_chk_can_actv_realm
  dsimp only
  split
  · simp
  · split
    · simp
    · split
      · simp
      · split
        · simp
        · split
          · simp
          · split <;> simp

lemma zbc_activate_realm_res_spec (zdev : ZDev) (ri offset length : Nat)
    (nt : ZoneType) (dr all : Bool) (res : ZaResults) :
    ((zbc_activate_realm zdev ri offset length nt dr all res).1 = 1 →
      ((zbc_activate_realm zdev ri offset length nt dr all res).2.2.error =
          res.error ||| ZBC_ACTV_ERR_UNSUPP ∨
        (zbc_activate_realm zdev ri offset length nt dr all res).2.2.error =
          res.error ||| ZBC_ACTV_ERR_NOT_EMPTY ∨
        (zbc_activate_realm zdev ri offset length nt dr all res).2.2.error =
          res.error ||| ZBC_ACTV_ERR_NOT_INACTIVE)) ∧
    ((zbc_activate_realm zdev ri offset length nt dr all res).1 ≠ 1 →
      (zbc_activate_realm zdev ri offset length nt dr all res).2.2.error =
        res.error) := by
  have hchk := zbc_chk_res_spec zdev (getRealm zdev ri) offset length nt all res
  unfold zbc_activate_realm
  dsimp only
  split
  · rename_i h
    have hfalse : (zbc_chk_can_actv_realm zdev (getRealm zdev ri) offset length
        nt all res).1 = false := by
      revert h
      cases (zbc_chk_can_actv_realm zdev (getRealm zdev ri) offset length
        nt all res).1 <;> simp
    exact ⟨fun _ => hchk.2 hfalse, fun h1 => absurd rfl h1⟩
  · rename_i h
    have htrue : (zbc_chk_can_actv_realm zdev (getRealm zdev ri) offset length
        nt all res).1 = true := by
      revert h
      cases (zbc_chk_can_actv_realm zdev (getRealm zdev ri) offset length
        nt all res).1 <;> simp
    have hres := hchk.1 htrue
    split
    · exact ⟨fun h1 => absurd h1 (by simp), fun _ => by rw [hres]⟩
    · refine ⟨fun h1 => absurd h1 (by simp), fun _ => ?_⟩
      split <;> split <;> simp [hres]

lemma zaWalk_error_spec (endr : Nat) :
    ∀ (fuel : Nat) (zdev : ZDev) (res : ZaResults) (i : Nat) (nz : Int)
      (ofs sz : Nat) (nt : ZoneType) (dr all : Bool), endr - i ≤ fuel →
      res.error = 0 →
      (((zaWalk zdev res i endr nz ofs sz nt dr all).1 = true →
        (zaWalk zdev res i endr nz ofs sz nt dr all).2.2.error = 0) ∧
      ((zaWalk zdev res i endr nz ofs sz nt dr all).1 = false →
        ((zaWalk zdev res i endr nz ofs sz nt dr all).2.2.error =
            ZBC_ACTV_ERR_UNSUPP ∨
          (zaWalk zdev res i endr nz ofs sz nt dr all).2.2.error =
            ZBC_ACTV_ERR_NOT_EMPTY ∨
          (zaWalk zdev res i endr nz ofs sz nt dr all).2.2.error =
            ZBC_ACTV_ERR_NOT_INACTIVE))) := by
  intro fuel
  induction fuel with
  | zero =>
    intro zdev res i nz ofs sz nt dr all hf h0
    have hge : ¬ i < endr := by omega
    rw [zaWalk]
    simp only [dif_neg hge]
    exact ⟨fun _ => h0, fun h => by simp at h⟩
  | succ n IH =>
    intro zdev res i nz ofs sz nt dr all hf h0
    rw [zaWalk]
    by_cases hlt : i < endr
    · simp only [dif_pos hlt]
      have harm := zbc_activate_realm_res_spec zdev i ofs
        (min nz (sz : Int)).toNat nt dr all res
      split
      · rename_i h1
        refine ⟨fun h => by simp at h, fun _ => ?_⟩
        have := harm.1 h1
        simpa [h0] using this
      · rename_i h1
        have herr := harm.2 h1
        exact IH _ _ (i + 1) _ 0 sz nt dr all (by omega) (by rw [herr, h0])
    · simp only [dif_neg hlt]
      exact ⟨fun _ => h0, fun h => by simp at h⟩

lemma zaOutput_fail_spec (res : ZaResults) (dry_run : Bool) (status0 : Nat)
    (nzp : Option Nat) (domain_id : Nat) (nozsrc all : Bool)
    (alloc_len iov_len : Nat)
    (hs : status0 = 0 ∨ status0 = ZBC_ACTV_STAT_NZP_VALID) :
    (zaOutput res false dry_run status0 nzp domain_id nozsrc all alloc_len
        iov_len).descs = [] ∧
    (zaOutput res false dry_run status0 nzp domain_id nozsrc all alloc_len
        iov_len).err_bits = res.error % 2 ^ 8 ∧
    (zaOutput res false dry_run status0 nzp domain_id nozsrc all alloc_len
        iov_len).stat &&& ZBC_ACTV_STAT_ACTIVATED = 0 ∧
    ((zaOutput res false dry_run status0 nzp domain_id nozsrc all alloc_len
        iov_len).stat &&& ZBC_ACTV_STAT_ZIWUP_VALID =
          ZBC_ACTV_STAT_ZIWUP_VALID ↔
      (zaOutput res false dry_run status0 nzp domain_id nozsrc all alloc_len
        iov_len).ziwup.isSome) := by
  unfold zaOutput
  dsimp only
  refine ⟨by simp, rfl, ?_, ?_⟩
  · by_cases hz : res.ziwup ≠ ZBC_NO_WP <;>
      rcases hs with h | h <;>
        simp [hz, h, ZBC_ACTV_STAT_NZP_VALID, ZBC_ACTV_STAT_ACTIVATED,
          ZBC_ACTV_STAT_ZIWUP_VALID]
  · by_cases hz : res.ziwup ≠ ZBC_NO_WP <;>
      rcases hs with h | h <;>
        simp [hz, h, ZBC_ACTV_STAT_NZP_VALID, ZBC_ACTV_STAT_ZIWUP_VALID] <;>
          decide

lemma za_walk_output_spec (zdev : ZDev) (res0 : ZaResults) (sr endr : Nat)
    (nz : Int) (ofs sz : Nat) (nt : ZoneType) (dry_run all : Bool)
    (status0 : Nat) (nzp : Option Nat) (domain_id : Nat) (nozsrc : Bool)
    (alloc_len iov_len : Nat)
    (hres0 : res0.error = 0)
    (hs0 : status0 = 0 ∨ status0 = ZBC_ACTV_STAT_NZP_VALID) :
    ∀ o, o = zaOutput (zaWalk zdev res0 sr endr nz ofs sz nt dry_run all).2.2
        (zaWalk zdev res0 sr endr nz ofs sz nt dry_run all).1 dry_run status0
        nzp domain_id nozsrc all alloc_len iov_len →
      o.err_bits ≠ 0 →
      o.descs = [] ∧ o.stat &&& ZBC_ACTV_STAT_ACTIVATED = 0 ∧
      (o.stat &&& ZBC_ACTV_STAT_ZIWUP_VALID = ZBC_ACTV_STAT_ZIWUP_VALID ↔
        o.ziwup.isSome) ∧
      ((o.err_bits = ZBC_ACTV_ERR_REALM_ALIGN ∨
        o.err_bits = ZBC_ACTV_ERR_MULTI_DOMAINS) → False) := by
  intro o ho herr
  by_cases hw : (zaWalk zdev res0 sr endr nz ofs sz nt dry_run all).1 = true
  · exfalso
    have h0 := (zaWalk_error_spec endr (endr - sr) zdev res0 sr nz ofs sz nt
      dry_run all (le_refl _) hres0).1 hw
    apply herr
    rw [ho, hw]
    simp [zaOutput, h0]
  · have hwf : (zaWalk zdev res0 sr endr nz ofs sz nt dry_run all).1 =
        false := by
      revert hw
      cases (zaWalk zdev res0 sr endr nz ofs sz nt dry_run all).1 <;> simp
    have herrv := (zaWalk_error_spec endr (endr - sr) zdev res0 sr nz ofs sz
      nt dry_run all (le_refl _) hres0).2 hwf
    obtain ⟨F1, F2, F3, F4⟩ := zaOutput_fail_spec
      (zaWalk zdev res0 sr endr nz ofs sz nt dry_run all).2.2 dry_run status0
      nzp domain_id nozsrc all alloc_len iov_len hs0
    rw [hwf] at ho
    subst ho
    refine ⟨F1, F3, F4, fun hcase => ?_⟩
    rcases herrv with h | h | h <;> rw [F2, h] at hcase <;>
      rcases hcase with hc | hc <;>
        simp [ZBC_ACTV_ERR_UNSUPP, ZBC_ACTV_ERR_NOT_EMPTY,
          ZBC_ACTV_ERR_NOT_INACTIVE, ZBC_ACTV_ERR_REALM_ALIGN,
          ZBC_ACTV_ERR_MULTI_DOMAINS] at hc

/-- C6 (amended): whenever ZONE ACTIVATE / ZONE QUERY fails an activation
precondition (nonzero error bits in the returned activation-results
header), the command still completes with OK status and no sense pair, no
descriptors are emitted, the ACTIVATED status bit stays clear, and the
ZIWUP-valid status bit is set exactly when the ZIWUP field carries a zone;
failures detected before the realm walk (realm-alignment violations and
ranges crossing a domain boundary) leave the device state unchanged.  The
original claim that NO state is mutated on such failures is refuted by
the counterexample theorem: the realm walk commits realms one by one, so
realms before the failing one stay activated. -/
lemma za_body_failure_reporting (zdev : ZDev)
    (start_lba nr_zones domain_id alloc_len : Nat) (all nozsrc dry_run : Bool)
    (iov_len : Nat) :
    ∀ o, (zbc_zone_activate_body zdev start_lba nr_zones domain_id alloc_len
        all nozsrc dry_run iov_len).2.2 = some o →
      o.err_bits ≠ 0 →
      (zbc_zone_activate_body zdev start_lba nr_zones domain_id alloc_len all
        nozsrc dry_run iov_len).1 = Status.ok ∧
      o.descs = [] ∧
      o.stat &&& ZBC_ACTV_STAT_ACTIVATED = 0 ∧
      (o.stat &&& ZBC_ACTV_STAT_ZIWUP_VALID = ZBC_ACTV_STAT_ZIWUP_VALID ↔
        o.ziwup.isSome) ∧
      ((o.err_bits = ZBC_ACTV_ERR_REALM_ALIGN ∨
          o.err_bits = ZBC_ACTV_ERR_MULTI_DOMAINS) →
        (zbc_zone_activate_body zdev start_lba nr_zones domain_id alloc_len
          all nozsrc dry_run iov_len).2.1 = zdev) := by
  have hs0 : zaStatus0 all = 0 ∨ zaStatus0 all = ZBC_ACTV_STAT_NZP_VALID := by
    unfold zaStatus0
    by_cases h : all = true <;> simp [h]
  unfold zbc_zone_activate_body
  dsimp only
  split
  · intro o ho herr; exact absurd ho (by simp)
  · split
    · intro o ho herr; exact absurd ho (by simp)
    · split
      · intro o ho herr; exact absurd ho (by simp)
      · split
        · intro o ho herr; exact absurd ho (by simp)
        · split
          · intro o ho herr; exact absurd ho (by simp)
          · split
            · intro o ho herr; exact absurd ho (by simp)
            · split
              · intro o ho herr
                have ho2 := Option.some.inj ho
                subst ho2
                obtain ⟨F1, F2, F3, F4⟩ := zaOutput_fail_spec _ dry_run _ _
                  domain_id nozsrc all alloc_len iov_len hs0
                exact ⟨rfl, F1, F3, F4, fun _ => rfl⟩
              · split
                · intro o ho herr
                  have ho2 := Option.some.inj ho
                  subst ho2
                  obtain ⟨F1, F2, F3, F4⟩ := zaOutput_fail_spec _ dry_run _
                    _ domain_id nozsrc all alloc_len iov_len hs0
                  exact ⟨rfl, F1, F3, F4, fun _ => rfl⟩
                · split
                  · intro o ho herr
                    have ho2 := Option.some.inj ho
                    subst ho2
                    obtain ⟨F1, F2, F3, F4⟩ := zaOutput_fail_spec _ dry_run
                      _ _ domain_id nozsrc all alloc_len iov_len hs0
                    exact ⟨rfl, F1, F3, F4, fun _ => rfl⟩
                  · intro o ho herr
                    have ho2 := (Option.some.inj ho).symm
                    obtain ⟨G1, G2, G3, G4⟩ := za_walk_output_spec _ _ _ _
                      _ _ _ _ dry_run all _ _ domain_id nozsrc alloc_len
                      iov_len rfl hs0 o ho2 herr
                    exact ⟨rfl, G1, G2, G3, fun hc => (G4 hc).elim⟩

/-- C6 (amended): whenever ZONE ACTIVATE / ZONE QUERY fails an activation
precondition (nonzero error bits in the returned activation-results
header), the command still completes with OK status and no sense pair, no
descriptors are emitted, the ACTIVATED status bit stays clear, and the
ZIWUP-valid status bit is set exactly when the ZIWUP field carries a zone;
failures detected before the realm walk (realm-alignment violations and
ranges crossing a domain boundary) leave the device state unchanged.  The
original claim that NO state is mutated on such failures is refuted by
the counterexample theorem: the realm walk commits realms one by one, so
realms before the failing one stay activated. -/
theorem activation_failure_reporting (zdev : ZDev)
    (start_lba nr_zones domain_id alloc_len : Nat) (all nozsrc dry_run : Bool)
    (iov_len : Nat) :
    ∀ o, (zbc_zone_activate zdev start_lba nr_zones domain_id alloc_len all
        nozsrc dry_run iov_len).2.2 = some o →
      o.err_bits ≠ 0 →
      (zbc_zone_activate zdev start_lba nr_zones domain_id alloc_len all
        nozsrc dry_run iov_len).1 = Status.ok ∧
      o.descs = [] ∧
      o.stat &&& ZBC_ACTV_STAT_ACTIVATED = 0 ∧
      (o.stat &&& ZBC_ACTV_STAT_ZIWUP_VALID = ZBC_ACTV_STAT_ZIWUP_VALID ↔
        o.ziwup.isSome) ∧
      ((o.err_bits = ZBC_ACTV_ERR_REALM_ALIGN ∨
          o.err_bits = ZBC_ACTV_ERR_MULTI_DOMAINS) →
        (zbc_zone_activate zdev start_lba nr_zones domain_id alloc_len all
          nozsrc dry_run iov_len).2.1 = zdev) := by
  unfold zbc_zone_activate
  split
  · intro o ho herr; exact absurd ho (by simp)
  · exact za_body_failure_reporting zdev _ _ domain_id alloc_len all nozsrc
      dry_run iov_len

/-- Eight-zone, two-domain, two-realm ZD device: a CMR (conventional)
domain over zones 0-3 and an SMR (SWR) domain over zones 4-7; realm 0 may
be activated to SWR, realm 1 may not (flags 0). -/
def actC6dev : ZDev :=
  { zones := [wZone 0 ZoneType.conventional ZoneCond.notWp ZBC_NO_WP,
      wZone 1 ZoneType.conventional ZoneCond.notWp ZBC_NO_WP,
      wZone 2 ZoneType.conventional ZoneCond.notWp ZBC_NO_WP,
      wZone 3 ZoneType.conventional ZoneCond.notWp ZBC_NO_WP,
      wZone 4 ZoneType.seqWriteReq ZoneCond.inactive ZBC_NO_WP,
      wZone 5 ZoneType.seqWriteReq ZoneCond.inactive ZBC_NO_WP,
      wZone 6 ZoneType.seqWriteReq ZoneCond.inactive ZBC_NO_WP,
      wZone 7 ZoneType.seqWriteReq ZoneCond.inactive ZBC_NO_WP]
    imp_open_zones := []
    exp_open_zones := []
    closed_zones := []
    seq_active_zones := []
    nr_imp_open := 0
    nr_exp_open := 0
    nr_open_zones := 2
    nr_empty_zones := 0
    min_empty_zones := 0
    max_imp_open_seq_zones := 0
    max_exp_open_seq_zones := 0
    max_open_zones := 0
    failed_exp_opens := 0
    read_rule_fails := 0
    write_rule_fails := 0
    logical_capacity := 64
    zone_log2 := 3
    lba_log2 := 9
    zone_size := 8
    domains := [⟨0, 31, 4, ZoneType.conventional, false⟩,
      ⟨32, 63, 4, ZoneType.seqWriteReq, true⟩]
    realms := [⟨0, ZoneType.conventional, 2, 0, ⟨0, 2, 0⟩, ⟨32, 2, 4⟩,
        ⟨0, 0, 0⟩, ⟨0, 0, 0⟩⟩,
      ⟨1, ZoneType.conventional, 0, 0, ⟨16, 2, 2⟩, ⟨48, 2, 6⟩,
        ⟨0, 0, 0⟩, ⟨0, 0, 0⟩⟩]
    realms_feat_set := false
    nr_actv_zones := 2
    nr_cmr_realm_zones := 2
    nr_smr_realm_zones := 2
    cmr_nr_zones_to_smr := [1, 2]
    smr_nr_zones_to_cmr := [1, 2]
    zone_type_to_dom := [some 0, some 1, none, none]
    wp_check := true }

set_option maxHeartbeats 4000000

/-- actC6dev after realm 0 has been activated to SWR. -/
def actC6dev1 : ZDev :=
  { actC6dev with
    zones := [⟨0, 8, ZBC_NO_WP, ZoneType.conventional,
        ZoneCond.inactive, false, false⟩,
      ⟨8, 8, ZBC_NO_WP, ZoneType.conventional,
        ZoneCond.inactive, false, false⟩,
      ⟨16, 8, ZBC_NO_WP, ZoneType.conventional,
        ZoneCond.notWp, false, false⟩,
      ⟨24, 8, ZBC_NO_WP, ZoneType.conventional,
        ZoneCond.notWp, false, false⟩,
      ⟨32, 8, 32, ZoneType.seqWriteReq, ZoneCond.empty, false, false⟩,
      ⟨40, 8, 40, ZoneType.seqWriteReq, ZoneCond.empty, false, false⟩,
      ⟨48, 8, ZBC_NO_WP, ZoneType.seqWriteReq,
        ZoneCond.inactive, false, false⟩,
      ⟨56, 8, ZBC_NO_WP, ZoneType.seqWriteReq,
        ZoneCond.inactive, false, false⟩]
    seq_active_zones := [4, 5]
    nr_empty_zones := 2
    realms := [⟨0, ZoneType.seqWriteReq, 2, 0, ⟨0, 2, 0⟩, ⟨32, 2, 4⟩,
        ⟨0, 0, 0⟩, ⟨0, 0, 0⟩⟩,
      ⟨1, ZoneType.conventional, 0, 0, ⟨16, 2, 2⟩, ⟨48, 2, 6⟩,
        ⟨0, 0, 0⟩, ⟨0, 0, 0⟩⟩] }

/-- The descriptor pair produced by activating realm 0 of actC6dev. -/
def actC6pair : ActvDescPair :=
  ⟨⟨ZoneType.conventional, ZoneCond.inactive, some 0, 2, 0⟩,
   ⟨ZoneType.seqWriteReq, ZoneCond.empty, some 1, 2, 32⟩⟩

/-- Realm 0 of actC6dev passes the activation checks. -/
lemma actC6_chk0 (res : ZaResults) :
    zbc_chk_can_actv_realm actC6dev
      ⟨0, ZoneType.conventional, 2, 0, ⟨0, 2, 0⟩, ⟨32, 2, 4⟩,
        ⟨0, 0, 0⟩, ⟨0, 0, 0⟩⟩ 0 2 ZoneType.seqWriteReq false res =
    (true, res) := by
  simp [zbc_chk_can_actv_realm, actC6dev, zbc_get_deactv_realm_zones,
    zbc_domain_id, zbc_smr_to_cmr_zones, zbc_cmr_to_smr_zones, u32OfInt,
    getDomain, getZone, zbc_realm_length, zbc_get_realm_item, wZone,
    zaDeacBad, zaDeacZT, zaActvBad, zaActvZT,
    List.range_succ, ZoneType.code]
  decide

/-- A realm with activation flags 0 is refused with the UNSUPP bit. -/
lemma actC6_chk1 (zdev : ZDev) (res : ZaResults) :
    zbc_chk_can_actv_realm zdev
      ⟨1, ZoneType.conventional, 0, 0, ⟨16, 2, 2⟩, ⟨48, 2, 6⟩,
        ⟨0, 0, 0⟩, ⟨0, 0, 0⟩⟩ 0 2 ZoneType.seqWriteReq false res =
    (false, ⟨res.recs, 16, res.nr_desc,
      res.error ||| ZBC_ACTV_ERR_UNSUPP⟩) := by
  simp [zbc_chk_can_actv_realm, zbc_can_actv_realm_as, zbc_realm_start,
    zbc_get_realm_item, ZoneType.code]

lemma actC6_realm0 : getRealm actC6dev 0 =
    ⟨0, ZoneType.conventional, 2, 0, ⟨0, 2, 0⟩, ⟨32, 2, 4⟩,
      ⟨0, 0, 0⟩, ⟨0, 0, 0⟩⟩ := by
  simp [getRealm, actC6dev]

lemma actC6_realm1 : getRealm actC6dev1 1 =
    ⟨1, ZoneType.conventional, 0, 0, ⟨16, 2, 2⟩, ⟨48, 2, 6⟩,
      ⟨0, 0, 0⟩, ⟨0, 0, 0⟩⟩ := by
  simp [getRealm, actC6dev1]

/-- Activating realm 0 of actC6dev commits actC6dev1. -/
lemma actC6_arm0 : zbc_activate_realm actC6dev 0 0 2 ZoneType.seqWriteReq
    false false zbc_init_actv_results =
    (0, actC6dev1, ⟨[actC6pair], ZBC_NO_WP, 2, 0⟩) := by
  unfold zbc_activate_realm
  rw [actC6_realm0]
  simp only [actC6_chk0]
  have ht : Nat.testBit 2 1 = true := by decide
  simp [ht, zbc_act_type_nowp, zbc_can_actv_realm_as, ZoneType.code,
    zbc_zone_rdonly, zbc_zone_offline, zbc_zone_empty, zbc_zone_full,
    zbc_zone_closed, zbc_zone_imp_open, zbc_zone_exp_open,
    zbc_zone_inactive, zbc_zone_not_wp, zbc_zone_conv, zbc_zone_sobr,
    zbc_zone_seq, zbc_zone_nseq, zbc_zone_seq_req, zbc_zone_seq_pref,
    zbc_zone_gap, zbc_zone_not_in_list,
    zbc_realm_start,
    zbc_realm_length, zbc_get_realm_item, zbc_init_actv_results,
    zbc_deactivate_realm_zones, zbc_activate_realm_zones,
    zbc_deac_zone_step, zbc_actv_zone_step, zbc_fill_actv_record,
    zbc_get_zone_domain, zbc_unlink_zone, zbc_remove_zone,
    zbc_on_cond_change, zbc_set_initial_wp, zbc_add_zone_tail,
    zbc_add_zone_head, getList, setList, getZone, setZone, setRealm,
    getDomain, ZDev.nr_domains, actC6dev, actC6dev1, actC6pair, wZone,
    List.range_succ, zbc_zone_gap]

/-- Activating realm 1 of actC6dev1 is refused with the UNSUPP bit. -/
lemma actC6_arm1 : zbc_activate_realm actC6dev1 1 0 2 ZoneType.seqWriteReq
    false false ⟨[actC6pair], ZBC_NO_WP, 2, 0⟩ =
    (1, actC6dev1, ⟨[actC6pair], 16, 2, 16⟩) := by
  unfold zbc_activate_realm
  rw [actC6_realm1]
  simp only [actC6_chk1]
  norm_num [ZBC_ACTV_ERR_UNSUPP]

/-- The realm walk over actC6dev commits realm 0 and stops at realm 1. -/
lemma actC6_walk : zaWalk actC6dev zbc_init_actv_results 0 2 4 0 2
    ZoneType.seqWriteReq false false =
    (false, actC6dev1, ⟨[actC6pair], 16, 2, 16⟩) := by
  rw [zaWalk]
  simp only [dif_pos (by norm_num : (0 : Nat) < 2)]
  rw [show (min (4 : Int) ((2 : Nat) : Int)).toNat = 2 by decide]
  simp only [actC6_arm0]
  norm_num
  rw [zaWalk]
  simp only [dif_pos (by norm_num : (1 : Nat) < 2)]
  rw [show (min (2 : Int) ((2 : Nat) : Int)).toNat = 2 by decide]
  simp [actC6_arm1]


lemma actC6_realm_lkp : zbc_get_zone_realm actC6dev 0 false =
    some (0, ZoneType.conventional) := by
  simp [zbc_get_zone_realm, actC6dev, ZDev.nr_domains, ZDev.nr_realms,
    getDomain, getRealm, zbc_realm_bsearch, zbc_realm_start,
    zbc_realm_length, zbc_get_realm_item, List.range_succ]

/-- The full ZONE ACTIVATE run on actC6dev: OK status, UNSUPP error bits,
ZIWUP 16, no descriptors emitted, realm 0 committed. -/
lemma actC6_run : zbc_zone_activate actC6dev 0 4 1 128 false false false
    128 = (Status.ok, actC6dev1,
      some ⟨48, 48, 192, 16, 1, some 4, some 16, false, false, []⟩) := by
  have hnrd : ZDev.nr_domains actC6dev = 2 := by
    simp [ZDev.nr_domains, actC6dev]
  have hnrz : ZDev.nr_zones actC6dev = 8 := by simp [ZDev.nr_zones, actC6dev]
  have hdom1 : getDomain actC6dev 1 =
      ⟨32, 63, 4, ZoneType.seqWriteReq, true⟩ := by simp [getDomain, actC6dev]
  have hfeat : actC6dev.realms_feat_set = false := rfl
  have hgz : zbc_get_zone actC6dev 0 true = some 0 := by
    simp [zbc_get_zone, ZDev.nr_zones, actC6dev, getZone, wZone]
  have hgd0 : zbc_get_zone_domain actC6dev 0 = some 0 := by
    simp [zbc_get_zone_domain, actC6dev, getZone, getDomain, wZone,
      zbc_zone_gap, ZDev.nr_domains, List.range_succ]
  have hgd3 : zbc_get_zone_domain actC6dev 3 = some 0 := by
    simp [zbc_get_zone_domain, actC6dev, getZone, getDomain, wZone,
      zbc_zone_gap, ZDev.nr_domains, List.range_succ]
  have hz0 : getZone actC6dev 0 =
      wZone 0 ZoneType.conventional ZoneCond.notWp ZBC_NO_WP := by
    simp [getZone, actC6dev]
  have hnt : zaNewType actC6dev false 0 1 ZoneType.conventional =
      ZoneType.seqWriteReq := by
    simp [zaNewType, hz0, wZone, zbc_zone_inactive, hdom1]
  have hofs : zaOfs actC6dev 0 0 = 0 := by
    simp [zaOfs, hfeat, actC6dev, getRealm, getZone, zbc_realm_start,
      zbc_get_realm_item, wZone]
  have hsz : zaSz actC6dev ZoneType.conventional = 2 := by
    simp [zaSz, zbc_domain_id, actC6dev, getDomain, ZoneType.code]
  have hfe : zaFE actC6dev 0 4 0 2 = (2, 0) := by
    simp [zaFE, zaFindEnd, ZDev.nr_realms, actC6dev]
  simp only [zbc_zone_activate, zbc_zone_activate_body, hnrd, hnrz, hdom1,
    hfeat, hgz, hgd0, hgd3, actC6_realm_lkp, hnt, hofs, hsz, hfe, actC6_walk]
  norm_num
  simp [hgz, hgd0, hgd3, actC6_realm_lkp, hnt, hofs, hsz, hfe, actC6_walk,
    zaOutput, zaStatus0, zaNzp, ZBC_ACTV_RES_HEADER_SIZE,
    ZBC_ACTV_RES_DESCRIPTOR_SIZE, ZBC_ACTV_STAT_NZP_VALID,
    ZBC_ACTV_STAT_ZIWUP_VALID, ZBC_ACTV_STAT_ACTIVATED, ZBC_NO_WP, U64]

/-- The activation-results output of the failing ZONE ACTIVATE on
actC6dev: 2 descriptors counted (48 bytes), status 0xC0 (NZP and ZIWUP
valid), error bits 0x10 (UNSUPP), ZIWUP 16, nothing emitted. -/
def actC6out : ZaOutput :=
  ⟨48, 48, 192, 16, 1, some 4, some 16, false, false, []⟩

/-- Counterexample to the claim that a ZONE ACTIVATE precondition failure
never mutates state: on actC6dev, activating 4 zones over realms 0 and 1
commits realm 0, then fails realm 1 with the UNSUPP error bit, completes
with OK status and emits no descriptors - yet the device state differs
from the initial one (realm 0 is now SWR with its CMR zones INACTIVE). -/
theorem activation_partial_commit_cex :
    (zbc_zone_activate actC6dev 0 4 1 128 false false false 128).1 =
      Status.ok ∧
    (∃ o, (zbc_zone_activate actC6dev 0 4 1 128 false false false
        128).2.2 = some o ∧
      o.err_bits = ZBC_ACTV_ERR_UNSUPP ∧ o.descs = []) ∧
    (zbc_zone_activate actC6dev 0 4 1 128 false false false 128).2.1 ≠
      actC6dev := by
  rw [actC6_run]
  refine ⟨rfl, ⟨actC6out, rfl, rfl, rfl⟩, fun h => ?_⟩
  exact absurd (congrArg ZDev.nr_empty_zones h) (by decide)

/-- Witness: the C6 theorem applied to the failing run on actC6dev. -/
theorem activation_failure_reporting_witness :
    (zbc_zone_activate actC6dev 0 4 1 128 false false false 128).1 =
      Status.ok ∧
    actC6out.descs = [] ∧
    actC6out.stat &&& ZBC_ACTV_STAT_ACTIVATED = 0 ∧
    (actC6out.stat &&& ZBC_ACTV_STAT_ZIWUP_VALID =
        ZBC_ACTV_STAT_ZIWUP_VALID ↔ actC6out.ziwup.isSome) ∧
    ((actC6out.err_bits = ZBC_ACTV_ERR_REALM_ALIGN ∨
        actC6out.err_bits = ZBC_ACTV_ERR_MULTI_DOMAINS) →
      (zbc_zone_activate actC6dev 0 4 1 128 false false false 128).2.1 =
        actC6dev) :=
  activation_failure_reporting actC6dev 0 4 1 128 false false false 128
    actC6out (by rw [actC6_run]; rfl) (by decide)

/-! ## C1: ZONE QUERY is a dry run of ZONE ACTIVATE -/

/-- The immutable part of a zone descriptor: activation never changes a
zone's type, start LBA or length. -/
def zoneTSL (z : Zone) : ZoneType × Nat × Nat := (z.type, z.start, z.len)

lemma getZone_setZone_ne (s : ZDev) (i x : Nat) (z : Zone) (h : i ≠ x) :
    getZone (setZone s i z) x = getZone s x := by
  simp [getZone, setZone, List.getD_eq_getElem?_getD,
    List.getElem?_set_ne h]

lemma getZone_setList (s : ZDev) (w : WhichList) (l : List Nat) (x : Nat) :
    getZone (setList s w l) x = getZone s x := by
  cases w <;> simp [getZone, setList]

lemma getZone_unlink (s : ZDev) (i x : Nat) :
    getZone (zbc_unlink_zone s i) x = getZone s x := by
  unfold zbc_unlink_zone zbc_remove_zone
  split
  · rfl
  · split <;> first | rfl | apply getZone_setList

lemma getZone_on_cond_change (s : ZDev) (i : Nat) (c : ZoneCond) (x : Nat) :
    getZone (zbc_on_cond_change s i c) x = getZone s x := by
  unfold zbc_on_cond_change
  dsimp only
  split
  · split <;> rfl
  · rfl

lemma getZone_set_initial_wp_ne (s : ZDev) (i x : Nat) (h : i ≠ x) :
    getZone (zbc_set_initial_wp s i) x = getZone s x := by
  unfold zbc_set_initial_wp zbc_add_zone_tail
  dsimp only
  split <;>
    first
      | rfl
      | rw [getZone_setList, getZone_setZone_ne _ _ _ _ h]
      | rw [getZone_setZone_ne _ _ _ _ h]

lemma getZone_deac_step_ne (s : ZDev) (c : ZoneCond) (j x : Nat)
    (h : j ≠ x) : getZone (zbc_deac_zone_step s c j) x = getZone s x := by
  unfold zbc_deac_zone_step
  dsimp only
  split
  · rfl
  · rw [getZone_set_initial_wp_ne _ _ _ h, getZone_setZone_ne _ _ _ _ h,
      getZone_on_cond_change, getZone_unlink]

lemma getZone_congr_zones (A B : ZDev) (x : Nat) (h : A.zones = B.zones) :
    getZone A x = getZone B x := by simp [getZone, h]

lemma zones_unlink (s : ZDev) (i : Nat) :
    (zbc_unlink_zone s i).zones = s.zones := by
  unfold zbc_unlink_zone zbc_remove_zone
  split
  · rfl
  · split <;> first | rfl | (cases i <;> rfl) | skip
    all_goals (rename_i w; cases w) <;> rfl

lemma getZone_actv_step_ne (s : ZDev) (c : ZoneCond) (j x : Nat)
    (h : j ≠ x) : getZone (zbc_actv_zone_step s c j) x = getZone s x := by
  unfold zbc_actv_zone_step
  dsimp only
  split
  · rfl
  · split <;>
      rw [getZone_set_initial_wp_ne _ _ _ h, getZone_setZone_ne _ _ _ _ h] <;>
      exact getZone_congr_zones _ _ _ (zones_unlink s j)

lemma getZone_setZone_TSL (s : ZDev) (i x : Nat) (z : Zone)
    (hz : zoneTSL z = zoneTSL (getZone s i)) :
    zoneTSL (getZone (setZone s i z) x) = zoneTSL (getZone s x) := by
  by_cases h : i = x
  · subst h
    by_cases hlt : i < s.zones.length
    · simp [getZone, setZone, List.getD_eq_getElem?_getD,
        List.getElem?_set_self hlt]
      rw [hz]
      simp [getZone, List.getD_eq_getElem?_getD]
    · have : s.zones.set i z = s.zones := List.set_eq_of_length_le (by omega)
      simp [setZone, this]
  · rw [getZone_setZone_ne _ _ _ _ h]

lemma getZone_set_initial_wp_TSL (s : ZDev) (i x : Nat) :
    zoneTSL (getZone (zbc_set_initial_wp s i) x) =
      zoneTSL (getZone s x) := by
  unfold zbc_set_initial_wp zbc_add_zone_tail
  dsimp only
  split <;>
    first
      | rfl
      | (rw [getZone_setList]
         exact getZone_setZone_TSL _ _ _ _ (by simp [zoneTSL]))
      | exact getZone_setZone_TSL _ _ _ _ (by simp [zoneTSL])

lemma getZone_deac_step_TSL (s : ZDev) (c : ZoneCond) (j x : Nat) :
    zoneTSL (getZone (zbc_deac_zone_step s c j) x) =
      zoneTSL (getZone s x) := by
  unfold zbc_deac_zone_step
  dsimp only
  split
  · rfl
  · rw [getZone_set_initial_wp_TSL]
    rw [getZone_setZone_TSL _ _ _ _ (by simp [zoneTSL])]
    rw [getZone_on_cond_change, getZone_unlink]

lemma getZone_actv_step_TSL (s : ZDev) (c : ZoneCond) (j x : Nat) :
    zoneTSL (getZone (zbc_actv_zone_step s c j) x) =
      zoneTSL (getZone s x) := by
  unfold zbc_actv_zone_step
  dsimp only
  split
  · rfl
  · split <;>
      (rw [getZone_set_initial_wp_TSL]
       rw [getZone_setZone_TSL _ _ _ _ (by simp [zoneTSL])]) <;>
      exact congrArg zoneTSL (getZone_congr_zones _ _ _ (zones_unlink s j))

lemma getZone_deac_fold_ne (c : ZoneCond) (x : Nat) :
    ∀ (l : List Nat) (s : ZDev), (∀ j ∈ l, j ≠ x) →
      getZone (l.foldl (fun s j => zbc_deac_zone_step s c j) s) x =
        getZone s x := by
  intro l
  induction l with
  | nil => intro s _; rfl
  | cons a t IH =>
    intro s hl
    simp only [List.foldl_cons]
    rw [IH _ (fun j hj => hl j (List.mem_cons_of_mem a hj)),
      getZone_deac_step_ne _ _ _ _ (hl a (List.mem_cons_self a t))]

lemma getZone_actv_fold_ne (c : ZoneCond) (x : Nat) :
    ∀ (l : List Nat) (s : ZDev), (∀ j ∈ l, j ≠ x) →
      getZone (l.foldl (fun s j => zbc_actv_zone_step s c j) s) x =
        getZone s x := by
  intro l
  induction l with
  | nil => intro s _; rfl
  | cons a t IH =>
    intro s hl
    simp only [List.foldl_cons]
    rw [IH _ (fun j hj => hl j (List.mem_cons_of_mem a hj)),
      getZone_actv_step_ne _ _ _ _ (hl a (List.mem_cons_self a t))]

lemma getZone_deac_fold_TSL (c : ZoneCond) (x : Nat) :
    ∀ (l : List Nat) (s : ZDev),
      zoneTSL (getZone (l.foldl (fun s j => zbc_deac_zone_step s c j) s) x) =
        zoneTSL (getZone s x) := by
  intro l
  induction l with
  | nil => intro s; rfl
  | cons a t IH =>
    intro s
    simp only [List.foldl_cons]
    rw [IH, getZone_deac_step_TSL]

lemma getZone_actv_fold_TSL (c : ZoneCond) (x : Nat) :
    ∀ (l : List Nat) (s : ZDev),
      zoneTSL (getZone (l.foldl (fun s j => zbc_actv_zone_step s c j) s) x) =
        zoneTSL (getZone s x) := by
  intro l
  induction l with
  | nil => intro s; rfl
  | cons a t IH =>
    intro s
    simp only [List.foldl_cons]
    rw [IH, getZone_actv_step_TSL]

/-- The device tables the activation checks read besides the zones and
the realm record under examination: domain table, type-to-domain map and
the two resize maps. -/
def zaFrame (s : ZDev) :
    List ZoneDomain × List (Option Nat) × List Nat × List Nat :=
  (s.domains, s.zone_type_to_dom, s.cmr_nr_zones_to_smr,
    s.smr_nr_zones_to_cmr)

lemma zaFrame_setList (s : ZDev) (w : WhichList) (l : List Nat) :
    zaFrame (setList s w l) = zaFrame s := by cases w <;> rfl

lemma zaFrame_unlink (s : ZDev) (i : Nat) :
    zaFrame (zbc_unlink_zone s i) = zaFrame s := by
  unfold zbc_unlink_zone zbc_remove_zone
  split
  · rfl
  · split <;> first | rfl | apply zaFrame_setList

lemma zaFrame_on_cond_change (s : ZDev) (i : Nat) (c : ZoneCond) :
    zaFrame (zbc_on_cond_change s i c) = zaFrame s := by
  unfold zbc_on_cond_change
  dsimp only
  split
  · split <;> rfl
  · rfl

lemma zaFrame_set_initial_wp (s : ZDev) (i : Nat) :
    zaFrame (zbc_set_initial_wp s i) = zaFrame s := by
  unfold zbc_set_initial_wp zbc_add_zone_tail
  dsimp only
  split <;> first | rfl | apply zaFrame_setList

lemma zaFrame_deac_step (s : ZDev) (c : ZoneCond) (j : Nat) :
    zaFrame (zbc_deac_zone_step s c j) = zaFrame s := by
  unfold zbc_deac_zone_step
  dsimp only
  split
  · rfl
  · rw [zaFrame_set_initial_wp]
    show zaFrame (zbc_on_cond_change (zbc_unlink_zone s j) j c) = zaFrame s
    rw [zaFrame_on_cond_change, zaFrame_unlink]

lemma zaFrame_actv_step (s : ZDev) (c : ZoneCond) (j : Nat) :
    zaFrame (zbc_actv_zone_step s c j) = zaFrame s := by
  unfold zbc_actv_zone_step
  dsimp only
  split
  · rfl
  · rw [zaFrame_set_initial_wp]
    split <;>
      first
        | (show zaFrame (zbc_unlink_zone s j) = zaFrame s
           exact zaFrame_unlink s j)
        | (rw [show ∀ A : ZDev, zaFrame (setZone A j
            { getZone A j with cond := c }) = zaFrame A from fun A => rfl]
           exact zaFrame_unlink s j)

lemma zaFrame_deac_fold (c : ZoneCond) :
    ∀ (l : List Nat) (s : ZDev),
      zaFrame (l.foldl (fun s j => zbc_deac_zone_step s c j) s) =
        zaFrame s := by
  intro l
  induction l with
  | nil => intro s; rfl
  | cons a t IH =>
    intro s
    simp only [List.foldl_cons]
    rw [IH, zaFrame_deac_step]

lemma zaFrame_actv_fold (c : ZoneCond) :
    ∀ (l : List Nat) (s : ZDev),
      zaFrame (l.foldl (fun s j => zbc_actv_zone_step s c j) s) =
        zaFrame s := by
  intro l
  induction l with
  | nil => intro s; rfl
  | cons a t IH =>
    intro s
    simp only [List.foldl_cons]
    rw [IH, zaFrame_actv_step]

/-- Zone indices covered by one type slot of a realm. -/
def inSlotRange (r : ZoneRealm) (t : ZoneType) (x : Nat) : Prop :=
  (zbc_get_realm_item r t).start_zone ≤ x ∧
    x < (zbc_get_realm_item r t).start_zone + zbc_realm_length r t

instance (r : ZoneRealm) (t : ZoneType) (x : Nat) :
    Decidable (inSlotRange r t x) := by unfold inSlotRange; infer_instance

lemma za_find_congr {α : Type} (p q : α → Bool) :
    ∀ (l : List α), (∀ x ∈ l, p x = q x) → l.find? p = l.find? q := by
  intro l
  induction l with
  | nil => intro _; rfl
  | cons a t IH =>
    intro hl
    rw [List.find?_cons, List.find?_cons,
      hl a (List.mem_cons_self a t), IH (fun x hx => hl x
        (List.mem_cons_of_mem a hx))]

lemma za_any_congr {α : Type} (p q : α → Bool) :
    ∀ (l : List α), (∀ x ∈ l, p x = q x) → l.any p = l.any q := by
  intro l
  induction l with
  | nil => intro _; rfl
  | cons a t IH =>
    intro hl
    rw [List.any_cons, List.any_cons, hl a (List.mem_cons_self a t),
      IH (fun x hx => hl x (List.mem_cons_of_mem a hx))]

lemma zbc_get_deactv_congr (A B : ZDev) (r : ZoneRealm) (o l : Nat)
    (nt : ZoneType) (h : zaFrame A = zaFrame B) :
    zbc_get_deactv_realm_zones A r o l nt =
      zbc_get_deactv_realm_zones B r o l nt := by
  have hd : A.domains = B.domains := congrArg (fun t => t.1) h
  have ht : A.zone_type_to_dom = B.zone_type_to_dom :=
    congrArg (fun t => t.2.1) h
  have hc : A.cmr_nr_zones_to_smr = B.cmr_nr_zones_to_smr :=
    congrArg (fun t => t.2.2.1) h
  have hs : A.smr_nr_zones_to_cmr = B.smr_nr_zones_to_cmr :=
    congrArg (fun t => t.2.2.2) h
  unfold zbc_get_deactv_realm_zones zbc_domain_id getDomain
    zbc_cmr_to_smr_zones zbc_smr_to_cmr_zones
  rw [hd, ht, hc, hs]

lemma zbc_get_zone_domain_congr (A B : ZDev) (zi : Nat)
    (h : zaFrame A = zaFrame B)
    (ht : zoneTSL (getZone A zi) = zoneTSL (getZone B zi)) :
    zbc_get_zone_domain A zi = zbc_get_zone_domain B zi := by
  have hd : A.domains = B.domains := congrArg (fun t => t.1) h
  have hty : (getZone A zi).type = (getZone B zi).type :=
    congrArg (fun t => t.1) ht
  have hst : (getZone A zi).start = (getZone B zi).start :=
    congrArg (fun t => t.2.1) ht
  unfold zbc_get_zone_domain ZDev.nr_domains getDomain
  simp only [zbc_zone_gap, hty, hst, hd]

lemma zbc_fill_congr (A B : ZDev) (zi : Nat) (cond : ZoneCond) (nr : Nat)
    (h : zaFrame A = zaFrame B)
    (ht : zoneTSL (getZone A zi) = zoneTSL (getZone B zi)) :
    zbc_fill_actv_record A zi cond nr = zbc_fill_actv_record B zi cond nr := by
  have hty : (getZone A zi).type = (getZone B zi).type :=
    congrArg (fun t => t.1) ht
  have hst : (getZone A zi).start = (getZone B zi).start :=
    congrArg (fun t => t.2.1) ht
  unfold zbc_fill_actv_record
  rw [zbc_get_zone_domain_congr A B zi h ht, hty, hst]

lemma zaDeacBad_congr (A B : ZDev) (all : Bool) (j : Nat)
    (h : getZone A j = getZone B j) :
    zaDeacBad A all j = zaDeacBad B all j := by
  unfold zaDeacBad; rw [h]

lemma zaDeacZT_congr (A B : ZDev) (j : Nat)
    (h : getZone A j = getZone B j) : zaDeacZT A j = zaDeacZT B j := by
  unfold zaDeacZT; rw [h]

lemma zaActvBad_congr (A B : ZDev) (all : Bool) (j : Nat)
    (h : getZone A j = getZone B j) :
    zaActvBad A all j = zaActvBad B all j := by
  unfold zaActvBad; rw [h]

lemma zaActvZT_congr (A B : ZDev) (j : Nat)
    (h : getZone A j = getZone B j) : zaActvZT A j = zaActvZT B j := by
  unfold zaActvZT; rw [h]

/-- zbc_chk_can_actv_realm reads only the frame tables and the zones of
the two slots of the realm being checked. -/
lemma zbc_chk_congr (A B : ZDev) (r : ZoneRealm) (o l : Nat) (nt : ZoneType)
    (all : Bool) (res : ZaResults)
    (h : zaFrame A = zaFrame B)
    (hz : ∀ x, inSlotRange r r.type x ∨ inSlotRange r nt x →
      getZone A x = getZone B x)
    (hdom : r.type ≠ nt → zbc_domain_id B r.type ≠ none ∧
      zbc_domain_id B nt ≠ none) :
    zbc_chk_can_actv_realm A r o l nt all res =
      zbc_chk_can_actv_realm B r o l nt all res := by
  have hgd := zbc_get_deactv_congr A B r o l nt h
  have hex : ∃ n, zbc_get_deactv_realm_zones B r o l nt = some n ∧
      n ≤ zbc_realm_length r r.type - o := by
    unfold zbc_get_deactv_realm_zones
    by_cases hrt : r.type ≠ nt
    · simp only [if_pos hrt]
      obtain ⟨h1, h2⟩ := hdom hrt
      rcases hd1 : zbc_domain_id B r.type with _ | d1
      · exact absurd hd1 h1
      rcases hd2 : zbc_domain_id B nt with _ | d2
      · exact absurd hd2 h2
      exact ⟨_, rfl, Nat.min_le_left _ _⟩
    · simp only [if_neg hrt]
      exact ⟨_, rfl, Nat.min_le_left _ _⟩
  obtain ⟨n, hn, hnle⟩ := hex
  have hmem1 : ∀ j ∈ (List.range n).map
      (fun k => (zbc_get_realm_item r r.type).start_zone + o + k),
      getZone A j = getZone B j := by
    intro j hj
    rcases List.mem_map.mp hj with ⟨k, hk, rfl⟩
    have hk2 := List.mem_range.mp hk
    refine hz _ (Or.inl ⟨by omega, ?_⟩)
    unfold zbc_realm_length at hnle ⊢
    omega
  have hmem2 : ∀ j ∈ (List.range (min (zbc_realm_length r nt - o) l)).map
      (fun k => (zbc_get_realm_item r nt).start_zone + o + k),
      getZone A j = getZone B j := by
    intro j hj
    rcases List.mem_map.mp hj with ⟨k, hk, rfl⟩
    have hk2 := List.mem_range.mp hk
    have hk3 : k < zbc_realm_length r nt - o := lt_of_lt_of_le hk2
      (Nat.min_le_left _ _)
    exact hz _ (Or.inr ⟨by omega, by omega⟩)
  unfold zbc_chk_can_actv_realm
  dsimp only
  by_cases h0 : (¬ all = true ∧ ¬ zbc_can_actv_realm_as r nt) ∨
      ((zbc_realm_nowp r ∧ zbc_act_type_sobr nt) ∨
        (zbc_realm_sobr r ∧ zbc_act_type_nowp nt)) ∨
      ((zbc_realm_seq_p r ∧ zbc_act_type_seq_r nt) ∨
        (zbc_realm_seq_r r ∧ zbc_act_type_seq_p nt))
  · rw [if_pos h0, if_pos h0]
  · rw [if_neg h0, if_neg h0, hgd, hn]
    dsimp only
    rw [za_find_congr (zaDeacBad A all) (zaDeacBad B all) _
      (fun j hj => zaDeacBad_congr A B all j (hmem1 j hj))]
    rcases hfind : ((List.range n).map
        (fun k => (zbc_get_realm_item r r.type).start_zone + o + k)).find?
        (zaDeacBad B all) with _ | jj
    · rw [za_any_congr (zaDeacZT A) (zaDeacZT B) _
        (fun j hj => zaDeacZT_congr A B j (hmem1 j hj))]
      by_cases h1 : all = true ∧
          ¬ ((List.range n).map
            (fun k => (zbc_get_realm_item r r.type).start_zone + o + k)).any
            (zaDeacZT B) = true
      · rw [if_pos h1, if_pos h1]
      · rw [if_neg h1, if_neg h1]
        by_cases h2 : ¬ zbc_can_actv_realm_as r nt
        · rw [if_pos h2, if_pos h2]
        · rw [if_neg h2, if_neg h2]
          dsimp only
          rw [za_find_congr (zaActvBad A all) (zaActvBad B all) _
            (fun j hj => zaActvBad_congr A B all j (hmem2 j hj))]
          rcases hfind2 : ((List.range
              (min (zbc_realm_length r nt - o) l)).map
              (fun k => (zbc_get_realm_item r nt).start_zone + o + k)).find?
              (zaActvBad B all) with _ | jj2
          · rw [za_any_congr (zaActvZT A) (zaActvZT B) _
              (fun j hj => zaActvZT_congr A B j (hmem2 j hj))]
          · dsimp only
            rw [hz jj2 (by
              rcases List.mem_map.mp
                (List.mem_of_find?_eq_some hfind2) with ⟨k, hk, rfl⟩
              have hk2 := List.mem_range.mp hk
              have hk3 : k < zbc_realm_length r nt - o :=
                lt_of_lt_of_le hk2 (Nat.min_le_left _ _)
              exact Or.inr ⟨by omega, by omega⟩)]
    · dsimp only
      rw [hmem1 jj (List.mem_of_find?_eq_some hfind)]

lemma realms_setList (s : ZDev) (w : WhichList) (l : List Nat) :
    (setList s w l).realms = s.realms := by cases w <;> rfl

lemma realms_unlink (s : ZDev) (i : Nat) :
    (zbc_unlink_zone s i).realms = s.realms := by
  unfold zbc_unlink_zone zbc_remove_zone
  split
  · rfl
  · split <;> first | rfl | apply realms_setList

lemma realms_on_cond_change (s : ZDev) (i : Nat) (c : ZoneCond) :
    (zbc_on_cond_change s i c).realms = s.realms := by
  unfold zbc_on_cond_change
  dsimp only
  split
  · split <;> rfl
  · rfl

lemma realms_set_initial_wp (s : ZDev) (i : Nat) :
    (zbc_set_initial_wp s i).realms = s.realms := by
  unfold zbc_set_initial_wp zbc_add_zone_tail
  dsimp only
  split <;> first | rfl | apply realms_setList

lemma realms_deac_step (s : ZDev) (c : ZoneCond) (j : Nat) :
    (zbc_deac_zone_step s c j).realms = s.realms := by
  unfold zbc_deac_zone_step
  dsimp only
  split
  · rfl
  · rw [realms_set_initial_wp]
    show (zbc_on_cond_change (zbc_unlink_zone s j) j c).realms = s.realms
    rw [realms_on_cond_change, realms_unlink]

lemma realms_actv_step (s : ZDev) (c : ZoneCond) (j : Nat) :
    (zbc_actv_zone_step s c j).realms = s.realms := by
  unfold zbc_actv_zone_step
  dsimp only
  split
  · rfl
  · rw [realms_set_initial_wp]
    split <;> exact realms_unlink s j

lemma realms_deac_fold (c : ZoneCond) :
    ∀ (l : List Nat) (s : ZDev),
      (l.foldl (fun s j => zbc_deac_zone_step s c j) s).realms = s.realms := by
  intro l
  induction l with
  | nil => intro s; rfl
  | cons a t IH =>
    intro s
    simp only [List.foldl_cons]
    rw [IH, realms_deac_step]

lemma realms_actv_fold (c : ZoneCond) :
    ∀ (l : List Nat) (s : ZDev),
      (l.foldl (fun s j => zbc_actv_zone_step s c j) s).realms = s.realms := by
  intro l
  induction l with
  | nil => intro s; rfl
  | cons a t IH =>
    intro s
    simp only [List.foldl_cons]
    rw [IH, realms_actv_step]

lemma zbc_deactivate_dry (zdev : ZDev) (r : ZoneRealm) (o l : Nat)
    (nt : ZoneType) :
    (zbc_deactivate_realm_zones zdev r o l nt true).1 = zdev := by
  unfold zbc_deactivate_realm_zones
  by_cases hrt : nt = r.type <;> simp [hrt]

lemma zbc_activate_zones_dry (zdev : ZDev) (r : ZoneRealm) (o l : Nat)
    (nt : ZoneType) :
    (zbc_activate_realm_zones zdev r o l nt true).1 = zdev := by
  unfold zbc_activate_realm_zones
  by_cases hrt : nt = r.type
  · simp [hrt]
  · by_cases hnw : zbc_act_type_nowp nt
    · have h2 : nt = ZoneType.conventional := hnw
      subst h2
      simp [hrt, zbc_act_type_nowp]
    · simp [hrt, hnw]

lemma zbc_deactivate_desc (zdev : ZDev) (r : ZoneRealm) (o l : Nat)
    (nt : ZoneType) (dr : Bool) :
    (zbc_deactivate_realm_zones zdev r o l nt dr).2 =
      zbc_fill_actv_record zdev ((zbc_get_realm_item r r.type).start_zone)
        (if nt = r.type then
          (getZone zdev ((zbc_get_realm_item r r.type).start_zone)).cond
        else ZoneCond.inactive)
        (zbc_realm_length r r.type) := by
  unfold zbc_deactivate_realm_zones
  by_cases hrt : nt = r.type
  · simp [hrt]
  · by_cases hdr : dr = true <;> simp [hrt, hdr]

lemma zbc_activate_desc (zdev : ZDev) (r : ZoneRealm) (o l : Nat)
    (nt : ZoneType) (dr : Bool) :
    (zbc_activate_realm_zones zdev r o l nt dr).2 =
      zbc_fill_actv_record zdev ((zbc_get_realm_item r nt).start_zone)
        (if nt = r.type then
          (getZone zdev ((zbc_get_realm_item r nt).start_zone)).cond
        else if zbc_act_type_nowp nt then ZoneCond.notWp
        else ZoneCond.empty)
        (zbc_realm_length r nt) := by
  unfold zbc_activate_realm_zones
  by_cases hrt : nt = r.type
  · simp [hrt]
  · by_cases hnw : zbc_act_type_nowp nt
    · have h2 : nt = ZoneType.conventional := hnw
      subst h2
      by_cases hdr : dr = true <;>
        simp [hrt, hdr, zbc_act_type_nowp]
    · by_cases hdr : dr = true <;> simp [hrt, hnw, hdr]

lemma za_deac_mem_slot (r : ZoneRealm) (x : Nat)
    (hx : ¬ inSlotRange r r.type x) :
    ∀ j ∈ (List.range (zbc_realm_length r r.type)).map
      (fun k => (zbc_get_realm_item r r.type).start_zone + k), j ≠ x := by
  intro j hj
  rcases List.mem_map.mp hj with ⟨k, hk, rfl⟩
  have hk2 := List.mem_range.mp hk
  intro hjx
  exact hx (by rw [← hjx]; exact ⟨by omega, by
    unfold inSlotRange zbc_realm_length at *
    omega⟩)

lemma za_actv_mem_slot (r : ZoneRealm) (nt : ZoneType) (x : Nat)
    (hx : ¬ inSlotRange r nt x) :
    ∀ j ∈ (List.range (zbc_realm_length r nt)).map
      (fun k => (zbc_get_realm_item r nt).start_zone + k), j ≠ x := by
  intro j hj
  rcases List.mem_map.mp hj with ⟨k, hk, rfl⟩
  have hk2 := List.mem_range.mp hk
  intro hjx
  exact hx (by rw [← hjx]; exact ⟨by omega, by
    unfold inSlotRange zbc_realm_length at *
    omega⟩)

lemma zbc_deactivate_frame_zones (zdev : ZDev) (r : ZoneRealm) (o l : Nat)
    (nt : ZoneType) (dr : Bool) (x : Nat)
    (hx : ¬ inSlotRange r r.type x) :
    getZone (zbc_deactivate_realm_zones zdev r o l nt dr).1 x =
      getZone zdev x := by
  unfold zbc_deactivate_realm_zones
  by_cases hrt : nt = r.type
  · simp [hrt]
  · by_cases hdr : dr = true
    · simp [hrt, hdr]
    · simp only [if_neg hrt, hdr]
      simp
      exact getZone_deac_fold_ne _ _ _ _ (za_deac_mem_slot r x hx)

lemma zbc_activate_frame_zones (zdev : ZDev) (r : ZoneRealm) (o l : Nat)
    (nt : ZoneType) (dr : Bool) (x : Nat)
    (hx : ¬ inSlotRange r nt x) :
    getZone (zbc_activate_realm_zones zdev r o l nt dr).1 x =
      getZone zdev x := by
  unfold zbc_activate_realm_zones
  by_cases hrt : nt = r.type
  · simp [hrt]
  · by_cases hdr : dr = true
    · by_cases hnw : zbc_act_type_nowp nt
      · have h2 : nt = ZoneType.conventional := hnw
        subst h2
        simp [hrt, hdr, zbc_act_type_nowp]
      · simp [hrt, hdr, hnw]
    · by_cases hnw : zbc_act_type_nowp nt
      · have h2 : nt = ZoneType.conventional := hnw
        subst h2
        simp [hrt, hdr, zbc_act_type_nowp]
        exact getZone_actv_fold_ne _ _ _ _ (za_actv_mem_slot r _ x hx)
      · simp [hrt, hdr, hnw]
        exact getZone_actv_fold_ne _ _ _ _ (za_actv_mem_slot r nt x hx)

lemma zbc_deactivate_TSL (zdev : ZDev) (r : ZoneRealm) (o l : Nat)
    (nt : ZoneType) (dr : Bool) (x : Nat) :
    zoneTSL (getZone (zbc_deactivate_realm_zones zdev r o l nt dr).1 x) =
      zoneTSL (getZone zdev x) := by
  unfold zbc_deactivate_realm_zones
  by_cases hrt : nt = r.type
  · simp [hrt]
  · by_cases hdr : dr = true
    · simp [hrt, hdr]
    · simp [hrt, hdr]
      exact getZone_deac_fold_TSL _ _ _ _

lemma zbc_activate_TSL (zdev : ZDev) (r : ZoneRealm) (o l : Nat)
    (nt : ZoneType) (dr : Bool) (x : Nat) :
    zoneTSL (getZone (zbc_activate_realm_zones zdev r o l nt dr).1 x) =
      zoneTSL (getZone zdev x) := by
  unfold zbc_activate_realm_zones
  by_cases hrt : nt = r.type
  · simp [hrt]
  · by_cases hdr : dr = true
    · by_cases hnw : zbc_act_type_nowp nt
      · have h2 : nt = ZoneType.conventional := hnw
        subst h2
        simp [hrt, hdr, zbc_act_type_nowp]
      · simp [hrt, hdr, hnw]
    · by_cases hnw : zbc_act_type_nowp nt
      · have h2 : nt = ZoneType.conventional := hnw
        subst h2
        simp [hrt, hdr, zbc_act_type_nowp]
        exact getZone_actv_fold_TSL _ _ _ _
      · simp [hrt, hdr, hnw]
        exact getZone_actv_fold_TSL _ _ _ _

lemma zbc_deactivate_zaFrame (zdev : ZDev) (r : ZoneRealm) (o l : Nat)
    (nt : ZoneType) (dr : Bool) :
    zaFrame (zbc_deactivate_realm_zones zdev r o l nt dr).1 =
      zaFrame zdev := by
  unfold zbc_deactivate_realm_zones
  by_cases hrt : nt = r.type
  · simp [hrt]
  · by_cases hdr : dr = true
    · simp [hrt, hdr]
    · simp [hrt, hdr]
      exact zaFrame_deac_fold _ _ _

lemma zbc_activate_zaFrame (zdev : ZDev) (r : ZoneRealm) (o l : Nat)
    (nt : ZoneType) (dr : Bool) :
    zaFrame (zbc_activate_realm_zones zdev r o l nt dr).1 = zaFrame zdev := by
  unfold zbc_activate_realm_zones
  by_cases hrt : nt = r.type
  · simp [hrt]
  · by_cases hdr : dr = true
    · by_cases hnw : zbc_act_type_nowp nt
      · have h2 : nt = ZoneType.conventional := hnw
        subst h2
        simp [hrt, hdr, zbc_act_type_nowp]
      · simp [hrt, hdr, hnw]
    · by_cases hnw : zbc_act_type_nowp nt
      · have h2 : nt = ZoneType.conventional := hnw
        subst h2
        simp [hrt, hdr, zbc_act_type_nowp]
        exact zaFrame_actv_fold _ _ _
      · simp [hrt, hdr, hnw]
        exact zaFrame_actv_fold _ _ _

lemma zbc_deactivate_realms (zdev : ZDev) (r : ZoneRealm) (o l : Nat)
    (nt : ZoneType) (dr : Bool) :
    (zbc_deactivate_realm_zones zdev r o l nt dr).1.realms = zdev.realms := by
  unfold zbc_deactivate_realm_zones
  by_cases hrt : nt = r.type
  · simp [hrt]
  · by_cases hdr : dr = true
    · simp [hrt, hdr]
    · simp [hrt, hdr]
      exact realms_deac_fold _ _ _

lemma zbc_activate_realms (zdev : ZDev) (r : ZoneRealm) (o l : Nat)
    (nt : ZoneType) (dr : Bool) :
    (zbc_activate_realm_zones zdev r o l nt dr).1.realms = zdev.realms := by
  unfold zbc_activate_realm_zones
  by_cases hrt : nt = r.type
  · simp [hrt]
  · by_cases hdr : dr = true
    · by_cases hnw : zbc_act_type_nowp nt
      · have h2 : nt = ZoneType.conventional := hnw
        subst h2
        simp [hrt, hdr, zbc_act_type_nowp]
      · simp [hrt, hdr, hnw]
    · by_cases hnw : zbc_act_type_nowp nt
      · have h2 : nt = ZoneType.conventional := hnw
        subst h2
        simp [hrt, hdr, zbc_act_type_nowp]
        exact realms_actv_fold _ _ _
      · simp [hrt, hdr, hnw]
        exact realms_actv_fold _ _ _

lemma getRealm_congr_realms (A B : ZDev) (j : Nat)
    (h : A.realms = B.realms) : getRealm A j = getRealm B j := by
  simp [getRealm, h]

lemma getRealm_setRealm_ne (s : ZDev) (i x : Nat) (r : ZoneRealm)
    (h : i ≠ x) : getRealm (setRealm s i r) x = getRealm s x := by
  simp [getRealm, setRealm, List.getD_eq_getElem?_getD,
    List.getElem?_set_ne h]

lemma zbc_deactivate_sametype (zdev : ZDev) (r : ZoneRealm) (o l : Nat)
    (nt : ZoneType) (dr : Bool) (h : nt = r.type) :
    (zbc_deactivate_realm_zones zdev r o l nt dr).1 = zdev := by
  unfold zbc_deactivate_realm_zones
  simp [h]

lemma zbc_activate_realm_dry (zdev : ZDev) (ri o l : Nat) (nt : ZoneType)
    (all : Bool) (res : ZaResults) :
    (zbc_activate_realm zdev ri o l nt true all res).2.1 = zdev := by
  unfold zbc_activate_realm
  dsimp only
  split
  · rfl
  · split
    · rfl
    · dsimp only
      simp [zbc_activate_zones_dry, zbc_deactivate_dry]

lemma zbc_activate_realm_state (A : ZDev) (ri o l : Nat) (nt : ZoneType)
    (all : Bool) (res : ZaResults) :
    (∀ x, ¬ inSlotRange (getRealm A ri) (getRealm A ri).type x →
      ¬ inSlotRange (getRealm A ri) nt x →
      getZone (zbc_activate_realm A ri o l nt false all res).2.1 x =
        getZone A x) ∧
    (∀ x, zoneTSL (getZone
        (zbc_activate_realm A ri o l nt false all res).2.1 x) =
      zoneTSL (getZone A x)) ∧
    zaFrame (zbc_activate_realm A ri o l nt false all res).2.1 =
      zaFrame A ∧
    (∀ j, j ≠ ri →
      getRealm (zbc_activate_realm A ri o l nt false all res).2.1 j =
        getRealm A j) := by
  unfold zbc_activate_realm
  dsimp only
  split
  · exact ⟨fun x _ _ => rfl, fun x => rfl, rfl, fun j _ => rfl⟩
  · split
    · exact ⟨fun x _ _ => rfl, fun x => rfl, rfl, fun j _ => rfl⟩
    · dsimp only
      rw [if_pos (show ¬ false = true by decide)]
      refine ⟨fun x hx1 hx2 => ?_, fun x => ?_, ?_, fun j hj => ?_⟩
      · show getZone (zbc_activate_realm_zones
            (zbc_deactivate_realm_zones A (getRealm A ri) o l nt false).1
            (getRealm A ri) o l nt false).1 x = getZone A x
        rw [zbc_activate_frame_zones _ _ _ _ _ _ _ hx2,
          zbc_deactivate_frame_zones _ _ _ _ _ _ _ hx1]
      · show zoneTSL (getZone (zbc_activate_realm_zones
            (zbc_deactivate_realm_zones A (getRealm A ri) o l nt false).1
            (getRealm A ri) o l nt false).1 x) = zoneTSL (getZone A x)
        rw [zbc_activate_TSL, zbc_deactivate_TSL]
      · rw [show ∀ s : ZDev, ∀ rr, zaFrame (setRealm s ri rr) = zaFrame s
          from fun s rr => rfl]
        rw [zbc_activate_zaFrame, zbc_deactivate_zaFrame]
      · rw [getRealm_setRealm_ne _ _ _ _ (fun h => hj h.symm)]
        rw [getRealm_congr_realms _ A j (by
          rw [zbc_activate_realms, zbc_deactivate_realms])]

/-- One realm step of the walk: an ACTIVATE step from a state A that
agrees with the QUERY state B on the realm record, the frame tables, the
type/start/len of all zones and the conditions of the zones of the two
slots of this realm returns the same verdict and the same descriptor
records as the QUERY step from B. -/
lemma zbc_activate_realm_sim (A B : ZDev) (ri o l : Nat) (nt : ZoneType)
    (all : Bool) (res : ZaResults)
    (hfr : zaFrame A = zaFrame B)
    (hre : getRealm A ri = getRealm B ri)
    (hTSL : ∀ x, zoneTSL (getZone A x) = zoneTSL (getZone B x))
    (hz : ∀ x, inSlotRange (getRealm B ri) (getRealm B ri).type x ∨
      inSlotRange (getRealm B ri) nt x → getZone A x = getZone B x)
    (hdom : (getRealm B ri).type ≠ nt →
      zbc_domain_id B (getRealm B ri).type ≠ none ∧
        zbc_domain_id B nt ≠ none)
    (hlen : nt = (getRealm B ri).type →
      1 ≤ zbc_realm_length (getRealm B ri) (getRealm B ri).type) :
    (zbc_activate_realm A ri o l nt false all res).1 =
      (zbc_activate_realm B ri o l nt true all res).1 ∧
    (zbc_activate_realm A ri o l nt false all res).2.2 =
      (zbc_activate_realm B ri o l nt true all res).2.2 := by
  have hchk := zbc_chk_congr A B (getRealm B ri) o l nt all res hfr hz hdom
  have hdesc1 : (zbc_deactivate_realm_zones A (getRealm B ri) o l nt
      false).2 = (zbc_deactivate_realm_zones B (getRealm B ri) o l nt
      true).2 := by
    rw [zbc_deactivate_desc, zbc_deactivate_desc]
    have hcond : (if nt = (getRealm B ri).type then
        (getZone A ((zbc_get_realm_item (getRealm B ri)
          (getRealm B ri).type).start_zone)).cond
      else ZoneCond.inactive) = (if nt = (getRealm B ri).type then
        (getZone B ((zbc_get_realm_item (getRealm B ri)
          (getRealm B ri).type).start_zone)).cond
      else ZoneCond.inactive) := by
      by_cases hrt : nt = (getRealm B ri).type
      · rw [if_pos hrt, if_pos hrt,
          hz _ (Or.inl ⟨le_refl _, by have := hlen hrt; omega⟩)]
      · rw [if_neg hrt, if_neg hrt]
    rw [hcond]
    exact zbc_fill_congr A B _ _ _ hfr (hTSL _)
  have hdesc2 : (zbc_activate_realm_zones
      (zbc_deactivate_realm_zones A (getRealm B ri) o l nt false).1
      (getRealm B ri) o l nt false).2 =
      (zbc_activate_realm_zones
        (zbc_deactivate_realm_zones B (getRealm B ri) o l nt true).1
        (getRealm B ri) o l nt true).2 := by
    rw [zbc_deactivate_dry]
    rw [zbc_activate_desc, zbc_activate_desc]
    have hfr2 : zaFrame (zbc_deactivate_realm_zones A (getRealm B ri) o l
        nt false).1 = zaFrame B := by rw [zbc_deactivate_zaFrame, hfr]
    have hTSL2 : ∀ x, zoneTSL (getZone (zbc_deactivate_realm_zones A
        (getRealm B ri) o l nt false).1 x) = zoneTSL (getZone B x) := by
      intro x
      rw [zbc_deactivate_TSL, hTSL]
    have hcond : (if nt = (getRealm B ri).type then
        (getZone (zbc_deactivate_realm_zones A (getRealm B ri) o l nt
          false).1 ((zbc_get_realm_item (getRealm B ri) nt).start_zone)).cond
      else if zbc_act_type_nowp nt then ZoneCond.notWp
      else ZoneCond.empty) = (if nt = (getRealm B ri).type then
        (getZone B ((zbc_get_realm_item (getRealm B ri) nt).start_zone)).cond
      else if zbc_act_type_nowp nt then ZoneCond.notWp
      else ZoneCond.empty) := by
      by_cases hrt : nt = (getRealm B ri).type
      · rw [if_pos hrt, if_pos hrt,
          zbc_deactivate_sametype _ _ _ _ _ _ hrt]
        rw [hz _ (Or.inr ⟨le_refl _, by
          have := hlen hrt
          unfold zbc_realm_length at *
          rw [hrt] at *
          omega⟩)]
      · rw [if_neg hrt, if_neg hrt]
    rw [hcond]
    exact zbc_fill_congr _ B _ _ _ hfr2 (hTSL2 _)
  unfold zbc_activate_realm
  rw [hre]
  dsimp only
  rw [hchk]
  split
  · exact ⟨rfl, rfl⟩
  · split
    · exact ⟨rfl, rfl⟩
    · refine ⟨rfl, ?_⟩
      dsimp only
      rw [hdesc1, hdesc2]

lemma zaWalk_dry (endr : Nat) :
    ∀ (fuel i : Nat), endr - i ≤ fuel →
    ∀ (zdev : ZDev) (res : ZaResults) (nz : Int) (ofs sz : Nat)
      (nt : ZoneType) (all : Bool),
      (zaWalk zdev res i endr nz ofs sz nt true all).2.1 = zdev := by
  intro fuel
  induction fuel with
  | zero =>
    intro i hf zdev res nz ofs sz nt all
    rw [zaWalk]
    simp only [dif_neg (show ¬ i < endr by omega)]
  | succ n IH =>
    intro i hf zdev res nz ofs sz nt all
    rw [zaWalk]
    by_cases hlt : i < endr
    · simp only [dif_pos hlt]
      split
      · exact zbc_activate_realm_dry zdev i ofs _ nt all res
      · rw [IH (i + 1) (by omega)]
        exact zbc_activate_realm_dry zdev i ofs _ nt all res
    · simp only [dif_neg hlt]

/-- The realm walk of a QUERY and of an ACTIVATE from related states
agree on the verdict and on the collected descriptor records, provided
every realm in range has a current type with a domain, a nonempty
current slot when the activation is same-type, and slot ranges of
distinct realms never overlap. -/
lemma zaWalk_sim (B : ZDev) (endr sz : Nat) (nt : ZoneType) (all : Bool)
    (HD : ∀ j, j < endr → (getRealm B j).type ≠ nt →
      zbc_domain_id B (getRealm B j).type ≠ none ∧
        zbc_domain_id B nt ≠ none)
    (HL : ∀ j, j < endr → nt = (getRealm B j).type →
      1 ≤ zbc_realm_length (getRealm B j) (getRealm B j).type)
    (HDisj : ∀ j k, j < endr → k < endr → j ≠ k → ∀ t tt x,
      inSlotRange (getRealm B j) t x → ¬ inSlotRange (getRealm B k) tt x) :
    ∀ (fuel i : Nat), endr - i ≤ fuel →
    ∀ (A : ZDev) (res : ZaResults) (nz : Int) (ofs : Nat),
      zaFrame A = zaFrame B →
      (∀ x, zoneTSL (getZone A x) = zoneTSL (getZone B x)) →
      (∀ j, i ≤ j → j < endr → getRealm A j = getRealm B j) →
      (∀ j, i ≤ j → j < endr → ∀ x,
        inSlotRange (getRealm B j) (getRealm B j).type x ∨
          inSlotRange (getRealm B j) nt x → getZone A x = getZone B x) →
      (zaWalk A res i endr nz ofs sz nt false all).1 =
        (zaWalk B res i endr nz ofs sz nt true all).1 ∧
      (zaWalk A res i endr nz ofs sz nt false all).2.2 =
        (zaWalk B res i endr nz ofs sz nt true all).2.2 := by
  intro fuel
  induction fuel with
  | zero =>
    intro i hf A res nz ofs hfr hTSL hre hz
    rw [zaWalk, zaWalk]
    simp only [dif_neg (show ¬ i < endr by omega)]
    exact ⟨by simp, by simp⟩
  | succ n IH =>
    intro i hf A res nz ofs hfr hTSL hre hz
    rw [zaWalk, zaWalk]
    by_cases hlt : i < endr
    · simp only [dif_pos hlt]
      have hsim := zbc_activate_realm_sim A B i ofs
        (min nz (sz : Int)).toNat nt all res hfr (hre i (le_refl i) hlt)
        hTSL (hz i (le_refl i) hlt) (HD i hlt) (HL i hlt)
      have hstate := zbc_activate_realm_state A i ofs
        (min nz (sz : Int)).toNat nt all res
      by_cases h1 : (zbc_activate_realm B i ofs (min nz (sz : Int)).toNat
          nt true all res).1 = 1
      · rw [if_pos h1, if_pos (hsim.1.trans h1)]
        exact ⟨rfl, hsim.2⟩
      · rw [if_neg h1, if_neg (fun hh => h1 (hsim.1.symm.trans hh))]
        rw [zbc_activate_realm_dry B i ofs _ nt all res]
        rw [hsim.2]
        have hreA := hre i (le_refl i) hlt
        refine IH (i + 1) (by omega)
          (zbc_activate_realm A i ofs (min nz (sz : Int)).toNat nt false
            all res).2.1 _ _ 0 ?_ ?_ ?_ ?_
        · rw [hstate.2.2.1, hfr]
        · intro x
          rw [hstate.2.1 x, hTSL x]
        · intro j hj hjlt
          rw [hstate.2.2.2 j (by omega), hre j (by omega) hjlt]
        · intro j hj hjlt x hx
          have hni : ¬ inSlotRange (getRealm A i) (getRealm A i).type x ∧
              ¬ inSlotRange (getRealm A i) nt x := by
            rw [hreA]
            rcases hx with hx1 | hx1
            · exact ⟨HDisj j i hjlt hlt (by omega) _ _ x hx1,
                HDisj j i hjlt hlt (by omega) _ _ x hx1⟩
            · exact ⟨HDisj j i hjlt hlt (by omega) _ _ x hx1,
                HDisj j i hjlt hlt (by omega) _ _ x hx1⟩
          rw [hstate.1 x hni.1 hni.2]
          exact hz j (by omega) hjlt x hx
    · simp only [dif_neg hlt]
      exact ⟨by simp, by simp⟩

lemma zbc_realm_bsearch_bound (zdev : ZDev) (zt : ZoneType) (lba : Nat) :
    ∀ (fuel : Nat) (l h r : Int) (rlba : Nat) (bound : Int),
      (h + 1 - l).toNat ≤ fuel → 0 ≤ l → 0 ≤ r → h ≤ bound → r ≤ bound →
      0 ≤ (zbc_realm_bsearch zdev zt lba l h r rlba).1 ∧
      (zbc_realm_bsearch zdev zt lba l h r rlba).1 ≤ bound := by
  intro fuel
  induction fuel with
  | zero =>
    intro l h r rlba bound hfu hl hr hhb hrb
    rw [zbc_realm_bsearch]
    simp only [dif_neg (show ¬ l ≤ h by omega)]
    exact ⟨hr, hrb⟩
  | succ n IH =>
    intro l h r rlba bound hfu hl hr hhb hrb
    rw [zbc_realm_bsearch]
    by_cases hlh : l ≤ h
    · simp only [dif_pos hlh]
      have hm1 : l ≤ (l + h) / 2 := by omega
      have hm2 : (l + h) / 2 ≤ h := by omega
      split
      · exact ⟨by omega, by omega⟩
      · split
        · exact IH ((l + h) / 2 + 1) h ((l + h) / 2) _ bound (by omega)
            (by omega) (by omega) hhb (by omega)
        · exact IH l ((l + h) / 2 - 1) ((l + h) / 2) _ bound (by omega)
            (by omega) (by omega) (by omega) (by omega)
    · simp only [dif_neg hlh]
      exact ⟨hr, hrb⟩

lemma za_getD_mem {α : Type} (l : List α) (i : Nat) (d : α)
    (h : i < l.length) : l.getD i d ∈ l := by
  rw [List.getD_eq_getElem?_getD, List.getElem?_eq_getElem h]
  exact List.getElem_mem h

lemma zbc_get_zone_realm_spec (zdev : ZDev) (lba : Nat) (lowest : Bool)
    (r : Nat) (zt : ZoneType)
    (h : zbc_get_zone_realm zdev lba lowest = some (r, zt))
    (hr : 1 ≤ zdev.nr_realms) :
    r < zdev.nr_realms ∧ ∃ d ∈ zdev.domains, d.type = zt := by
  unfold zbc_get_zone_realm at h
  rcases hfind : (List.range zdev.nr_domains).find? (fun i =>
      decide (lba ≥ (getDomain zdev i).start_lba ∧
        lba ≤ (getDomain zdev i).end_lba)) with _ | di
  · rw [hfind] at h; exact absurd h (by simp)
  · rw [hfind] at h
    dsimp only at h
    have hmem := List.mem_range.mp (List.mem_of_find?_eq_some hfind)
    have hdm : getDomain zdev di ∈ zdev.domains :=
      za_getD_mem _ _ _ hmem
    have hbb := zbc_realm_bsearch_bound zdev
      (getDomain zdev di).type lba
      ((zdev.nr_realms : Int) - 1 + 1 - 0).toNat 0
      ((zdev.nr_realms : Int) - 1) 0 0 ((zdev.nr_realms : Int) - 1)
      (le_refl _) (by omega) (by omega) (by omega) (by omega)
    split at h
    · exact absurd h (by simp)
    · rename_i r2 rlba2 heq2
      split at h
      · exact absurd h (by simp)
      · split at h
        · exact absurd h (by simp)
        · have hinj := Option.some.inj h
          have hr2 : r2 = r := congrArg Prod.fst hinj
          have hzt : (getDomain zdev di).type = zt :=
            congrArg Prod.snd hinj
          refine ⟨?_, getDomain zdev di, hdm, hzt⟩
          split at heq2
          · split at heq2
            · exact absurd heq2 (by simp)
            · have hinj2 := Option.some.inj heq2
              have hr3 : ((zbc_realm_bsearch zdev (getDomain zdev di).type
                  lba 0 ((zdev.nr_realms : Int) - 1) 0 0).1 - 1).toNat =
                  r2 := congrArg Prod.fst hinj2
              omega
          · have hinj2 := Option.some.inj heq2
            have hr3 : (zbc_realm_bsearch zdev (getDomain zdev di).type
                lba 0 ((zdev.nr_realms : Int) - 1) 0 0).1.toNat = r2 :=
              congrArg Prod.fst hinj2
            omega

lemma zaFindEnd_ub (nrR sz : Nat) :
    ∀ (fuel endr : Nat) (nz : Int) (bound : Nat), nrR - endr ≤ fuel →
      endr ≤ bound → nrR ≤ bound →
      (zaFindEnd nrR sz endr nz).1 ≤ bound := by
  intro fuel
  induction fuel with
  | zero =>
    intro endr nz bound hfu he hn
    rw [zaFindEnd]
    simp only [dif_neg (show ¬ (endr < nrR ∧ nz > 0) by omega)]
    exact he
  | succ n IH =>
    intro endr nz bound hfu he hn
    rw [zaFindEnd]
    by_cases hc : endr < nrR ∧ nz > 0
    · simp only [dif_pos hc]
      exact IH (endr + 1) (nz - sz) bound (by omega) (by omega) hn
    · simp only [dif_neg hc]
      exact he

/-- All five zone types. -/
def allZoneTypes : List ZoneType :=
  [ZoneType.conventional, ZoneType.seqWriteReq, ZoneType.seqWritePref,
    ZoneType.seqOrBefReq, ZoneType.gap]

lemma mem_allZoneTypes (t : ZoneType) : t ∈ allZoneTypes := by
  cases t <;> simp [allZoneTypes]

lemma zaOutput_descs_dr (res : ZaResults) (ok dr dr2 : Bool) (status0 : Nat)
    (nzp : Option Nat) (domain_id : Nat) (nozsrc all : Bool)
    (alloc_len iov_len : Nat) :
    (zaOutput res ok dr status0 nzp domain_id nozsrc all alloc_len
      iov_len).descs =
    (zaOutput res ok dr2 status0 nzp domain_id nozsrc all alloc_len
      iov_len).descs := rfl

lemma zaFE_ub (zdev : ZDev) (sr n o szv bound : Nat) (h1 : sr < bound)
    (h2 : zdev.nr_realms ≤ bound) : (zaFE zdev sr n o szv).1 ≤ bound := by
  unfold zaFE
  split
  · exact zaFindEnd_ub _ _ zdev.nr_realms (sr + 1) _ bound (by omega)
      (by omega) h2
  · exact zaFindEnd_ub _ _ zdev.nr_realms sr _ bound (by omega)
      (by omega) h2

lemma zaNewType_mem (zdev : ZDev) (all : Bool) (zi domain_id : Nat)
    (addr_zt : ZoneType) (hdm : domain_id < zdev.nr_domains)
    (ha : ∃ d ∈ zdev.domains, d.type = addr_zt) :
    ∃ d ∈ zdev.domains, d.type = zaNewType zdev all zi domain_id addr_zt := by
  unfold zaNewType
  split
  · exact ⟨getDomain zdev domain_id, za_getD_mem _ _ _ hdm, rfl⟩
  · exact ha

lemma za_body_query_sim (zdev : ZDev)
    (start_lba nr_zones domain_id alloc_len : Nat) (all nozsrc : Bool)
    (iov_len : Nat)
    (hdm : domain_id < zdev.nr_domains)
    (HR : 1 ≤ zdev.nr_realms)
    (HD : ∀ j, j < zdev.nr_realms → ∀ t ∈ allZoneTypes,
      (∃ d ∈ zdev.domains, d.type = t) → (getRealm zdev j).type ≠ t →
      zbc_domain_id zdev (getRealm zdev j).type ≠ none ∧
        zbc_domain_id zdev t ≠ none)
    (HL : ∀ j, j < zdev.nr_realms →
      1 ≤ zbc_realm_length (getRealm zdev j) (getRealm zdev j).type)
    (HS : ∀ j, j < zdev.nr_realms → ∀ k, k < zdev.nr_realms → j ≠ k →
      ∀ t ∈ allZoneTypes, ∀ tt ∈ allZoneTypes,
        (zbc_get_realm_item (getRealm zdev j) t).start_zone +
            zbc_realm_length (getRealm zdev j) t ≤
          (zbc_get_realm_item (getRealm zdev k) tt).start_zone ∨
        (zbc_get_realm_item (getRealm zdev k) tt).start_zone +
            zbc_realm_length (getRealm zdev k) tt ≤
          (zbc_get_realm_item (getRealm zdev j) t).start_zone) :
    (zbc_zone_activate_body zdev start_lba nr_zones domain_id alloc_len all
      nozsrc true iov_len).2.1 = zdev ∧
    (zbc_zone_activate_body zdev start_lba nr_zones domain_id alloc_len all
      nozsrc true iov_len).1 =
      (zbc_zone_activate_body zdev start_lba nr_zones domain_id alloc_len all
        nozsrc false iov_len).1 ∧
    ((zbc_zone_activate_body zdev start_lba nr_zones domain_id alloc_len all
      nozsrc true iov_len).2.2).map ZaOutput.descs =
      ((zbc_zone_activate_body zdev start_lba nr_zones domain_id alloc_len all
        nozsrc false iov_len).2.2).map ZaOutput.descs := by
  unfold zbc_zone_activate_body
  dsimp only
  split
  · exact ⟨rfl, rfl, rfl⟩
  · split
    · exact ⟨rfl, rfl, rfl⟩
    · split
      · exact ⟨rfl, rfl, rfl⟩
      · split
        · exact ⟨rfl, rfl, rfl⟩
        · rename_i zi heqz
          split
          · exact ⟨rfl, rfl, rfl⟩
          · split
            · exact ⟨rfl, rfl, rfl⟩
            · rename_i i0 heqd
              split
              · exact ⟨rfl, rfl, rfl⟩
              · rename_i prr start_realm addr_zt heqr
                split
                · exact ⟨rfl, rfl, rfl⟩
                · split
                  · exact ⟨rfl, rfl, rfl⟩
                  · obtain ⟨hsr, hda⟩ := zbc_get_zone_realm_spec zdev
                      start_lba _ start_realm addr_zt heqr HR
                    have hfe : (zaFE zdev start_realm nr_zones
                        (zaOfs zdev start_realm zi) (zaSz zdev addr_zt)).1 ≤
                        zdev.nr_realms :=
                      zaFE_ub zdev start_realm nr_zones
                        (zaOfs zdev start_realm zi) (zaSz zdev addr_zt)
                        zdev.nr_realms hsr (le_refl _)
                    have hntm := zaNewType_mem zdev all zi domain_id addr_zt
                      hdm hda
                    have hsim := zaWalk_sim zdev
                      (zaFE zdev start_realm nr_zones
                        (zaOfs zdev start_realm zi) (zaSz zdev addr_zt)).1
                      (zaSz zdev addr_zt)
                      (zaNewType zdev all zi domain_id addr_zt) all
                      (fun j hj hne => HD j (lt_of_lt_of_le hj hfe) _
                        (mem_allZoneTypes _) hntm hne)
                      (fun j hj _ => HL j (lt_of_lt_of_le hj hfe))
                      (fun j k hj hk hne t tt x hx1 hx2 => by
                        have hs := HS j (lt_of_lt_of_le hj hfe) k
                          (lt_of_lt_of_le hk hfe) hne t
                          (mem_allZoneTypes t) tt (mem_allZoneTypes tt)
                        unfold inSlotRange at hx1 hx2
                        omega)
                      (zaFE zdev start_realm nr_zones
                        (zaOfs zdev start_realm zi) (zaSz zdev addr_zt)).1
                      start_realm (Nat.sub_le _ _) zdev
                      zbc_init_actv_results (nr_zones : Int)
                      (zaOfs zdev start_realm zi) rfl (fun x => rfl)
                      (fun j _ _ => rfl) (fun j _ _ x _ => rfl)
                    refine ⟨?_, rfl, ?_⟩
                    · exact zaWalk_dry _ _ start_realm (Nat.sub_le _ _)
                        zdev _ _ _ _ _ all
                    · rw [← hsim.1, ← hsim.2]
                      rfl

/-- C1: ZONE QUERY is a faithful dry run of ZONE ACTIVATE: on a
structurally well-formed device (at least one realm, a domain carrying
each activatable type, nonempty current realm slots, pairwise disjoint
realm slot ranges), a QUERY returns the same command status and exactly
the same sequence of activation-result descriptor records that an
ACTIVATE with identical inputs from the same state would return, and
leaves the entire device state (zones, realms, lists, counters)
unchanged. -/
theorem zone_query_dry_run_equiv (zdev : ZDev)
    (start_lba nr_zones domain_id alloc_len : Nat) (all nozsrc : Bool)
    (iov_len : Nat)
    (HR : 1 ≤ zdev.nr_realms)
    (HD : ∀ j, j < zdev.nr_realms → ∀ t ∈ allZoneTypes,
      (∃ d ∈ zdev.domains, d.type = t) → (getRealm zdev j).type ≠ t →
      zbc_domain_id zdev (getRealm zdev j).type ≠ none ∧
        zbc_domain_id zdev t ≠ none)
    (HL : ∀ j, j < zdev.nr_realms →
      1 ≤ zbc_realm_length (getRealm zdev j) (getRealm zdev j).type)
    (HS : ∀ j, j < zdev.nr_realms → ∀ k, k < zdev.nr_realms → j ≠ k →
      ∀ t ∈ allZoneTypes, ∀ tt ∈ allZoneTypes,
        (zbc_get_realm_item (getRealm zdev j) t).start_zone +
            zbc_realm_length (getRealm zdev j) t ≤
          (zbc_get_realm_item (getRealm zdev k) tt).start_zone ∨
        (zbc_get_realm_item (getRealm zdev k) tt).start_zone +
            zbc_realm_length (getRealm zdev k) tt ≤
          (zbc_get_realm_item (getRealm zdev j) t).start_zone) :
    (zbc_zone_activate zdev start_lba nr_zones domain_id alloc_len all
      nozsrc true iov_len).2.1 = zdev ∧
    (zbc_zone_activate zdev start_lba nr_zones domain_id alloc_len all
      nozsrc true iov_len).1 =
      (zbc_zone_activate zdev start_lba nr_zones domain_id alloc_len all
        nozsrc false iov_len).1 ∧
    ((zbc_zone_activate zdev start_lba nr_zones domain_id alloc_len all
      nozsrc true iov_len).2.2).map ZaOutput.descs =
      ((zbc_zone_activate zdev start_lba nr_zones domain_id alloc_len all
        nozsrc false iov_len).2.2).map ZaOutput.descs := by
  unfold zbc_zone_activate
  split
  · exact ⟨rfl, rfl, rfl⟩
  · rename_i hge
    exact za_body_query_sim zdev _ _ domain_id alloc_len all nozsrc iov_len
      (by omega) HR HD HL HS

theorem zone_query_dry_run_equiv_witness :
    (zbc_zone_activate actC6dev 0 4 1 128 false false true 128).2.1 =
        actC6dev ∧
    (zbc_zone_activate actC6dev 0 4 1 128 false false true 128).1 =
      (zbc_zone_activate actC6dev 0 4 1 128 false false false 128).1 ∧
    ((zbc_zone_activate actC6dev 0 4 1 128 false false true 128).2.2).map
        ZaOutput.descs =
      ((zbc_zone_activate actC6dev 0 4 1 128 false false false 128).2.2).map
        ZaOutput.descs :=
  zone_query_dry_run_equiv actC6dev 0 4 1 128 false false 128 (by decide)
    (by decide) (by decide) (by decide)

/-! ## C2/C3: the list-membership and open-budget invariants -/

/-- The zone list (if any) that a zone in the given condition must be
linked into: the implicit/explicit open and closed lists match their
conditions, EMPTY and FULL zones live on the sequential-active list, and
the remaining conditions are linked nowhere. -/
def condListOf : ZoneCond → Option WhichList
  | ZoneCond.impOpen => some WhichList.impOpenList
  | ZoneCond.expOpen => some WhichList.expOpenList
  | ZoneCond.closed => some WhichList.closedList
  | ZoneCond.empty => some WhichList.seqActiveList
  | ZoneCond.full => some WhichList.seqActiveList
  | _ => none

/-- Number of implicitly open SWR zones (the set zdev->nr_imp_open
tracks). -/
def cntImp (s : ZDev) : Nat :=
  s.zones.countP (fun z => decide (z.type = ZoneType.seqWriteReq ∧
    z.cond = ZoneCond.impOpen))

/-- Number of explicitly open SWR zones (the set zdev->nr_exp_open
tracks). -/
def cntExp (s : ZDev) : Nat :=
  s.zones.countP (fun z => decide (z.type = ZoneType.seqWriteReq ∧
    z.cond = ZoneCond.expOpen))

/-- Number of open (implicitly or explicitly) SWR zones. -/
def cntOpen (s : ZDev) : Nat :=
  s.zones.countP (fun z => decide (z.type = ZoneType.seqWriteReq ∧
    (z.cond = ZoneCond.impOpen ∨ z.cond = ZoneCond.expOpen)))

/-- Realm slot data that the zone-activation engine never modifies. -/
def realmSlots (r : ZoneRealm) : RealmItem × RealmItem × RealmItem ×
    RealmItem :=
  (r.riConv, r.riSwr, r.riSwp, r.riSobr)

/-- State components no command handler may change: zone types, realm
slot tables and the configured open-zone limit. -/
def opFrame (s s2 : ZDev) : Prop :=
  s2.zones.map Zone.type = s.zones.map Zone.type ∧
  s2.realms.map realmSlots = s.realms.map realmSlots ∧
  s2.nr_open_zones = s.nr_open_zones

/-- Structural invariant of the device state: the four zone lists are
duplicate-free index lists over the zone array, a zone is linked exactly
in the list its condition demands, conventional and gap zones never take
a linked condition, the SWR open counters dominate the true open-SWR
counts, the number of open SWR zones never exceeds the open-zone limit,
and realm slots stay inside the zone array with correctly typed zones. -/
structure Inv (s : ZDev) : Prop where
  nodup : ∀ w, (getList s w).Nodup
  bounded : ∀ w, ∀ i ∈ getList s w, i < s.nr_zones
  mem_iff : ∀ w, ∀ i, i < s.nr_zones →
    (i ∈ getList s w ↔ condListOf (getZone s i).cond = some w)
  convgap : ∀ i, i < s.nr_zones →
    (getZone s i).type = ZoneType.conventional ∨
      (getZone s i).type = ZoneType.gap →
    condListOf (getZone s i).cond = none
  imp_le : cntImp s ≤ s.nr_imp_open
  exp_le : cntExp s ≤ s.nr_exp_open
  budget : cntImp s + cntExp s ≤ s.nr_open_zones
  slots : ∀ ri, ri < s.nr_realms → ∀ t ∈ allZoneTypes, ∀ k,
    k < zbc_realm_length (getRealm s ri) t →
    (zbc_get_realm_item (getRealm s ri) t).start_zone + k < s.nr_zones ∧
    (getZone s ((zbc_get_realm_item (getRealm s ri) t).start_zone + k)).type
      = t

lemma getList_congr8 (s s2 : ZDev)
    (h1 : s2.imp_open_zones = s.imp_open_zones)
    (h2 : s2.exp_open_zones = s.exp_open_zones)
    (h3 : s2.closed_zones = s.closed_zones)
    (h4 : s2.seq_active_zones = s.seq_active_zones) :
    ∀ w, getList s2 w = getList s w := by
  intro w
  cases w <;> simp [getList, h1, h2, h3, h4]

lemma Inv_transfer (s s2 : ZDev) (hz : s2.zones = s.zones)
    (h1 : s2.imp_open_zones = s.imp_open_zones)
    (h2 : s2.exp_open_zones = s.exp_open_zones)
    (h3 : s2.closed_zones = s.closed_zones)
    (h4 : s2.seq_active_zones = s.seq_active_zones)
    (h5 : s2.nr_imp_open = s.nr_imp_open)
    (h6 : s2.nr_exp_open = s.nr_exp_open)
    (h7 : s2.nr_open_zones = s.nr_open_zones)
    (h8 : s2.realms = s.realms)
    (hI : Inv s) : Inv s2 := by
  have hl := getList_congr8 s s2 h1 h2 h3 h4
  have hgz : ∀ i, getZone s2 i = getZone s i := by
    intro i; unfold getZone; rw [hz]
  have hnr : s2.nr_zones = s.nr_zones := by
    unfold ZDev.nr_zones; rw [hz]
  have hre : ∀ i, getRealm s2 i = getRealm s i := by
    intro i; unfold getRealm; rw [h8]
  have hnre : s2.nr_realms = s.nr_realms := by
    unfold ZDev.nr_realms; rw [h8]
  refine ⟨?_, ?_, ?_, ?_, ?_, ?_, ?_, ?_⟩
  · intro w; rw [hl w]; exact hI.nodup w
  · intro w i hi; rw [hnr]; exact hI.bounded w i (by rw [hl w] at hi; exact hi)
  · intro w i hi; rw [hl w, hgz i]; exact hI.mem_iff w i (by omega)
  · intro i hi ht; rw [hgz i]
    exact hI.convgap i (by omega) (by rw [hgz i] at ht; exact ht)
  · unfold cntImp; rw [hz, h5]; exact hI.imp_le
  · unfold cntExp; rw [hz, h6]; exact hI.exp_le
  · unfold cntImp cntExp; rw [hz, h7]; exact hI.budget
  · intro ri hri t htm k hk
    rw [hre ri] at hk ⊢
    rw [hnr, hgz]
    exact hI.slots ri (by omega) t htm k hk

lemma opFrame_rfl (s : ZDev) : opFrame s s := ⟨rfl, rfl, rfl⟩

lemma opFrame_trans {s1 s2 s3 : ZDev} (h1 : opFrame s1 s2)
    (h2 : opFrame s2 s3) : opFrame s1 s3 :=
  ⟨h2.1.trans h1.1, h2.2.1.trans h1.2.1, h2.2.2.trans h1.2.2⟩

lemma nr_zones_of_frame {s s2 : ZDev} (h : opFrame s s2) :
    s2.nr_zones = s.nr_zones := by
  have hlen := congrArg List.length h.1
  simpa [ZDev.nr_zones] using hlen

lemma getZone_type_of_map_eq {l l2 : List Zone}
    (hm : l2.map Zone.type = l.map Zone.type) (i : Nat) :
    (l2.getD i default).type = (l.getD i default).type := by
  have h := congrArg (fun t => t[i]?) hm
  simp only [List.getElem?_map] at h
  rw [List.getD_eq_getElem?_getD, List.getD_eq_getElem?_getD]
  rcases hx : l2[i]? with _ | z
  · rw [hx] at h
    rcases hy : l[i]? with _ | z2
    · rfl
    · rw [hy] at h; exact absurd h (by simp)
  · rw [hx] at h
    rcases hy : l[i]? with _ | z2
    · rw [hy] at h; exact absurd h (by simp)
    · rw [hy] at h
      simpa using h

lemma getZone_type_of_frame {s s2 : ZDev} (h : opFrame s s2) (i : Nat) :
    (getZone s2 i).type = (getZone s i).type :=
  getZone_type_of_map_eq h.1 i

lemma getRealm_slots_of_frame {s s2 : ZDev} (h : opFrame s s2) (i : Nat) :
    realmSlots (getRealm s2 i) = realmSlots (getRealm s i) := by
  have hh := congrArg (fun t => t[i]?) h.2.1
  simp only [List.getElem?_map] at hh
  unfold getRealm
  rw [List.getD_eq_getElem?_getD, List.getD_eq_getElem?_getD]
  rcases hx : s2.realms[i]? with _ | r
  · rw [hx] at hh
    rcases hy : s.realms[i]? with _ | r2
    · rfl
    · exact absurd ((hy ▸ hh) : _) (by simp)
  · rw [hx] at hh
    rcases hy : s.realms[i]? with _ | r2
    · rw [hy] at hh; exact absurd hh (by simp)
    · rw [hy] at hh
      simpa using hh

lemma nr_realms_of_frame {s s2 : ZDev} (h : opFrame s s2) :
    s2.nr_realms = s.nr_realms := by
  have hlen := congrArg List.length h.2.1
  simpa [ZDev.nr_realms] using hlen

lemma item_of_slots {r r2 : ZoneRealm} (h : realmSlots r2 = realmSlots r)
    (t : ZoneType) : zbc_get_realm_item r2 t = zbc_get_realm_item r t := by
  unfold realmSlots at h
  cases t <;> simp only [zbc_get_realm_item] <;>
    first
      | exact congrArg (fun q => q.1) h
      | exact congrArg (fun q => q.2.1) h
      | exact congrArg (fun q => q.2.2.1) h
      | exact congrArg (fun q => q.2.2.2) h
      | rfl

/-- The realm-slot component of the invariant only depends on the frame
and the zone types. -/
lemma slots_of_frame {s s2 : ZDev} (hf : opFrame s s2)
    (hs : ∀ ri, ri < s.nr_realms → ∀ t ∈ allZoneTypes, ∀ k,
      k < zbc_realm_length (getRealm s ri) t →
      (zbc_get_realm_item (getRealm s ri) t).start_zone + k < s.nr_zones ∧
      (getZone s ((zbc_get_realm_item (getRealm s ri) t).start_zone + k)).type
        = t) :
    ∀ ri, ri < s2.nr_realms → ∀ t ∈ allZoneTypes, ∀ k,
      k < zbc_realm_length (getRealm s2 ri) t →
      (zbc_get_realm_item (getRealm s2 ri) t).start_zone + k < s2.nr_zones ∧
      (getZone s2 ((zbc_get_realm_item (getRealm s2 ri) t).start_zone +
        k)).type = t := by
  intro ri hri t htm k hk
  have hit := item_of_slots (getRealm_slots_of_frame hf ri) t
  rw [nr_realms_of_frame hf] at hri
  unfold zbc_realm_length at hk
  rw [hit] at hk ⊢
  rw [nr_zones_of_frame hf, getZone_type_of_frame hf]
  exact hs ri hri t htm k hk

lemma countP_set_zones (p : Zone → Bool) :
    ∀ (l : List Zone) (i : Nat) (z : Zone), i < l.length →
    (l.set i z).countP p + (if p (l.getD i default) then 1 else 0) =
      l.countP p + (if p z then 1 else 0) := by
  intro l
  induction l with
  | nil => intro i z hi; exact absurd hi (by simp)
  | cons a t IH =>
    intro i z hi
    cases i with
    | zero =>
      simp only [List.set_cons_zero, List.countP_cons, List.getD_cons_zero]
      omega
    | succ n =>
      simp only [List.set_cons_succ, List.countP_cons, List.getD_cons_succ]
      have := IH n z (by simpa using hi)
      omega

lemma countP_pos_of_getD (p : Zone → Bool) (l : List Zone) (i : Nat)
    (hi : i < l.length) (hp : p (l.getD i default) = true) :
    1 ≤ l.countP p := by
  have hmem : l.getD i default ∈ l := by
    rw [List.getD_eq_getElem l default hi]
    exact List.getElem_mem hi
  exact List.countP_pos.mpr ⟨_, hmem, hp⟩

lemma getZone_set_self (s : ZDev) (i : Nat) (z : Zone)
    (h : i < s.nr_zones) : getZone (setZone s i z) i = z := by
  unfold getZone setZone
  simp only [List.getD_eq_getElem?_getD, List.getElem?_set_self (by exact h)]
  rfl

lemma getList_setList (s : ZDev) (w : WhichList) (l : List Nat)
    (w2 : WhichList) :
    getList (setList s w l) w2 = if w2 = w then l else getList s w2 := by
  cases w <;> cases w2 <;> simp [getList, setList]

lemma setList_core (s : ZDev) (w : WhichList) (l : List Nat) :
    (setList s w l).zones = s.zones ∧
    (setList s w l).nr_imp_open = s.nr_imp_open ∧
    (setList s w l).nr_exp_open = s.nr_exp_open ∧
    (setList s w l).nr_open_zones = s.nr_open_zones ∧
    (setList s w l).realms = s.realms ∧
    (setList s w l).nr_zones = s.nr_zones := by
  cases w <;> exact ⟨rfl, rfl, rfl, rfl, rfl, rfl⟩

/-- Components of the state that determine the invariant. -/
def coreEq (s s2 : ZDev) : Prop :=
  s2.zones = s.zones ∧ (∀ w, getList s2 w = getList s w) ∧
  s2.nr_imp_open = s.nr_imp_open ∧ s2.nr_exp_open = s.nr_exp_open ∧
  s2.nr_open_zones = s.nr_open_zones ∧ s2.realms = s.realms

lemma Inv_of_coreEq {s s2 : ZDev} (hc : coreEq s s2) (hI : Inv s) :
    Inv s2 :=
  Inv_transfer s s2 hc.1 (hc.2.1 WhichList.impOpenList)
    (hc.2.1 WhichList.expOpenList) (hc.2.1 WhichList.closedList)
    (hc.2.1 WhichList.seqActiveList) hc.2.2.1 hc.2.2.2.1 hc.2.2.2.2.1
    hc.2.2.2.2.2 hI

lemma opFrame_of_coreEq {s s2 : ZDev} (hc : coreEq s s2) : opFrame s s2 :=
  ⟨by rw [hc.1], by rw [hc.2.2.2.2.2], hc.2.2.2.2.1⟩

lemma on_cond_change_coreEq (s : ZDev) (i : Nat) (c : ZoneCond) :
    coreEq s (zbc_on_cond_change s i c) := by
  unfold zbc_on_cond_change
  split
  · dsimp only
    split
    · exact ⟨rfl, fun w => by cases w <;> rfl, rfl, rfl, rfl, rfl⟩
    · exact ⟨rfl, fun w => by cases w <;> rfl, rfl, rfl, rfl, rfl⟩
  · exact ⟨rfl, fun w => by cases w <;> rfl, rfl, rfl, rfl, rfl⟩

lemma unlink_spec (s : ZDev) (i : Nat)
    (hnd : ∀ w, (getList s w).Nodup)
    (hbd : ∀ w, ∀ x ∈ getList s w, x < s.nr_zones)
    (hmi : ∀ w, ∀ x, x < s.nr_zones →
      (x ∈ getList s w ↔ condListOf (getZone s x).cond = some w)) :
    (zbc_unlink_zone s i).zones = s.zones ∧
    (zbc_unlink_zone s i).nr_imp_open = s.nr_imp_open ∧
    (zbc_unlink_zone s i).nr_exp_open = s.nr_exp_open ∧
    (zbc_unlink_zone s i).nr_open_zones = s.nr_open_zones ∧
    (zbc_unlink_zone s i).realms = s.realms ∧
    (∀ w, (getList (zbc_unlink_zone s i) w).Nodup) ∧
    (∀ w j, j ≠ i →
      (j ∈ getList (zbc_unlink_zone s i) w ↔ j ∈ getList s w)) ∧
    (∀ w, i ∉ getList (zbc_unlink_zone s i) w) ∧
    (∀ w j, j ∈ getList (zbc_unlink_zone s i) w → j ∈ getList s w) := by
  by_cases hnl : zbc_zone_not_in_list s i
  · rw [zbc_unlink_zone, if_pos hnl]
    refine ⟨rfl, rfl, rfl, rfl, rfl, hnd, fun w j _ => Iff.rfl, ?_,
      fun w j h => h⟩
    intro w
    cases w
    · exact hnl.1
    · exact hnl.2.1
    · exact hnl.2.2.1
    · exact hnl.2.2.2
  · have hin : i ∈ s.imp_open_zones ∨ i ∈ s.exp_open_zones ∨
        i ∈ s.closed_zones ∨ i ∈ s.seq_active_zones := by
      by_contra hcon
      push_neg at hcon
      exact hnl ⟨hcon.1, hcon.2.1, hcon.2.2.1, hcon.2.2.2⟩
    have hilt : i < s.nr_zones := by
      rcases hin with h | h | h | h
      · exact hbd WhichList.impOpenList i h
      · exact hbd WhichList.expOpenList i h
      · exact hbd WhichList.closedList i h
      · exact hbd WhichList.seqActiveList i h
    have hw0 : ∃ w0, condListOf (getZone s i).cond = some w0 := by
      rcases hin with h | h | h | h
      · exact ⟨_, (hmi WhichList.impOpenList i hilt).mp h⟩
      · exact ⟨_, (hmi WhichList.expOpenList i hilt).mp h⟩
      · exact ⟨_, (hmi WhichList.closedList i hilt).mp h⟩
      · exact ⟨_, (hmi WhichList.seqActiveList i hilt).mp h⟩
    obtain ⟨w0, hw0⟩ := hw0
    have hrm : zbc_unlink_zone s i = zbc_remove_zone s w0 i := by
      cases hc : (getZone s i).cond
      all_goals simp only [condListOf, hc] at hw0
      all_goals first
        | exact Option.noConfusion hw0
        | (rw [← Option.some.inj hw0, zbc_unlink_zone, if_neg hnl, hc])
    rw [hrm]
    unfold zbc_remove_zone
    obtain ⟨hz, h1, h2, h3, h4, _⟩ := setList_core s w0
      ((getList s w0).erase i)
    refine ⟨hz, h1, h2, h3, h4, ?_, ?_, ?_, ?_⟩
    · intro w
      rw [getList_setList]
      split
      · exact (hnd w0).erase i
      · exact hnd w
    · intro w j hji
      rw [getList_setList]
      split
      · rename_i hww
        subst hww
        exact (hnd w).mem_erase_iff.trans
          (by simp [hji])
      · exact Iff.rfl
    · intro w
      rw [getList_setList]
      split
      · rename_i hww
        subst hww
        intro hmem
        exact absurd ((hnd w).mem_erase_iff.mp hmem).1 (by simp)
      · rename_i hww
        intro hmem
        have := (hmi w i hilt).mp hmem
        rw [hw0] at this
        exact hww (Option.some.inj this).symm
    · intro w j
      rw [getList_setList]
      split
      · rename_i hww
        subst hww
        exact fun hmem => List.mem_of_mem_erase hmem
      · exact fun h => h

lemma cntImp_setZone (s : ZDev) (i : Nat) (z : Zone)
    (hi : i < s.nr_zones) :
    cntImp (setZone s i z) +
      (if (getZone s i).type = ZoneType.seqWriteReq ∧
          (getZone s i).cond = ZoneCond.impOpen then 1 else 0) =
    cntImp s + (if z.type = ZoneType.seqWriteReq ∧
      z.cond = ZoneCond.impOpen then 1 else 0) := by
  unfold cntImp setZone getZone
  have := countP_set_zones (fun z => decide (z.type = ZoneType.seqWriteReq ∧
    z.cond = ZoneCond.impOpen)) s.zones i z hi
  simp only [decide_eq_true_eq] at this ⊢
  exact this

lemma cntExp_setZone (s : ZDev) (i : Nat) (z : Zone)
    (hi : i < s.nr_zones) :
    cntExp (setZone s i z) +
      (if (getZone s i).type = ZoneType.seqWriteReq ∧
          (getZone s i).cond = ZoneCond.expOpen then 1 else 0) =
    cntExp s + (if z.type = ZoneType.seqWriteReq ∧
      z.cond = ZoneCond.expOpen then 1 else 0) := by
  unfold cntExp setZone getZone
  have := countP_set_zones (fun z => decide (z.type = ZoneType.seqWriteReq ∧
    z.cond = ZoneCond.expOpen)) s.zones i z hi
  simp only [decide_eq_true_eq] at this ⊢
  exact this

lemma cntImp_pos (s : ZDev) (i : Nat) (hi : i < s.nr_zones)
    (ht : (getZone s i).type = ZoneType.seqWriteReq)
    (hc : (getZone s i).cond = ZoneCond.impOpen) : 1 ≤ cntImp s := by
  unfold cntImp
  exact countP_pos_of_getD _ s.zones i hi (by
    simp only [decide_eq_true_eq]
    exact ⟨ht, hc⟩)

lemma cntExp_pos (s : ZDev) (i : Nat) (hi : i < s.nr_zones)
    (ht : (getZone s i).type = ZoneType.seqWriteReq)
    (hc : (getZone s i).cond = ZoneCond.expOpen) : 1 ≤ cntExp s := by
  unfold cntExp
  exact countP_pos_of_getD _ s.zones i hi (by
    simp only [decide_eq_true_eq]
    exact ⟨ht, hc⟩)

lemma getList_setZone (s : ZDev) (i : Nat) (z : Zone) (w : WhichList) :
    getList (setZone s i z) w = getList s w := by
  cases w <;> rfl

lemma nodup_append_single {l : List Nat} {a : Nat} (h : l.Nodup)
    (ha : a ∉ l) : (l ++ [a]).Nodup := by
  rw [List.nodup_append]
  exact ⟨h, List.nodup_singleton a, by
    intro x hx hxa
    rw [List.mem_singleton] at hxa
    subst hxa
    exact ha hx⟩

lemma list_set_getD {α : Type} [Inhabited α] :
    ∀ (l : List α) (i : Nat), l.set i (l.getD i default) = l := by
  intro l
  induction l with
  | nil => intro i; rfl
  | cons a t IH =>
    intro i
    cases i with
    | zero => rfl
    | succ n => simp only [List.getD_cons_succ, List.set_cons_succ, IH]

instance : Inhabited ZoneType := ⟨ZoneType.conventional⟩

lemma map_type_set_same (l : List Zone) (i : Nat) (z : Zone)
    (h : z.type = (l.getD i default).type) :
    (l.set i z).map Zone.type = l.map Zone.type := by
  by_cases hi : i < l.length
  · rw [List.map_set, h]
    have hgd : (l.getD i default).type =
        (l.map Zone.type).getD i default := by
      rw [List.getD_eq_getElem l default hi,
        List.getD_eq_getElem (l.map Zone.type) default (by simpa using hi)]
      simp
    rw [hgd, list_set_getD]
  · rw [List.set_eq_of_length_le (by omega)]

/-- Re-link surgery: take a zone out of the lists, overwrite its
descriptor and re-link it at the head or tail of a target list.  This is
the shape shared by the mutation paths of the zone state machine. -/
def relink (s : ZDev) (i : Nat) (z2 : Zone) (head : Bool)
    (w : WhichList) : ZDev :=
  if head then
    zbc_add_zone_head (setZone (zbc_unlink_zone s i) i z2) w i
  else
    zbc_add_zone_tail (setZone (zbc_unlink_zone s i) i z2) w i

lemma relink_spec (s : ZDev) (i : Nat) (z2 : Zone) (head : Bool)
    (w : WhichList)
    (hnd : ∀ w2, (getList s w2).Nodup)
    (hbd : ∀ w2, ∀ x ∈ getList s w2, x < s.nr_zones)
    (hmi : ∀ w2, ∀ x, x < s.nr_zones →
      (x ∈ getList s w2 ↔ condListOf (getZone s x).cond = some w2))
    (hi : i < s.nr_zones) (hw : condListOf z2.cond = some w) :
    (relink s i z2 head w).zones = s.zones.set i z2 ∧
    (relink s i z2 head w).nr_imp_open = s.nr_imp_open ∧
    (relink s i z2 head w).nr_exp_open = s.nr_exp_open ∧
    (relink s i z2 head w).nr_open_zones = s.nr_open_zones ∧
    (relink s i z2 head w).realms = s.realms ∧
    (∀ w2, (getList (relink s i z2 head w) w2).Nodup) ∧
    (∀ w2, ∀ x ∈ getList (relink s i z2 head w) w2, x < s.nr_zones) ∧
    (∀ w2, ∀ x, x < s.nr_zones →
      (x ∈ getList (relink s i z2 head w) w2 ↔
        condListOf (getZone (relink s i z2 head w) x).cond = some w2)) ∧
    getZone (relink s i z2 head w) i = z2 ∧
    (∀ j, j ≠ i → getZone (relink s i z2 head w) j = getZone s j) ∧
    (∀ w2, getList (relink s i z2 head w) w2 =
      if w2 = w then
        (if head then
          i :: getList (zbc_unlink_zone s i) w
        else getList (zbc_unlink_zone s i) w ++ [i])
      else getList (zbc_unlink_zone s i) w2) := by
  obtain ⟨Uz, Ui, Ue, Uo, Ur, Und, Umem, Unot, Usub⟩ :=
    unlink_spec s i hnd hbd hmi
  have hXz : (setZone (zbc_unlink_zone s i) i z2).zones = s.zones.set i z2 :=
    by unfold setZone; rw [Uz]
  have hlist : ∀ w2, getList (relink s i z2 head w) w2 =
      if w2 = w then
        (if head then
          i :: getList (zbc_unlink_zone s i) w
        else getList (zbc_unlink_zone s i) w ++ [i])
      else getList (zbc_unlink_zone s i) w2 := by
    intro w2
    unfold relink zbc_add_zone_head zbc_add_zone_tail
    rcases Decidable.em (head = true) with hh | hh
    · rw [if_pos hh, if_pos hh, getList_setList, getList_setZone]
      rcases Decidable.em (w2 = w) with hww | hww
      · subst hww; rw [if_pos rfl, if_pos rfl]
      · rw [if_neg hww, if_neg hww, getList_setZone]
    · rw [if_neg hh, if_neg hh, getList_setList, getList_setZone]
      rcases Decidable.em (w2 = w) with hww | hww
      · subst hww; rw [if_pos rfl, if_pos rfl]
      · rw [if_neg hww, if_neg hww, getList_setZone]
  have hgz : ∀ x, getZone (relink s i z2 head w) x =
      getZone (setZone (zbc_unlink_zone s i) i z2) x := by
    intro x
    unfold relink zbc_add_zone_head zbc_add_zone_tail
    split
    · exact getZone_setList _ _ _ x
    · exact getZone_setList _ _ _ x
  have hgzi : getZone (relink s i z2 head w) i = z2 := by
    rw [hgz i]
    unfold getZone
    rw [hXz]
    rw [List.getD_eq_getElem?_getD, List.getElem?_set_self (by exact hi)]
    rfl
  have hgzj : ∀ j, j ≠ i → getZone (relink s i z2 head w) j = getZone s j :=
    by
    intro j hj
    rw [hgz j, getZone_setZone_ne _ _ _ _ (fun hh => hj hh.symm),
      getZone_congr_zones _ _ _ Uz]
  have hzz : (relink s i z2 head w).zones = s.zones.set i z2 := by
    unfold relink zbc_add_zone_head zbc_add_zone_tail
    split
    · rw [(setList_core _ _ _).1]; exact hXz
    · rw [(setList_core _ _ _).1]; exact hXz
  have hctr : (relink s i z2 head w).nr_imp_open = s.nr_imp_open ∧
      (relink s i z2 head w).nr_exp_open = s.nr_exp_open ∧
      (relink s i z2 head w).nr_open_zones = s.nr_open_zones ∧
      (relink s i z2 head w).realms = s.realms := by
    unfold relink zbc_add_zone_head zbc_add_zone_tail
    split
    · obtain ⟨_, a1, a2, a3, a4, _⟩ := setList_core
        (setZone (zbc_unlink_zone s i) i z2) w
        (i :: getList (setZone (zbc_unlink_zone s i) i z2) w)
      exact ⟨a1.trans Ui, a2.trans Ue, a3.trans Uo, a4.trans Ur⟩
    · obtain ⟨_, a1, a2, a3, a4, _⟩ := setList_core
        (setZone (zbc_unlink_zone s i) i z2) w
        (getList (setZone (zbc_unlink_zone s i) i z2) w ++ [i])
      exact ⟨a1.trans Ui, a2.trans Ue, a3.trans Uo, a4.trans Ur⟩
  refine ⟨hzz, hctr.1, hctr.2.1, hctr.2.2.1, hctr.2.2.2, ?_, ?_, ?_, hgzi,
    hgzj, hlist⟩
  · intro w2
    rw [hlist w2]
    rcases Decidable.em (w2 = w) with hww | hww
    · rw [if_pos hww]
      rcases Decidable.em (head = true) with hh | hh
      · rw [if_pos hh]
        exact List.nodup_cons.mpr ⟨Unot _, Und _⟩
      · rw [if_neg hh]
        exact nodup_append_single (Und _) (Unot _)
    · rw [if_neg hww]
      exact Und w2
  · intro w2 x hx
    rw [hlist w2] at hx
    by_cases hxi : x = i
    · subst hxi; exact hi
    · have hx2 : x ∈ getList (zbc_unlink_zone s i) w2 := by
        rcases Decidable.em (w2 = w) with hww | hww
        · subst hww
          rw [if_pos rfl] at hx
          rcases Decidable.em (head = true) with hh | hh
          · rw [if_pos hh] at hx
            rcases List.mem_cons.mp hx with h | h
            · exact absurd h hxi
            · exact h
          · rw [if_neg hh] at hx
            rcases List.mem_append.mp hx with h | h
            · exact h
            · exact absurd (List.mem_singleton.mp h) hxi
        · rw [if_neg hww] at hx
          exact hx
      exact hbd w2 x (Usub w2 x hx2)
  · intro w2 x hx
    by_cases hxi : x = i
    · subst hxi
      rw [hgzi, hlist w2]
      constructor
      · intro hmem
        rcases Decidable.em (w2 = w) with hww | hww
        · subst hww; exact hw
        · rw [if_neg hww] at hmem
          exact absurd hmem (Unot w2)
      · intro hcl
        have hww : w2 = w := by
          rw [hw] at hcl
          exact (Option.some.inj hcl).symm
        subst hww
        rw [if_pos rfl]
        rcases Decidable.em (head = true) with hh | hh
        · rw [if_pos hh]
          exact List.mem_cons_self _ _
        · rw [if_neg hh]
          exact List.mem_append.mpr (Or.inr (List.mem_singleton.mpr rfl))
    · rw [hgzj x hxi, hlist w2]
      have hbase : x ∈ getList (zbc_unlink_zone s i) w2 ↔
          condListOf (getZone s x).cond = some w2 :=
        (Umem w2 x hxi).trans (hmi w2 x hx)
      rcases Decidable.em (w2 = w) with hww | hww
      · subst hww
        rw [if_pos rfl]
        rcases Decidable.em (head = true) with hh | hh
        · rw [if_pos hh]
          constructor
          · intro hmem
            rcases List.mem_cons.mp hmem with h | h
            · exact absurd h hxi
            · exact hbase.mp h
          · intro h
            exact List.mem_cons.mpr (Or.inr (hbase.mpr h))
        · rw [if_neg hh]
          constructor
          · intro hmem
            rcases List.mem_append.mp hmem with h | h
            · exact hbase.mp h
            · exact absurd (List.mem_singleton.mp h) hxi
          · intro h
            exact List.mem_append.mpr (Or.inl (hbase.mpr h))
      · rw [if_neg hww]
        exact hbase

lemma cntImp_congr {s s2 : ZDev} (h : s2.zones = s.zones) :
    cntImp s2 = cntImp s := by unfold cntImp; rw [h]

lemma cntExp_congr {s s2 : ZDev} (h : s2.zones = s.zones) :
    cntExp s2 = cntExp s := by unfold cntExp; rw [h]

lemma unlink_noop (s : ZDev) (i : Nat) (h : zbc_zone_not_in_list s i) :
    zbc_unlink_zone s i = s := by
  rw [zbc_unlink_zone, if_pos h]

/-- Congruence for the list output of zbc_unlink_zone: it only depends on
the zones and the lists. -/
lemma unlink_lists_congr (s s2 : ZDev) (i : Nat)
    (hz : s2.zones = s.zones)
    (h1 : s2.imp_open_zones = s.imp_open_zones)
    (h2 : s2.exp_open_zones = s.exp_open_zones)
    (h3 : s2.closed_zones = s.closed_zones)
    (h4 : s2.seq_active_zones = s.seq_active_zones) :
    ∀ w, getList (zbc_unlink_zone s2 i) w = getList (zbc_unlink_zone s i) w
    := by
  intro w
  unfold zbc_unlink_zone
  have hnl : zbc_zone_not_in_list s2 i ↔ zbc_zone_not_in_list s i := by
    unfold zbc_zone_not_in_list
    rw [h1, h2, h3, h4]
  have hgz : getZone s2 i = getZone s i := getZone_congr_zones _ _ _ hz
  by_cases hn : zbc_zone_not_in_list s i
  · rw [if_pos hn, if_pos (hnl.mpr hn)]
    exact getList_congr8 s s2 h1 h2 h3 h4 w
  · rw [if_neg hn, if_neg (fun hh => hn (hnl.mp hh)), hgz]
    cases hc : (getZone s i).cond
    all_goals dsimp only
    all_goals first
      | exact getList_congr8 s s2 h1 h2 h3 h4 w
      | (unfold zbc_remove_zone
         rw [getList_setList, getList_setList,
           getList_congr8 s s2 h1 h2 h3 h4, getList_congr8 s s2 h1 h2 h3 h4])

/-- Rebuild the invariant after a re-link surgery applied to a state CI
that differs from the invariant-carrying base state s only in counter
fields: the final state has the zones and lists of
`relink CI i z2 head w`, the target condition is linked into list w, and
the caller settles the counter arithmetic. -/
lemma Inv_like_relink (s CI sF : ZDev) (i : Nat) (z2 : Zone) (head : Bool)
    (w : WhichList) (hI : Inv s) (hi : i < s.nr_zones)
    (hCz : CI.zones = s.zones)
    (hC1 : CI.imp_open_zones = s.imp_open_zones)
    (hC2 : CI.exp_open_zones = s.exp_open_zones)
    (hC3 : CI.closed_zones = s.closed_zones)
    (hC4 : CI.seq_active_zones = s.seq_active_zones)
    (hzF : sF.zones = (relink CI i z2 head w).zones)
    (hlF : ∀ w2, getList sF w2 = getList (relink CI i z2 head w) w2)
    (hoF : sF.nr_open_zones = s.nr_open_zones)
    (hrF : sF.realms = s.realms)
    (htype : z2.type = (getZone s i).type)
    (hw : condListOf z2.cond = some w)
    (hncg : ¬ ((getZone s i).type = ZoneType.conventional ∨
      (getZone s i).type = ZoneType.gap))
    (Himp : cntImp s + (if z2.type = ZoneType.seqWriteReq ∧
        z2.cond = ZoneCond.impOpen then 1 else 0) ≤
      sF.nr_imp_open + (if (getZone s i).type = ZoneType.seqWriteReq ∧
        (getZone s i).cond = ZoneCond.impOpen then 1 else 0))
    (Hexp : cntExp s + (if z2.type = ZoneType.seqWriteReq ∧
        z2.cond = ZoneCond.expOpen then 1 else 0) ≤
      sF.nr_exp_open + (if (getZone s i).type = ZoneType.seqWriteReq ∧
        (getZone s i).cond = ZoneCond.expOpen then 1 else 0))
    (Hbud : cntImp s + (if z2.type = ZoneType.seqWriteReq ∧
        z2.cond = ZoneCond.impOpen then 1 else 0) + (cntExp s +
      (if z2.type = ZoneType.seqWriteReq ∧
        z2.cond = ZoneCond.expOpen then 1 else 0)) ≤
      s.nr_open_zones +
        (if (getZone s i).type = ZoneType.seqWriteReq ∧
          (getZone s i).cond = ZoneCond.impOpen then 1 else 0) +
        (if (getZone s i).type = ZoneType.seqWriteReq ∧
          (getZone s i).cond = ZoneCond.expOpen then 1 else 0)) :
    Inv sF ∧ opFrame s sF ∧ sF.nr_zones = s.nr_zones ∧
    getZone sF i = z2 ∧ (∀ j, j ≠ i → getZone sF j = getZone s j) := by
  have hgzCI : ∀ x, getZone CI x = getZone s x := by
    intro x; exact getZone_congr_zones _ _ _ hCz
  have hnrCI : CI.nr_zones = s.nr_zones := by
    unfold ZDev.nr_zones; rw [hCz]
  have hlCI := getList_congr8 s CI hC1 hC2 hC3 hC4
  obtain ⟨Rz, Ri, Re, Ro, Rr, Rnd, Rbd, Rmi, Rgi, Rgj, Rls⟩ :=
    relink_spec CI i z2 head w
      (fun w2 => by rw [hlCI w2]; exact hI.nodup w2)
      (fun w2 x hx => by
        rw [hnrCI]
        exact hI.bounded w2 x (by rw [hlCI w2] at hx; exact hx))
      (fun w2 x hx => by
        rw [hlCI w2, hgzCI x]
        exact hI.mem_iff w2 x (by omega))
      (by omega) hw
  have hzF2 : sF.zones = s.zones.set i z2 := by
    rw [hzF, Rz, hCz]
  have hframe : opFrame s sF := by
    refine ⟨?_, by rw [hrF], hoF⟩
    rw [hzF2]
    exact map_type_set_same s.zones i z2 htype
  have hnrz : sF.nr_zones = s.nr_zones := nr_zones_of_frame hframe
  have hgzR : ∀ x, getZone sF x = getZone (relink CI i z2 head w) x := by
    intro x
    exact getZone_congr_zones _ _ _ hzF
  have hgzi : getZone sF i = z2 := (hgzR i).trans Rgi
  have hgzj : ∀ j, j ≠ i → getZone sF j = getZone s j := by
    intro j hj
    exact ((hgzR j).trans (Rgj j hj)).trans (hgzCI j)
  have hcImp : cntImp sF + (if (getZone s i).type = ZoneType.seqWriteReq ∧
      (getZone s i).cond = ZoneCond.impOpen then 1 else 0) =
      cntImp s + (if z2.type = ZoneType.seqWriteReq ∧
        z2.cond = ZoneCond.impOpen then 1 else 0) := by
    rw [cntImp_congr (s := setZone s i z2) (by rw [hzF2]; rfl)]
    exact cntImp_setZone s i z2 hi
  have hcExp : cntExp sF + (if (getZone s i).type = ZoneType.seqWriteReq ∧
      (getZone s i).cond = ZoneCond.expOpen then 1 else 0) =
      cntExp s + (if z2.type = ZoneType.seqWriteReq ∧
        z2.cond = ZoneCond.expOpen then 1 else 0) := by
    rw [cntExp_congr (s := setZone s i z2) (by rw [hzF2]; rfl)]
    exact cntExp_setZone s i z2 hi
  refine ⟨⟨?_, ?_, ?_, ?_, ?_, ?_, ?_, ?_⟩, hframe, hnrz, hgzi, hgzj⟩
  · intro w2; rw [hlF w2]; exact Rnd w2
  · intro w2 x hx
    rw [hlF w2] at hx
    rw [hnrz, ← hnrCI]
    exact Rbd w2 x hx
  · intro w2 x hx
    rw [hlF w2, hgzR x]
    exact Rmi w2 x (by omega)
  · intro x hx ht
    by_cases hxi : x = i
    · subst hxi
      rw [hgzi] at ht
      rw [htype] at ht
      exact absurd ht hncg
    · rw [hgzj x hxi] at ht ⊢
      exact hI.convgap x (by omega) ht
  · omega
  · omega
  · rw [hoF]; omega
  · exact slots_of_frame hframe hI.slots

/-- Rebuild the invariant after unlink-and-rewrite surgery applied to a
state CI that differs from the invariant-carrying base state s only in
counter fields; the new condition is linked nowhere. -/
lemma Inv_like_unlinkset (s CI sF : ZDev) (i : Nat) (z2 : Zone)
    (hI : Inv s) (hi : i < s.nr_zones)
    (hCz : CI.zones = s.zones)
    (hC1 : CI.imp_open_zones = s.imp_open_zones)
    (hC2 : CI.exp_open_zones = s.exp_open_zones)
    (hC3 : CI.closed_zones = s.closed_zones)
    (hC4 : CI.seq_active_zones = s.seq_active_zones)
    (hzF : sF.zones = s.zones.set i z2)
    (hlF : ∀ w2, getList sF w2 = getList (zbc_unlink_zone CI i) w2)
    (hoF : sF.nr_open_zones = s.nr_open_zones)
    (hrF : sF.realms = s.realms)
    (htype : z2.type = (getZone s i).type)
    (hw : condListOf z2.cond = none)
    (Himp : cntImp s ≤ sF.nr_imp_open +
      (if (getZone s i).type = ZoneType.seqWriteReq ∧
        (getZone s i).cond = ZoneCond.impOpen then 1 else 0))
    (Hexp : cntExp s ≤ sF.nr_exp_open +
      (if (getZone s i).type = ZoneType.seqWriteReq ∧
        (getZone s i).cond = ZoneCond.expOpen then 1 else 0))
    (Hbud : sF.nr_open_zones = s.nr_open_zones) :
    Inv sF ∧ opFrame s sF ∧ sF.nr_zones = s.nr_zones ∧
    getZone sF i = z2 ∧ (∀ j, j ≠ i → getZone sF j = getZone s j) := by
  have hgzCI : ∀ x, getZone CI x = getZone s x := by
    intro x; exact getZone_congr_zones _ _ _ hCz
  have hnrCI : CI.nr_zones = s.nr_zones := by
    unfold ZDev.nr_zones; rw [hCz]
  have hlCI := getList_congr8 s CI hC1 hC2 hC3 hC4
  obtain ⟨Uz, Ui, Ue, Uo, Ur, Und, Umem, Unot, Usub⟩ :=
    unlink_spec CI i
      (fun w2 => by rw [hlCI w2]; exact hI.nodup w2)
      (fun w2 x hx => by
        rw [hnrCI]
        exact hI.bounded w2 x (by rw [hlCI w2] at hx; exact hx))
      (fun w2 x hx => by
        rw [hlCI w2, hgzCI x]
        exact hI.mem_iff w2 x (by omega))
  have hframe : opFrame s sF := by
    refine ⟨?_, by rw [hrF], hoF⟩
    rw [hzF]
    exact map_type_set_same s.zones i z2 htype
  have hnrz : sF.nr_zones = s.nr_zones := nr_zones_of_frame hframe
  have hgzi : getZone sF i = z2 := by
    unfold getZone
    rw [hzF]
    rw [List.getD_eq_getElem?_getD, List.getElem?_set_self (by exact hi)]
    rfl
  have hgzj : ∀ j, j ≠ i → getZone sF j = getZone s j := by
    intro j hj
    unfold getZone
    rw [hzF]
    rw [List.getD_eq_getElem?_getD,
      List.getElem?_set_ne (fun hh => hj hh.symm),
      ← List.getD_eq_getElem?_getD]
  have hcImp : cntImp sF + (if (getZone s i).type = ZoneType.seqWriteReq ∧
      (getZone s i).cond = ZoneCond.impOpen then 1 else 0) =
      cntImp s + (if z2.type = ZoneType.seqWriteReq ∧
        z2.cond = ZoneCond.impOpen then 1 else 0) := by
    rw [cntImp_congr (s := setZone s i z2) (by rw [hzF]; rfl)]
    exact cntImp_setZone s i z2 hi
  have hcExp : cntExp sF + (if (getZone s i).type = ZoneType.seqWriteReq ∧
      (getZone s i).cond = ZoneCond.expOpen then 1 else 0) =
      cntExp s + (if z2.type = ZoneType.seqWriteReq ∧
        z2.cond = ZoneCond.expOpen then 1 else 0) := by
    rw [cntExp_congr (s := setZone s i z2) (by rw [hzF]; rfl)]
    exact cntExp_setZone s i z2 hi
  have hz2imp : ¬ (z2.type = ZoneType.seqWriteReq ∧
      z2.cond = ZoneCond.impOpen) := by
    intro hh
    rw [hh.2] at hw
    exact Option.noConfusion hw
  have hz2exp : ¬ (z2.type = ZoneType.seqWriteReq ∧
      z2.cond = ZoneCond.expOpen) := by
    intro hh
    rw [hh.2] at hw
    exact Option.noConfusion hw
  rw [if_neg hz2imp] at hcImp
  rw [if_neg hz2exp] at hcExp
  refine ⟨⟨?_, ?_, ?_, ?_, ?_, ?_, ?_, ?_⟩, hframe, hnrz, hgzi, hgzj⟩
  · intro w2; rw [hlF w2]; exact Und w2
  · intro w2 x hx
    rw [hlF w2] at hx
    rw [hnrz]
    exact hI.bounded w2 x (by rw [← hlCI w2]; exact Usub w2 x hx)
  · intro w2 x hx
    rw [hlF w2]
    by_cases hxi : x = i
    · subst hxi
      rw [hgzi, hw]
      simp only [iff_false, reduceCtorEq]
      exact Unot w2
    · rw [hgzj x hxi]
      refine (Umem w2 x hxi).trans ?_
      rw [hlCI w2]
      exact hI.mem_iff w2 x (by omega)
  · intro x hx ht
    by_cases hxi : x = i
    · subst hxi
      rw [hgzi, hw]
    · rw [hgzj x hxi] at ht ⊢
      exact hI.convgap x (by omega) ht
  · omega
  · omega
  · rw [hoF]
    have := hI.budget
    have := hI.imp_le
    have := hI.exp_le
    omega
  · exact slots_of_frame hframe hI.slots

lemma unlink_counters (s : ZDev) (i : Nat) :
    (zbc_unlink_zone s i).nr_imp_open = s.nr_imp_open ∧
    (zbc_unlink_zone s i).nr_exp_open = s.nr_exp_open ∧
    (zbc_unlink_zone s i).nr_open_zones = s.nr_open_zones ∧
    (zbc_unlink_zone s i).realms = s.realms := by
  unfold zbc_unlink_zone
  split
  · exact ⟨rfl, rfl, rfl, rfl⟩
  · split
    all_goals first
      | exact ⟨rfl, rfl, rfl, rfl⟩
      | (unfold zbc_remove_zone
         obtain ⟨_, a1, a2, a3, a4, _⟩ := setList_core s _ _
         exact ⟨a1, a2, a3, a4⟩)

/-- One acted branch of __zbc_close_zone: relative to a counter-adjusted
state CI, the open zone i is re-linked with a non-open condition. -/
lemma close_branch (s CI : ZDev) (i : Nat) (hI : Inv s)
    (hi : i < s.nr_zones)
    (hop : (getZone s i).cond = ZoneCond.impOpen ∨
      (getZone s i).cond = ZoneCond.expOpen)
    (hCz : CI.zones = s.zones)
    (hC1 : CI.imp_open_zones = s.imp_open_zones)
    (hC2 : CI.exp_open_zones = s.exp_open_zones)
    (hC3 : CI.closed_zones = s.closed_zones)
    (hC4 : CI.seq_active_zones = s.seq_active_zones)
    (himpC : cntImp s ≤ CI.nr_imp_open +
      (if (getZone s i).type = ZoneType.seqWriteReq ∧
        (getZone s i).cond = ZoneCond.impOpen then 1 else 0))
    (hexpC : cntExp s ≤ CI.nr_exp_open +
      (if (getZone s i).type = ZoneType.seqWriteReq ∧
        (getZone s i).cond = ZoneCond.expOpen then 1 else 0))
    (c2 : ZoneCond) (head : Bool) (w : WhichList)
    (hw : condListOf c2 = some w)
    (hc2i : c2 ≠ ZoneCond.impOpen) (hc2e : c2 ≠ ZoneCond.expOpen) :
    ∀ sF : ZDev,
    sF.zones =
      (relink CI i { getZone s i with cond := c2 } head w).zones →
    (∀ w2, getList sF w2 =
      getList (relink CI i { getZone s i with cond := c2 } head w) w2) →
    sF.nr_imp_open = CI.nr_imp_open →
    sF.nr_exp_open = CI.nr_exp_open →
    sF.nr_open_zones = CI.nr_open_zones →
    sF.realms = CI.realms →
    CI.nr_open_zones = s.nr_open_zones →
    CI.realms = s.realms →
    Inv sF ∧ opFrame s sF ∧ sF.nr_zones = s.nr_zones ∧
    getZone sF i = { getZone s i with cond := c2 } ∧
    (∀ j, j ≠ i → getZone sF j = getZone s j) := by
  intro sF hzF hlF hiF heF hoF hrF hCo hCr
  have hncg : ¬ ((getZone s i).type = ZoneType.conventional ∨
      (getZone s i).type = ZoneType.gap) := by
    intro ht
    have hno := hI.convgap i hi ht
    rcases hop with hc | hc <;> rw [hc] at hno <;>
      exact Option.noConfusion hno
  have hbni : ¬ (({ getZone s i with cond := c2 } : Zone).type =
      ZoneType.seqWriteReq ∧
      ({ getZone s i with cond := c2 } : Zone).cond = ZoneCond.impOpen) :=
    fun hh => hc2i hh.2
  have hbne : ¬ (({ getZone s i with cond := c2 } : Zone).type =
      ZoneType.seqWriteReq ∧
      ({ getZone s i with cond := c2 } : Zone).cond = ZoneCond.expOpen) :=
    fun hh => hc2e hh.2
  exact Inv_like_relink s CI sF i { getZone s i with cond := c2 } head w
    hI hi hCz hC1 hC2 hC3 hC4 hzF hlF (hoF.trans hCo) (hrF.trans hCr) rfl
    hw hncg
    (by rw [if_neg hbni, hiF]; omega)
    (by rw [if_neg hbne, heF]; omega)
    (by
      rw [if_neg hbni, if_neg hbne]
      have := hI.budget
      omega)

lemma close_zone_spec (s : ZDev) (i : Nat) (hI : Inv s)
    (hi : i < s.nr_zones) :
    Inv (__zbc_close_zone s i) ∧
    opFrame s (__zbc_close_zone s i) ∧
    (__zbc_close_zone s i).nr_zones = s.nr_zones ∧
    (∀ j, j ≠ i → getZone (__zbc_close_zone s i) j = getZone s j) ∧
    ((getZone s i).cond ≠ ZoneCond.expOpen →
      (__zbc_close_zone s i).nr_exp_open = s.nr_exp_open) ∧
    ((getZone (__zbc_close_zone s i) i).cond ≠ ZoneCond.impOpen ∨
      __zbc_close_zone s i = s) ∧
    (((getZone s i).cond ≠ ZoneCond.impOpen ∧
      (getZone s i).cond ≠ ZoneCond.expOpen) → __zbc_close_zone s i = s) :=
  by
  unfold __zbc_close_zone
  dsimp only
  by_cases h1 : zbc_zone_conv (getZone s i) ∨
      ¬ zbc_zone_is_open (getZone s i)
  · rw [if_pos h1]
    exact ⟨hI, opFrame_rfl s, rfl, fun j _ => rfl, fun _ => rfl,
      Or.inr rfl, fun _ => rfl⟩
  · rw [if_neg h1]
    push_neg at h1
    obtain ⟨hnc, hopen⟩ := h1
    have hop : (getZone s i).cond = ZoneCond.impOpen ∨
        (getZone s i).cond = ZoneCond.expOpen := hopen
    by_cases h2 : zbc_zone_sobr (getZone s i)
    · rw [if_pos h2]
      exact ⟨hI, opFrame_rfl s, rfl, fun j _ => rfl, fun _ => rfl,
        Or.inr rfl, fun _ => rfl⟩
    · rw [if_neg h2]
      have hc7 : ¬ ((getZone s i).cond ≠ ZoneCond.impOpen ∧
          (getZone s i).cond ≠ ZoneCond.expOpen) := by
        rcases hop with hc | hc <;> exact fun hh => by
          first
            | exact hh.1 hc
            | exact hh.2 hc
      by_cases h4 : ¬ zbc_zone_seq_req (getZone s i)
      · rw [if_pos h4]
        have hexpc : (getZone s i).cond = ZoneCond.expOpen ∨ True :=
          Or.inr trivial
        have himpC : cntImp s ≤ s.nr_imp_open +
            (if (getZone s i).type = ZoneType.seqWriteReq ∧
              (getZone s i).cond = ZoneCond.impOpen then 1 else 0) := by
          have := hI.imp_le; omega
        have hexpC : cntExp s ≤ s.nr_exp_open +
            (if (getZone s i).type = ZoneType.seqWriteReq ∧
              (getZone s i).cond = ZoneCond.expOpen then 1 else 0) := by
          have := hI.exp_le; omega
        by_cases h3 : (getZone s i).wp = (getZone s i).start
        · rw [if_pos h3]
          have G := close_branch s (s) i hI hi hop
              rfl rfl rfl rfl rfl himpC hexpC ZoneCond.empty false
              WhichList.seqActiveList rfl (by simp) (by simp)
              ({ zbc_add_zone_tail (setZone (zbc_unlink_zone (s) i) i { getZone s i with cond := ZoneCond.empty }) WhichList.seqActiveList i with nr_empty_zones := (zbc_add_zone_tail (setZone (zbc_unlink_zone (s) i) i { getZone s i with cond := ZoneCond.empty }) WhichList.seqActiveList i).nr_empty_zones + 1 })
              rfl (fun w2 => by cases w2 <;> rfl)
              ((unlink_counters (s) i).1)
              ((unlink_counters (s) i).2.1)
              ((unlink_counters (s) i).2.2.1)
              ((unlink_counters (s) i).2.2.2)
              rfl rfl
          refine ⟨G.1, G.2.1, G.2.2.1, G.2.2.2.2, ?_, ?_, fun hh =>
            absurd hh hc7⟩
          · intro hne
            first
              | exact absurd hexpc hne
              | exact (unlink_counters (s) i).2.1
          · exact Or.inl (fun hh => absurd
              ((congrArg Zone.cond G.2.2.2.1).symm.trans hh) (by simp))
        · rw [if_neg h3]
          have G := close_branch s (s) i hI hi hop
              rfl rfl rfl rfl rfl himpC hexpC ZoneCond.closed true
              WhichList.closedList rfl (by simp) (by simp)
              (zbc_add_zone_head (setZone (zbc_unlink_zone (s) i) i { getZone s i with cond := ZoneCond.closed }) WhichList.closedList i)
              rfl (fun w2 => by cases w2 <;> rfl)
              ((unlink_counters (s) i).1)
              ((unlink_counters (s) i).2.1)
              ((unlink_counters (s) i).2.2.1)
              ((unlink_counters (s) i).2.2.2)
              rfl rfl
          refine ⟨G.1, G.2.1, G.2.2.1, G.2.2.2.2, ?_, ?_, fun hh =>
            absurd hh hc7⟩
          · intro hne
            first
              | exact absurd hexpc hne
              | exact (unlink_counters (s) i).2.1
          · exact Or.inl (fun hh => absurd
              ((congrArg Zone.cond G.2.2.2.1).symm.trans hh) (by simp))
      · rw [if_neg h4]
        rw [not_not] at h4
        by_cases h5 : zbc_zone_imp_open (getZone s i)
        · rw [if_pos h5]
          have hpos := cntImp_pos s i hi h4 h5
          have hle := hI.imp_le
          have himpC : cntImp s ≤
              ({ s with nr_imp_open := s.nr_imp_open - 1 } :
                ZDev).nr_imp_open +
              (if (getZone s i).type = ZoneType.seqWriteReq ∧
                (getZone s i).cond = ZoneCond.impOpen then 1 else 0) := by
            rw [if_pos ⟨h4, h5⟩]
            show cntImp s ≤ s.nr_imp_open - 1 + 1
            omega
          have hexpC : cntExp s ≤
              ({ s with nr_imp_open := s.nr_imp_open - 1 } :
                ZDev).nr_exp_open +
              (if (getZone s i).type = ZoneType.seqWriteReq ∧
                (getZone s i).cond = ZoneCond.expOpen then 1 else 0) := by
            have := hI.exp_le
            show cntExp s ≤ s.nr_exp_open + _
            omega
          by_cases h3 : (getZone s i).wp = (getZone s i).start
          · rw [if_pos h3]
            have G := close_branch s ({ s with nr_imp_open := s.nr_imp_open - 1 }) i hI hi hop
                rfl rfl rfl rfl rfl himpC hexpC ZoneCond.empty false
                WhichList.seqActiveList rfl (by simp) (by simp)
                ({ zbc_add_zone_tail (setZone (zbc_unlink_zone ({ s with nr_imp_open := s.nr_imp_open - 1 }) i) i { getZone s i with cond := ZoneCond.empty }) WhichList.seqActiveList i with nr_empty_zones := (zbc_add_zone_tail (setZone (zbc_unlink_zone ({ s with nr_imp_open := s.nr_imp_open - 1 }) i) i { getZone s i with cond := ZoneCond.empty }) WhichList.seqActiveList i).nr_empty_zones + 1 })
                rfl (fun w2 => by cases w2 <;> rfl)
                ((unlink_counters ({ s with nr_imp_open := s.nr_imp_open - 1 }) i).1)
                ((unlink_counters ({ s with nr_imp_open := s.nr_imp_open - 1 }) i).2.1)
                ((unlink_counters ({ s with nr_imp_open := s.nr_imp_open - 1 }) i).2.2.1)
                ((unlink_counters ({ s with nr_imp_open := s.nr_imp_open - 1 }) i).2.2.2)
                rfl rfl
            refine ⟨G.1, G.2.1, G.2.2.1, G.2.2.2.2, ?_, ?_, fun hh =>
              absurd hh hc7⟩
            · intro hne
              first
                | exact absurd hexpc hne
                | exact (unlink_counters ({ s with nr_imp_open := s.nr_imp_open - 1 }) i).2.1
            · exact Or.inl (fun hh => absurd
                ((congrArg Zone.cond G.2.2.2.1).symm.trans hh) (by simp))
          · rw [if_neg h3]
            have G := close_branch s ({ s with nr_imp_open := s.nr_imp_open - 1 }) i hI hi hop
                rfl rfl rfl rfl rfl himpC hexpC ZoneCond.closed true
                WhichList.closedList rfl (by simp) (by simp)
                (zbc_add_zone_head (setZone (zbc_unlink_zone ({ s with nr_imp_open := s.nr_imp_open - 1 }) i) i { getZone s i with cond := ZoneCond.closed }) WhichList.closedList i)
                rfl (fun w2 => by cases w2 <;> rfl)
                ((unlink_counters ({ s with nr_imp_open := s.nr_imp_open - 1 }) i).1)
                ((unlink_counters ({ s with nr_imp_open := s.nr_imp_open - 1 }) i).2.1)
                ((unlink_counters ({ s with nr_imp_open := s.nr_imp_open - 1 }) i).2.2.1)
                ((unlink_counters ({ s with nr_imp_open := s.nr_imp_open - 1 }) i).2.2.2)
                rfl rfl
            refine ⟨G.1, G.2.1, G.2.2.1, G.2.2.2.2, ?_, ?_, fun hh =>
              absurd hh hc7⟩
            · intro hne
              first
                | exact absurd hexpc hne
                | exact (unlink_counters ({ s with nr_imp_open := s.nr_imp_open - 1 }) i).2.1
            · exact Or.inl (fun hh => absurd
                ((congrArg Zone.cond G.2.2.2.1).symm.trans hh) (by simp))
        · rw [if_neg h5]
          have hexpc : (getZone s i).cond = ZoneCond.expOpen := by
            rcases hop with hc | hc
            · exact absurd hc h5
            · exact hc
          have hpos := cntExp_pos s i hi h4 hexpc
          have hle := hI.exp_le
          have himpC : cntImp s ≤
              ({ s with nr_exp_open := s.nr_exp_open - 1 } :
                ZDev).nr_imp_open +
              (if (getZone s i).type = ZoneType.seqWriteReq ∧
                (getZone s i).cond = ZoneCond.impOpen then 1 else 0) := by
            have := hI.imp_le
            show cntImp s ≤ s.nr_imp_open + _
            omega
          have hexpC : cntExp s ≤
              ({ s with nr_exp_open := s.nr_exp_open - 1 } :
                ZDev).nr_exp_open +
              (if (getZone s i).type = ZoneType.seqWriteReq ∧
                (getZone s i).cond = ZoneCond.expOpen then 1 else 0) := by
            rw [if_pos ⟨h4, hexpc⟩]
            show cntExp s ≤ s.nr_exp_open - 1 + 1
            omega
          by_cases h3 : (getZone s i).wp = (getZone s i).start
          · rw [if_pos h3]
            have G := close_branch s ({ s with nr_exp_open := s.nr_exp_open - 1 }) i hI hi hop
                rfl rfl rfl rfl rfl himpC hexpC ZoneCond.empty false
                WhichList.seqActiveList rfl (by simp) (by simp)
                ({ zbc_add_zone_tail (setZone (zbc_unlink_zone ({ s with nr_exp_open := s.nr_exp_open - 1 }) i) i { getZone s i with cond := ZoneCond.empty }) WhichList.seqActiveList i with nr_empty_zones := (zbc_add_zone_tail (setZone (zbc_unlink_zone ({ s with nr_exp_open := s.nr_exp_open - 1 }) i) i { getZone s i with cond := ZoneCond.empty }) WhichList.seqActiveList i).nr_empty_zones + 1 })
                rfl (fun w2 => by cases w2 <;> rfl)
                ((unlink_counters ({ s with nr_exp_open := s.nr_exp_open - 1 }) i).1)
                ((unlink_counters ({ s with nr_exp_open := s.nr_exp_open - 1 }) i).2.1)
                ((unlink_counters ({ s with nr_exp_open := s.nr_exp_open - 1 }) i).2.2.1)
                ((unlink_counters ({ s with nr_exp_open := s.nr_exp_open - 1 }) i).2.2.2)
                rfl rfl
            refine ⟨G.1, G.2.1, G.2.2.1, G.2.2.2.2, ?_, ?_, fun hh =>
              absurd hh hc7⟩
            · intro hne
              first
                | exact absurd hexpc hne
                | exact (unlink_counters ({ s with nr_exp_open := s.nr_exp_open - 1 }) i).2.1
            · exact Or.inl (fun hh => absurd
                ((congrArg Zone.cond G.2.2.2.1).symm.trans hh) (by simp))
          · rw [if_neg h3]
            have G := close_branch s ({ s with nr_exp_open := s.nr_exp_open - 1 }) i hI hi hop
                rfl rfl rfl rfl rfl himpC hexpC ZoneCond.closed true
                WhichList.closedList rfl (by simp) (by simp)
                (zbc_add_zone_head (setZone (zbc_unlink_zone ({ s with nr_exp_open := s.nr_exp_open - 1 }) i) i { getZone s i with cond := ZoneCond.closed }) WhichList.closedList i)
                rfl (fun w2 => by cases w2 <;> rfl)
                ((unlink_counters ({ s with nr_exp_open := s.nr_exp_open - 1 }) i).1)
                ((unlink_counters ({ s with nr_exp_open := s.nr_exp_open - 1 }) i).2.1)
                ((unlink_counters ({ s with nr_exp_open := s.nr_exp_open - 1 }) i).2.2.1)
                ((unlink_counters ({ s with nr_exp_open := s.nr_exp_open - 1 }) i).2.2.2)
                rfl rfl
            refine ⟨G.1, G.2.1, G.2.2.1, G.2.2.2.2, ?_, ?_, fun hh =>
              absurd hh hc7⟩
            · intro hne
              first
                | exact absurd hexpc hne
                | exact (unlink_counters ({ s with nr_exp_open := s.nr_exp_open - 1 }) i).2.1
            · exact Or.inl (fun hh => absurd
                ((congrArg Zone.cond G.2.2.2.1).symm.trans hh) (by simp))


end DHSMR
